import Mathlib

/-!
# kinect4metal: packet-processing pipelines

A shallow embedding of the two packet processors of the repository

* `src/metal_depth_packet_processor.cpp` (depth pipeline, C++ wrapper around the
  Objective-C Metal backend declared in `src/metal_depth_processor_objc.h`),
* `src/vt_rgb_packet_processor.cpp` (colour pipeline on VideoToolbox),

followed by theorems about them.

Conventions of the embedding.

* A C++ pointer that may be null is an `Option`; an operation that would
  dereference a null pointer returns `none`.
* Calls that leave the embedded code (the Metal backend, the frame listener,
  CoreMedia / VideoToolbox) are parameters: a record of functions for the
  backend and the listener, a record of answers for the system calls of one
  colour `process` call.
* Every operation returns, next to the new state, the list of `Event`s it
  performed (calls forwarded to the backend, listener invocations, error
  reports).  The event list is a ghost output used to state the theorems.
* Byte buffers are lists of natural numbers, one entry per byte.  A value of
  type `float` inside a table handed to the backend is the natural number of
  its 32 bit pattern.
-/

namespace libfreenect2

/-! ## Frames and packets -/

/-- The enumeration `Frame::Type`. -/
inductive FrameType where
  | Color
  | Ir
  | Depth
deriving DecidableEq

/-- The enumeration `Frame::Format`. -/
inductive FrameFormat where
  | Invalid
  | Raw
  | Float
  | BGRX
  | RGBX
  | Gray
deriving DecidableEq

/-- A `Frame` object.  `id` is the identity of the allocation (its address);
`data` is the pixel buffer, one entry per byte. -/
structure Frame where
  id : Nat
  width : Nat
  height : Nat
  bytes_per_pixel : Nat
  data : List Nat
  timestamp : Nat
  sequence : Nat
  exposure : Nat
  gain : Nat
  gamma : Nat
  format : FrameFormat
deriving DecidableEq

/-- The value of a byte of freshly allocated memory.  C++ leaves the content of
`new unsigned char[n]` unspecified; the model gives every such byte this value,
which is not zero, so that a zero in a buffer can only come from a write.  The
theorems about buffer contents hold for every content of the frames before the
call. -/
def uninitialisedByte : Nat := 205

/-- Modelled from the spec: the size of the buffer allocated by the constructor
`Frame(width, height, bytes_per_pixel)`, whose definition (the `Frame` class of
libfreenect2) is not among the sources.  The spec says of a frame: "Invariant:
buffer size = width × height × bytes-per-pixel"; so the constructor allocates a
buffer of `width * height * bytes_per_pixel` bytes.  The dimensions are the
arguments of the call.  The content of the fresh buffer is unspecified: every
byte is `uninitialisedByte`.  The metadata of a fresh frame are zero until they
are written. -/
def Frame.new (id width height bytes_per_pixel : Nat) : Frame :=
  { id := id, width := width, height := height, bytes_per_pixel := bytes_per_pixel,
    data := List.replicate (width * height * bytes_per_pixel) uninitialisedByte,
    timestamp := 0, sequence := 0, exposure := 0, gain := 0, gamma := 0,
    format := FrameFormat.Invalid }

/-- The fields of `DepthPacket` read by the processor. -/
structure DepthPacket where
  sequence : Nat
  timestamp : Nat
  buffer : List Nat
  buffer_length : Nat

/-- The type `DepthPacketProcessor::Config`. -/
structure Config where
  MinDepth : Nat
  MaxDepth : Nat
  EnableBilateralFilter : Bool
  EnableEdgeAwareFilter : Bool
deriving DecidableEq

/-- `sizeof(float)`. -/
def sizeof_float : Nat := 4

/-- `std::memcpy(dst, src, n)`: the first `n` bytes of `dst` are replaced by
the bytes `src 0 .. src (n - 1)`. -/
def memcpy (dst : List Nat) (src : Nat → Nat) (n : Nat) : List Nat :=
  (List.range' 0 n).map src ++ dst.drop n

/-- `std::memset(dst, c, n)`: the first `n` bytes of `dst` are set to `c`. -/
def memset (dst : List Nat) (c : Nat) (n : Nat) : List Nat :=
  List.replicate n c ++ dst.drop n

/-- The binary exponent of a positive `m < 2 ^ 16`: the `e` with
`2 ^ e ≤ m < 2 ^ (e + 1)` (and 0 for `m = 0`). -/
def exponentOf (m : Nat) : Nat :=
  (List.range 16).foldl (fun e k => if 2 ^ k ≤ m then k else e) 0

/-- The conversion `static_cast<float>(s)` of a `short`
(`-32768 ≤ s ≤ 32767`), as the bit pattern of the IEEE 754 binary32 value:
sign bit, biased exponent `127 + e` where `2 ^ e ≤ |s| < 2 ^ (e + 1)`, and the
23 fraction bits of `|s| / 2 ^ e`. -/
def floatOfShort (s : Int) : Nat :=
  if s = 0 then 0
  else
    let m := s.natAbs
    let e := exponentOf m
    (if s < 0 then 2 ^ 31 else 0) + (127 + e) * 2 ^ 23 + (m - 2 ^ e) * 2 ^ (23 - e)

/-! ## Events -/

/-- What an operation does outside the processor state. -/
inductive Event where
  /-- The call `listener_->onNewFrame(type, frame)` and the value it returned. -/
  | onNewFrame (type : FrameType) (frame : Frame) (result : Bool)
  /-- The call `[processor processDepthData:outputTo:enableFilter:enableBilateral:]`. -/
  | processDepthData (inputData : List Nat) (enableFilter enableBilateral : Bool)
  /-- The call `[processor loadP0TablesFromCommandResponse:length:]`. -/
  | backendLoadP0Tables (data : List Nat) (length : Nat)
  /-- The call `[processor loadXZTables:zTable:length:]`. -/
  | backendLoadXZTables (xTable zTable : List Nat) (length : Nat)
  /-- The call `[processor loadLookupTable:length:]`. -/
  | backendLoadLookupTable (lut : List Nat) (length : Nat)
  /-- A message written with `LOG_ERROR`. -/
  | logError

/-- The event is a listener invocation. -/
def Event.isListenerCall : Event → Bool
  | Event.onNewFrame _ _ _ => true
  | _ => false

/-- The event is a call of a method of the Metal backend. -/
def Event.isBackendCall : Event → Bool
  | Event.processDepthData _ _ _ => true
  | Event.backendLoadP0Tables _ _ => true
  | Event.backendLoadXZTables _ _ _ => true
  | Event.backendLoadLookupTable _ _ => true
  | _ => false

/-- One listener invocation: kind, frame handed over, returned value. -/
structure Delivery where
  type : FrameType
  frame : Frame
  result : Bool

/-- The listener invocations of an event list, in order. -/
def deliveries : List Event → List Delivery
  | [] => []
  | Event.onNewFrame t f r :: es => { type := t, frame := f, result := r } :: deliveries es
  | _ :: es => deliveries es

/-! ## The collaborators of the depth pipeline -/

/-- The Objective-C class `MetalDepthPacketProcessor` of
`metal_depth_processor_objc.h`, whose implementation is not part of the
sources: `β` is the state of a backend object, the fields are its methods.
`initWithWidth` returns `none` for `nil`.  `processDepthData` returns the new
backend state and the content of the output buffer after the call (byte `i` of
`outputData`). -/
structure MetalDepthProcessorObjC (β : Type) where
  initWithWidth : Nat → Nat → Option β
  isReady : β → Bool
  loadP0TablesFromCommandResponse : β → List Nat → Nat → β
  loadXZTables : β → List Nat → List Nat → Nat → β
  loadLookupTable : β → List Nat → Nat → β
  processDepthData : β → List Nat → Bool → Bool → β × (Nat → Nat)

/-- A `FrameListener`: `L` is the state of the listener object, `onNewFrame`
returns the ownership decision and the new listener state.  A listener only
decides: it does not write to a frame it is shown and does not call the
processor from inside `onNewFrame`. -/
structure FrameListener (L : Type) where
  onNewFrame : L → FrameType → Frame → Bool × L

/-! ## `MetalDepthPacketProcessorImpl` -/

/-- The fields of `MetalDepthPacketProcessorImpl`.  `heap` is a ghost field:
the number of `Frame` objects allocated so far, which is the identity given to
the next allocation. -/
structure MetalDepthPacketProcessorImpl (β : Type) where
  config : Config
  ir_frame : Option Frame
  depth_frame : Option Frame
  processor : Option β
  deviceInitialized : Bool
  programInitialized : Bool
  runtimeOk : Bool
  heap : Nat

namespace MetalDepthPacketProcessorImpl

variable {β : Type}

/-- The constant `IMAGE_SIZE`. -/
def IMAGE_SIZE : Nat := 512 * 424

/-- The constant `LUT_SIZE`. -/
def LUT_SIZE : Nat := 2048

/-- The method `newIrFrame`. -/
def newIrFrame (self : MetalDepthPacketProcessorImpl β) : MetalDepthPacketProcessorImpl β :=
  { self with
    ir_frame := some { Frame.new self.heap 512 424 sizeof_float with format := FrameFormat.Float },
    heap := self.heap + 1 }

/-- The method `newDepthFrame`. -/
def newDepthFrame (self : MetalDepthPacketProcessorImpl β) : MetalDepthPacketProcessorImpl β :=
  { self with
    depth_frame := some { Frame.new self.heap 512 424 sizeof_float with format := FrameFormat.Float },
    heap := self.heap + 1 }

/-- The constructor `MetalDepthPacketProcessorImpl(deviceId)`; `config` is the
default-constructed `Config`. -/
def new (B : MetalDepthProcessorObjC β) (config : Config) : MetalDepthPacketProcessorImpl β :=
  let self : MetalDepthPacketProcessorImpl β :=
    { config := config, ir_frame := none, depth_frame := none, processor := none,
      deviceInitialized := false, programInitialized := false, runtimeOk := true, heap := 0 }
  match B.initWithWidth 512 424 with
  | none => { self with processor := none, runtimeOk := false }
  | some b =>
    if B.isReady b = false then { self with processor := none, runtimeOk := false }
    else
      newDepthFrame (newIrFrame
        { self with processor := some b, deviceInitialized := true, programInitialized := true })

/-- The method `ready`. -/
def ready (B : MetalDepthProcessorObjC β) (self : MetalDepthPacketProcessorImpl β) : Bool :=
  self.deviceInitialized && self.programInitialized && self.runtimeOk &&
    (match self.processor with
     | none => false
     | some b => B.isReady b)

/-- The method `loadP0TablesFromCommandResponse`. -/
def loadP0TablesFromCommandResponse (B : MetalDepthProcessorObjC β)
    (self : MetalDepthPacketProcessorImpl β) (buffer : List Nat) (buffer_length : Nat) :
    MetalDepthPacketProcessorImpl β × List Event :=
  match self.processor with
  | none => (self, [])
  | some b =>
    ({ self with processor := some (B.loadP0TablesFromCommandResponse b buffer buffer_length) },
      [Event.backendLoadP0Tables buffer buffer_length])

/-- The method `loadXZTables`. -/
def loadXZTables (B : MetalDepthProcessorObjC β) (self : MetalDepthPacketProcessorImpl β)
    (xtable ztable : List Nat) : MetalDepthPacketProcessorImpl β × List Event :=
  match self.processor with
  | none => (self, [])
  | some b =>
    ({ self with processor := some (B.loadXZTables b xtable ztable IMAGE_SIZE) },
      [Event.backendLoadXZTables xtable ztable IMAGE_SIZE])

/-- The array `floatLut` filled by the loop of `loadLookupTable`. -/
def floatLut (lut : Nat → Int) : List Nat :=
  (List.range LUT_SIZE).map (fun i => floatOfShort (lut i))

/-- The method `loadLookupTable`; `lut i` is the value `lut[i]`. -/
def loadLookupTable (B : MetalDepthProcessorObjC β) (self : MetalDepthPacketProcessorImpl β)
    (lut : Nat → Int) : MetalDepthPacketProcessorImpl β × List Event :=
  match self.processor with
  | none => (self, [])
  | some b =>
    ({ self with processor := some (B.loadLookupTable b (floatLut lut) LUT_SIZE) },
      [Event.backendLoadLookupTable (floatLut lut) LUT_SIZE])

/-- The method `setConfiguration`. -/
def setConfiguration (self : MetalDepthPacketProcessorImpl β) (newConfig : Config) :
    MetalDepthPacketProcessorImpl β :=
  { self with config := newConfig }

/-- The method `process`.  The result is `none` when `depth_frame` or
`ir_frame` is dereferenced while null. -/
def process (B : MetalDepthProcessorObjC β) (self : MetalDepthPacketProcessorImpl β)
    (packet : DepthPacket) : Option (MetalDepthPacketProcessorImpl β × List Event) :=
  match self.processor with
  | none => some (self, [])
  | some b =>
    if self.runtimeOk = false then some (self, [])
    else
      let r := B.processDepthData b packet.buffer
        self.config.EnableEdgeAwareFilter self.config.EnableBilateralFilter
      match self.depth_frame with
      | none => none
      | some depth =>
        match self.ir_frame with
        | none => none
        | some ir =>
          some ({ self with
                  processor := some r.1,
                  depth_frame := some { depth with
                    data := memcpy depth.data r.2 (IMAGE_SIZE * sizeof_float) },
                  ir_frame := some { ir with
                    data := memset ir.data 0 (IMAGE_SIZE * sizeof_float) } },
                [Event.processDepthData packet.buffer
                  self.config.EnableEdgeAwareFilter self.config.EnableBilateralFilter])

end MetalDepthPacketProcessorImpl

/-! ## `MetalDepthPacketProcessor` (the C++ wrapper) -/

/-- The fields of the C++ class `MetalDepthPacketProcessor`: `listener_` and
`config_` are inherited from `DepthPacketProcessor`. -/
structure MetalDepthPacketProcessor (β L : Type) where
  listener_ : Option L
  config_ : Config
  impl_ : Option (MetalDepthPacketProcessorImpl β)

/-- An operation returns the new state and its events, or `none` after a null
dereference. -/
abbrev Outcome (σ : Type) : Type := Option (σ × List Event)

namespace MetalDepthPacketProcessor

variable {β L : Type}

/-- The constructor `MetalDepthPacketProcessor(deviceId)`.  The inherited
fields are parameters: `listener` is the listener attached to the pipeline,
`config` the default configuration. -/
def new (B : MetalDepthProcessorObjC β) (listener : Option L) (config : Config) :
    MetalDepthPacketProcessor β L :=
  { listener_ := listener, config_ := config,
    impl_ := some (MetalDepthPacketProcessorImpl.new B config) }

/-- The method `setConfiguration`. -/
def setConfiguration (self : MetalDepthPacketProcessor β L) (config : Config) :
    MetalDepthPacketProcessor β L :=
  { self with
    impl_ := self.impl_.map (fun impl => impl.setConfiguration config),
    config_ := config }

/-- The method `loadP0TablesFromCommandResponse`. -/
def loadP0TablesFromCommandResponse (B : MetalDepthProcessorObjC β)
    (self : MetalDepthPacketProcessor β L) (buffer : List Nat) (buffer_length : Nat) :
    MetalDepthPacketProcessor β L × List Event :=
  match self.impl_ with
  | none => (self, [])
  | some impl =>
    let r := impl.loadP0TablesFromCommandResponse B buffer buffer_length
    ({ self with impl_ := some r.1 }, r.2)

/-- The method `loadXZTables`. -/
def loadXZTables (B : MetalDepthProcessorObjC β) (self : MetalDepthPacketProcessor β L)
    (xtable ztable : List Nat) : MetalDepthPacketProcessor β L × List Event :=
  match self.impl_ with
  | none => (self, [])
  | some impl =>
    let r := impl.loadXZTables B xtable ztable
    ({ self with impl_ := some r.1 }, r.2)

/-- The method `loadLookupTable`. -/
def loadLookupTable (B : MetalDepthProcessorObjC β) (self : MetalDepthPacketProcessor β L)
    (lut : Nat → Int) : MetalDepthPacketProcessor β L × List Event :=
  match self.impl_ with
  | none => (self, [])
  | some impl =>
    let r := impl.loadLookupTable B lut
    ({ self with impl_ := some r.1 }, r.2)

/-- The method `ready`. -/
def ready (B : MetalDepthProcessorObjC β) (self : MetalDepthPacketProcessor β L) : Bool :=
  match self.impl_ with
  | none => false
  | some impl => impl.ready B

/-- The two deliveries at the end of `process`: the IR frame, then the depth
frame, each followed by a fresh allocation when the listener returned true.
The result is `none` when the listener would be handed a null pointer. -/
def deliver (Lst : FrameListener L) (l : L) (impl : MetalDepthPacketProcessorImpl β) :
    Option (L × MetalDepthPacketProcessorImpl β × List Event) :=
  match impl.ir_frame with
  | none => none
  | some ir =>
    let a := Lst.onNewFrame l FrameType.Ir ir
    let impl1 := if a.1 = true then impl.newIrFrame else impl
    match impl1.depth_frame with
    | none => none
    | some depth =>
      let d := Lst.onNewFrame a.2 FrameType.Depth depth
      let impl2 := if d.1 = true then impl1.newDepthFrame else impl1
      some (d.2, impl2,
        [Event.onNewFrame FrameType.Ir ir a.1, Event.onNewFrame FrameType.Depth depth d.1])

/-- The assignments of `timestamp` and `sequence` at the start of `process`;
`none` when a frame pointer is null. -/
def tag (impl : MetalDepthPacketProcessorImpl β) (packet : DepthPacket) :
    Option (MetalDepthPacketProcessorImpl β) :=
  match impl.ir_frame with
  | none => none
  | some ir =>
    match impl.depth_frame with
    | none => none
    | some depth =>
      some { impl with
             ir_frame := some { ir with
               timestamp := packet.timestamp, sequence := packet.sequence },
             depth_frame := some { depth with
               timestamp := packet.timestamp, sequence := packet.sequence } }

/-- The method `process`. -/
def process (B : MetalDepthProcessorObjC β) (Lst : FrameListener L)
    (self : MetalDepthPacketProcessor β L) (packet : DepthPacket) :
    Outcome (MetalDepthPacketProcessor β L) :=
  match self.listener_ with
  | none => some (self, [])
  | some l =>
    match self.impl_ with
    | none => some (self, [])
    | some impl =>
      if impl.ready B = false then some (self, [Event.logError])
      else
        match tag impl packet with
        | none => none
        | some impl1 =>
          match impl1.process B packet with
          | none => none
          | some (impl2, log) =>
            match deliver Lst l impl2 with
            | none => none
            | some (l2, impl3, log2) =>
              some ({ self with listener_ := some l2, impl_ := some impl3 }, log ++ log2)

end MetalDepthPacketProcessor

/-! ## Sequences of operations on the depth pipeline -/

/-- A call of a public method of the depth pipeline. -/
inductive DepthOp where
  | setConfiguration (config : Config)
  | loadP0TablesFromCommandResponse (buffer : List Nat) (buffer_length : Nat)
  | loadXZTables (xtable ztable : List Nat)
  | loadLookupTable (lut : Nat → Int)
  | process (packet : DepthPacket)

/-- The operation is a call of `process`. -/
def DepthOp.isProcess : DepthOp → Bool
  | DepthOp.process _ => true
  | _ => false

/-- One call. -/
def stepDepth {β L : Type} (B : MetalDepthProcessorObjC β) (Lst : FrameListener L)
    (s : MetalDepthPacketProcessor β L) : DepthOp → Outcome (MetalDepthPacketProcessor β L)
  | DepthOp.setConfiguration c => some (s.setConfiguration c, [])
  | DepthOp.loadP0TablesFromCommandResponse buffer n =>
      some (s.loadP0TablesFromCommandResponse B buffer n)
  | DepthOp.loadXZTables x z => some (s.loadXZTables B x z)
  | DepthOp.loadLookupTable lut => some (s.loadLookupTable B lut)
  | DepthOp.process p => s.process B Lst p

/-- The calls of a list, one after the other; the events are concatenated. -/
def runDepth {β L : Type} (B : MetalDepthProcessorObjC β) (Lst : FrameListener L)
    (s : MetalDepthPacketProcessor β L) : List DepthOp → Outcome (MetalDepthPacketProcessor β L)
  | [] => some (s, [])
  | op :: ops =>
    match stepDepth B Lst s op with
    | none => none
    | some (s1, log1) =>
      match runDepth B Lst s1 ops with
      | none => none
      | some (s2, log2) => some (s2, log1 ++ log2)


/-! ## The colour pipeline: types -/

/-- The value `noErr` of `OSStatus`. -/
def noErr : Int := 0

/-- The value `kCVReturnSuccess` of `CVReturn`. -/
def kCVReturnSuccess : Int := 0

/-- The two values of `CMVideoCodecType` used by the processor:
`kCMVideoCodecType_JPEG` and `kCMVideoCodecType_AppleProRes422`. -/
inductive CMVideoCodecType where
  | JPEG
  | AppleProRes422
deriving DecidableEq

/-- The fields of `RgbPacket` read by the processor. -/
structure RgbPacket where
  sequence : Nat
  timestamp : Nat
  jpeg_buffer : List Nat
  jpeg_buffer_length : Nat
  exposure : Nat
  gain : Nat
  gamma : Nat

/-- The class `VTFrame`: a `Frame` with the fields `pixelBuffer`,
`textureCache` and `usingMetal`.  A Core Foundation reference is a natural
number, a null reference is `none`. -/
structure VTFrame where
  toFrame : Frame
  pixelBuffer : Option Nat
  textureCache : Option Nat
  usingMetal : Bool
deriving DecidableEq

/-- The static type of the reference passed to a `CFRelease` call: each call
site of the processor releases a variable of one of these types. -/
inductive CFObjectType where
  | CMBlockBufferRef
  | CMSampleBufferRef
  | VTDecompressionSessionRef
  | CMFormatDescriptionRef
  | CVMetalTextureRef
  | MTLDevice
deriving DecidableEq

/-- What a colour operation does outside the processor state. -/
inductive VTEvent where
  /-- `CMBlockBufferCreateWithMemoryBlock`, with its status and the reference
  it stored. -/
  | CMBlockBufferCreateWithMemoryBlock (status : Int) (blockBuffer : Option Nat)
  /-- `CMSampleBufferCreate` for a block buffer and a format description, with
  its status and the reference it stored. -/
  | CMSampleBufferCreate (blockBuffer : Nat) (format : Option Nat) (status : Int)
      (sampleBuffer : Option Nat)
  /-- `VTDecompressionSessionDecodeFrame` with its status. -/
  | VTDecompressionSessionDecodeFrame (decoder : Option Nat) (sampleBuffer : Nat) (status : Int)
  /-- `VTDecompressionSessionInvalidate`. -/
  | VTDecompressionSessionInvalidate (decoder : Nat)
  /-- `CMVideoFormatDescriptionCreate` with its status and the reference it stored. -/
  | CMVideoFormatDescriptionCreate (codecType : CMVideoCodecType) (status : Int)
      (format : Option Nat)
  /-- `VTDecompressionSessionCreate` with its status and the reference it stored. -/
  | VTDecompressionSessionCreate (format : Option Nat) (status : Int) (decoder : Option Nat)
  /-- `CVMetalTextureCacheCreate` with its result and the reference it stored. -/
  | CVMetalTextureCacheCreate (cvRet : Int) (textureCache : Option Nat)
  /-- `CVMetalTextureCacheCreateTextureFromImage` with its result and the
  reference it stored. -/
  | CVMetalTextureCacheCreateTextureFromImage (textureCache pixelBuffer : Nat) (cvRet : Int)
      (metalTextureRef : Option Nat)
  /-- `CFRelease` of a reference of the given type. -/
  | CFRelease (type : CFObjectType) (obj : Nat)
  /-- `CVPixelBufferRetain`. -/
  | CVPixelBufferRetain (pixelBuffer : Nat)
  /-- `CVPixelBufferRelease`. -/
  | CVPixelBufferRelease (pixelBuffer : Nat)
  /-- `CVPixelBufferLockBaseAddress`. -/
  | CVPixelBufferLockBaseAddress (pixelBuffer : Option Nat)
  /-- `CVPixelBufferUnlockBaseAddress`. -/
  | CVPixelBufferUnlockBaseAddress (pixelBuffer : Nat)
  /-- `CVMetalTextureCacheFlush`. -/
  | CVMetalTextureCacheFlush (textureCache : Nat)
  /-- A call of `setupDecoder` made by `process` has returned `result`. -/
  | setupDecoder (codecType : CMVideoCodecType) (result : Bool)
  /-- The call `listener_->onNewFrame(type, frame)` and the value it returned. -/
  | onNewFrame (type : FrameType) (frame : VTFrame) (result : Bool)
  /-- The statement `delete frame`. -/
  | deleteFrame (frame : VTFrame)
  /-- A message written with `LOG_ERROR`. -/
  | logError

/-- The answers of the system to the calls of one `VTFrame` constructor. -/
structure TextureAnswers where
  /-- Result of `CVMetalTextureCacheCreateTextureFromImage`. -/
  cvRet : Int
  /-- Reference stored in `metalTextureRef`. -/
  metalTextureRef : Option Nat
  /-- Result of `CVMetalTextureGetTexture`. -/
  metalTexture : Option Nat
  /-- Memory at `[metalTexture contents]`. -/
  contents : List Nat
  /-- Memory at `CVPixelBufferGetBaseAddress(pixelBuffer)`. -/
  baseAddress : List Nat

/-- The answers of the system to the calls of one `setupDecoder`. -/
structure SetupAnswers where
  /-- Status of `CMVideoFormatDescriptionCreate`. -/
  formatStatus : Int
  /-- Reference left in `format` by `CMVideoFormatDescriptionCreate`. -/
  format : Option Nat
  /-- The three `CFNumberCreate` results. -/
  wNum : Option Nat
  hNum : Option Nat
  pNum : Option Nat
  /-- Result of `CFDictionaryCreate` for the output configuration. -/
  outputConfiguration : Option Nat
  /-- Result of `CFDictionaryCreateMutable` for the decoder specification. -/
  decoderSpec : Option Nat
  /-- Status of `VTDecompressionSessionCreate`. -/
  sessionStatus : Int
  /-- Reference left in `decoder` by `VTDecompressionSessionCreate`. -/
  decoder : Option Nat
  /-- Result of `MTLCreateSystemDefaultDevice`. -/
  device : Option Nat
  /-- Result of `CVMetalTextureCacheCreate`. -/
  cacheRet : Int
  /-- Reference left in `textureCache` by `CVMetalTextureCacheCreate`. -/
  textureCache : Option Nat

/-- The answer of the system to one `VTDecompressionSessionDecodeFrame`: the
status it returns and, when the output callback `decodeFrame` is invoked, the
status and the pixel buffer the callback receives. -/
structure DecodeAnswer where
  status : Int
  callback : Option (Int × Option Nat)

/-- The answers of the system to the calls one `process` can make, one per
call site. -/
structure ProcessAnswers where
  /-- Status and reference of `CMBlockBufferCreateWithMemoryBlock`. -/
  blockStatus : Int
  blockBuffer : Option Nat
  /-- Status and reference of the first `CMSampleBufferCreate`. -/
  sampleStatus : Int
  sampleBuffer : Option Nat
  /-- The first decode. -/
  decode1 : DecodeAnswer
  /-- The call `setupDecoder(kCMVideoCodecType_AppleProRes422)`. -/
  setup : SetupAnswers
  /-- Status and reference of the second `CMSampleBufferCreate`. -/
  sampleStatus2 : Int
  sampleBuffer2 : Option Nat
  /-- The second decode. -/
  decode2 : DecodeAnswer
  /-- The constructor of the `VTFrame`. -/
  texture : TextureAnswers
  /-- Identity of the `VTFrame` allocated by `new`. -/
  frameId : Nat

/-! ## `VTFrame` -/

/-- The constructor `VTFrame(width, height, bytes_per_pixel, pixelBuffer,
textureCache)`. -/
def VTFrame.new (id width height bytes_per_pixel : Nat) (pixelBuffer textureCache : Option Nat)
    (T : TextureAnswers) : VTFrame × List VTEvent :=
  let cpu : VTFrame × List VTEvent :=
    ({ toFrame := { Frame.new id width height bytes_per_pixel with data := T.baseAddress },
       pixelBuffer := pixelBuffer, textureCache := textureCache, usingMetal := false },
     [VTEvent.CVPixelBufferLockBaseAddress pixelBuffer])
  match textureCache, pixelBuffer with
  | some tc, some pb =>
    let create := VTEvent.CVMetalTextureCacheCreateTextureFromImage tc pb T.cvRet T.metalTextureRef
    if T.cvRet = kCVReturnSuccess then
      match T.metalTextureRef with
      | some ref =>
        match T.metalTexture with
        | some _ =>
          ({ toFrame := { Frame.new id width height bytes_per_pixel with data := T.contents },
             pixelBuffer := pixelBuffer, textureCache := textureCache, usingMetal := true },
           [create, VTEvent.CFRelease CFObjectType.CVMetalTextureRef ref])
        | none => (cpu.1, [create, VTEvent.CFRelease CFObjectType.CVMetalTextureRef ref] ++ cpu.2)
      | none => (cpu.1, create :: cpu.2)
    else (cpu.1, create :: cpu.2)
  | _, _ => cpu

/-- The destructor `~VTFrame()`. -/
def VTFrame.delete (frame : VTFrame) : List VTEvent :=
  (match frame.pixelBuffer with
   | some pb =>
     (if frame.usingMetal = false then [VTEvent.CVPixelBufferUnlockBaseAddress pb] else []) ++
       [VTEvent.CVPixelBufferRelease pb]
   | none => []) ++
  (match frame.textureCache with
   | some tc => [VTEvent.CVMetalTextureCacheFlush tc]
   | none => [])

/-! ## `VTRgbPacketProcessorImpl` -/

/-- The fields of `VTRgbPacketProcessorImpl`. -/
structure VTRgbPacketProcessorImpl where
  format : Option Nat
  decoder : Option Nat
  textureCache : Option Nat
  currentCodec : CMVideoCodecType
deriving DecidableEq

namespace VTRgbPacketProcessorImpl

/-- The part of `setupDecoder` that releases the existing session and format
description. -/
def cleanup (self : VTRgbPacketProcessorImpl) : VTRgbPacketProcessorImpl × List VTEvent :=
  let e1 := match self.decoder with
    | some d =>
      [VTEvent.VTDecompressionSessionInvalidate d,
        VTEvent.CFRelease CFObjectType.VTDecompressionSessionRef d]
    | none => []
  let e2 := match self.format with
    | some f => [VTEvent.CFRelease CFObjectType.CMFormatDescriptionRef f]
    | none => []
  ({ self with decoder := none, format := none }, e1 ++ e2)

/-- The part of `setupDecoder` that initialises the Metal texture cache when
there is none yet. -/
def initTextureCache (self : VTRgbPacketProcessorImpl) (A : SetupAnswers) :
    VTRgbPacketProcessorImpl × List VTEvent :=
  match self.textureCache with
  | some _ => (self, [])
  | none =>
    match A.device with
    | none => (self, [])
    | some device =>
      let created := VTEvent.CVMetalTextureCacheCreate A.cacheRet A.textureCache
      if A.cacheRet = kCVReturnSuccess ∧ A.textureCache.isSome = true then
        ({ self with textureCache := A.textureCache },
          [created, VTEvent.CFRelease CFObjectType.MTLDevice device])
      else
        ({ self with textureCache := none },
          [created, VTEvent.CFRelease CFObjectType.MTLDevice device])

/-- The method `setupDecoder`: the returned value, the new state and the
events. -/
def setupDecoder (self : VTRgbPacketProcessorImpl) (codecType : CMVideoCodecType)
    (A : SetupAnswers) : Bool × VTRgbPacketProcessorImpl × List VTEvent :=
  if self.decoder.isSome = true ∧ self.currentCodec = codecType then (true, self, [])
  else
    let c := cleanup self
    let s1 : VTRgbPacketProcessorImpl :=
      { c.1 with currentCodec := codecType, format := A.format }
    let log1 := c.2 ++ [VTEvent.CMVideoFormatDescriptionCreate codecType A.formatStatus A.format]
    if A.formatStatus ≠ noErr then (false, s1, log1 ++ [VTEvent.logError])
    else if s1.format.isSome = false then (false, s1, log1 ++ [VTEvent.logError])
    else if A.wNum.isSome = false ∨ A.hNum.isSome = false ∨ A.pNum.isSome = false then
      (false, s1, log1 ++ [VTEvent.logError])
    else if A.outputConfiguration.isSome = false then (false, s1, log1 ++ [VTEvent.logError])
    else if A.decoderSpec.isSome = false then (false, s1, log1 ++ [VTEvent.logError])
    else
      let log2 := log1 ++
        [VTEvent.VTDecompressionSessionCreate s1.format A.sessionStatus A.decoder]
      if A.sessionStatus ≠ noErr then
        (false, { s1 with decoder := none }, log2 ++ [VTEvent.logError])
      else
        let s2 : VTRgbPacketProcessorImpl := { s1 with decoder := A.decoder }
        if s2.decoder.isSome = false then (false, s2, log2 ++ [VTEvent.logError])
        else
          let t := initTextureCache s2 A
          (true, t.1, log2 ++ t.2)

/-- The constructor `VTRgbPacketProcessorImpl()`. -/
def new (A : SetupAnswers) : VTRgbPacketProcessorImpl :=
  (setupDecoder
    { format := none, decoder := none, textureCache := none,
      currentCodec := CMVideoCodecType.JPEG }
    CMVideoCodecType.JPEG A).2.1

/-- The output callback `decodeFrame`: `out` is the content of
`*outputPixelBuffer` before the call, the result is its content afterwards. -/
def decodeFrame (out : Option Nat) (status : Int) (pixelBuffer : Option Nat) :
    Option Nat × List VTEvent :=
  if status = noErr ∧ pixelBuffer.isSome = true then
    match pixelBuffer with
    | some pb => (some pb, [VTEvent.CVPixelBufferRetain pb])
    | none => (out, [])
  else if status ≠ noErr then (out, [VTEvent.logError])
  else (out, [])

end VTRgbPacketProcessorImpl

/-! ## `VTRgbPacketProcessor` -/

/-- The fields of `VTRgbPacketProcessor`; `listener_` is inherited from
`RgbPacketProcessor`. -/
structure VTRgbPacketProcessor (L : Type) where
  listener_ : Option L
  impl_ : VTRgbPacketProcessorImpl

/-- The local variables `status`, `pixelBuffer` and `sampleBuffer` of
`VTRgbPacketProcessor::process`. -/
structure DecodeLocals where
  status : Int
  pixelBuffer : Option Nat
  sampleBuffer : Option Nat
deriving DecidableEq

namespace VTRgbPacketProcessor

variable {L : Type}

/-- The constructor `VTRgbPacketProcessor()`; `listener` is the listener
attached to the pipeline. -/
def new (listener : Option L) (A : SetupAnswers) : VTRgbPacketProcessor L :=
  { listener_ := listener, impl_ := VTRgbPacketProcessorImpl.new A }

/-- One call `VTDecompressionSessionDecodeFrame(decoder, sampleBuffer,
decodeFlags, &pixelBuffer, NULL)`: the returned status and the content of
`pixelBuffer` after the call. -/
def decode (decoder : Option Nat) (sampleBuffer : Nat) (pixelBuffer : Option Nat)
    (D : DecodeAnswer) : Int × Option Nat × List VTEvent :=
  let cb : Option Nat × List VTEvent :=
    match D.callback with
    | none => (pixelBuffer, [])
    | some (st, pb) => VTRgbPacketProcessorImpl.decodeFrame pixelBuffer st pb
  (D.status, cb.1, VTEvent.VTDecompressionSessionDecodeFrame decoder sampleBuffer D.status :: cb.2)

/-- The failure test applied after a decode: `status != noErr || pixelBuffer == NULL`. -/
def decodeFailed (status : Int) (pixelBuffer : Option Nat) : Bool :=
  decide (status ≠ noErr) || pixelBuffer.isNone

/-- The block "Fallback to ProRes if JPEG decode failed" of `process`, entered
when the first decode failed and the current codec is JPEG. -/
def fallback (impl : VTRgbPacketProcessorImpl) (blockBuffer : Nat) (sampleBuffer : Nat)
    (v : DecodeLocals) (A : ProcessAnswers) :
    VTRgbPacketProcessorImpl × DecodeLocals × List VTEvent :=
  let r := impl.setupDecoder CMVideoCodecType.AppleProRes422 A.setup
  let log0 := r.2.2 ++ [VTEvent.setupDecoder CMVideoCodecType.AppleProRes422 r.1]
  if r.1 = true then
    let log1 := log0 ++ [VTEvent.CFRelease CFObjectType.CMSampleBufferRef sampleBuffer,
      VTEvent.CMSampleBufferCreate blockBuffer r.2.1.format A.sampleStatus2 A.sampleBuffer2]
    match A.sampleBuffer2 with
    | some sb =>
      if A.sampleStatus2 = noErr then
        let d := decode r.2.1.decoder sb v.pixelBuffer A.decode2
        (r.2.1, { status := d.1, pixelBuffer := d.2.1, sampleBuffer := some sb },
          log1 ++ d.2.2 ++ (if decodeFailed d.1 d.2.1 = true then [VTEvent.logError] else []))
      else
        (r.2.1, { status := A.sampleStatus2, pixelBuffer := v.pixelBuffer,
                  sampleBuffer := some sb }, log1 ++ [VTEvent.logError])
    | none =>
      (r.2.1, { status := A.sampleStatus2, pixelBuffer := v.pixelBuffer, sampleBuffer := none },
        log1 ++ [VTEvent.logError])
  else (r.2.1, v, log0 ++ [VTEvent.logError])

/-- The frame built by `process` for a decoded pixel buffer, as it is handed to
the listener: constructed by `VTFrame`, then given the format `BGRX` and the
metadata of the packet. -/
def colorFrame (impl : VTRgbPacketProcessorImpl) (packet : RgbPacket) (pixelBuffer : Nat)
    (A : ProcessAnswers) : VTFrame :=
  { (VTFrame.new A.frameId 1920 1080 4 (some pixelBuffer) impl.textureCache A.texture).1 with
    toFrame :=
      { (VTFrame.new A.frameId 1920 1080 4 (some pixelBuffer) impl.textureCache
          A.texture).1.toFrame with
        format := FrameFormat.BGRX,
        timestamp := packet.timestamp, sequence := packet.sequence,
        exposure := packet.exposure, gain := packet.gain, gamma := packet.gamma } }

/-- The end of `process` from `if (status == noErr && pixelBuffer != NULL)`:
the frame is built, tagged and handed to the listener, or the failure is
reported.  The result is the new listener state and the events. -/
def finish (Lst : FrameListener L) (l : L) (impl : VTRgbPacketProcessorImpl)
    (packet : RgbPacket) (v : DecodeLocals) (A : ProcessAnswers) : L × List VTEvent :=
  match v.pixelBuffer with
  | some pb =>
    if v.status = noErr then
      let frame := colorFrame impl packet pb A
      let a := Lst.onNewFrame l FrameType.Color frame.toFrame
      (a.2, (VTFrame.new A.frameId 1920 1080 4 (some pb) impl.textureCache A.texture).2 ++
        [VTEvent.onNewFrame FrameType.Color frame a.1] ++
        (if a.1 = false then VTEvent.deleteFrame frame :: frame.delete else []))
    else (l, [VTEvent.logError])
  | none => (l, [VTEvent.logError])

/-- The releases "Clean up resources" at the end of `process`. -/
def releaseBuffers (sampleBuffer : Option Nat) (blockBuffer : Nat) : List VTEvent :=
  (match sampleBuffer with
   | some sb => [VTEvent.CFRelease CFObjectType.CMSampleBufferRef sb]
   | none => []) ++ [VTEvent.CFRelease CFObjectType.CMBlockBufferRef blockBuffer]

/-- "Attempt 1" of `process`: the decode with the current decoder, starting
from a null `pixelBuffer`.  The result is the local variables after the decode
and the events. -/
def firstAttempt (impl : VTRgbPacketProcessorImpl) (sampleBuffer : Nat) (A : ProcessAnswers) :
    DecodeLocals × List VTEvent :=
  let d := decode impl.decoder sampleBuffer none A.decode1
  ({ status := d.1, pixelBuffer := d.2.1, sampleBuffer := some sampleBuffer }, d.2.2)

/-- The decode attempts of `process`: the first attempt and, when it failed
and the current codec is JPEG, the fallback block.  The result is the state of
the implementation object, the local variables when
`if (status == noErr && pixelBuffer != NULL)` is reached, and the events. -/
def attempts (impl : VTRgbPacketProcessorImpl) (blockBuffer sampleBuffer : Nat)
    (A : ProcessAnswers) : VTRgbPacketProcessorImpl × DecodeLocals × List VTEvent :=
  let a := firstAttempt impl sampleBuffer A
  if decodeFailed a.1.status a.1.pixelBuffer = true ∧
      impl.currentCodec = CMVideoCodecType.JPEG then
    let f := fallback impl blockBuffer sampleBuffer a.1 A
    (f.1, f.2.1, a.2 ++ f.2.2)
  else (impl, a.1, a.2)

/-- The part of `process` from the creation of the block buffer to the end of
the fallback block.  The first component is `none` when `process` returns
early, and otherwise the block buffer, the state of the implementation object
and the local variables when `if (status == noErr && pixelBuffer != NULL)` is
reached. -/
def decodePhase (impl : VTRgbPacketProcessorImpl) (A : ProcessAnswers) :
    Option (Nat × VTRgbPacketProcessorImpl × DecodeLocals) × List VTEvent :=
  let e0 := VTEvent.CMBlockBufferCreateWithMemoryBlock A.blockStatus A.blockBuffer
  match A.blockBuffer with
  | none => (none, [e0, VTEvent.logError])
  | some blockBuffer =>
    if A.blockStatus ≠ noErr then (none, [e0, VTEvent.logError])
    else
      let e1 := VTEvent.CMSampleBufferCreate blockBuffer impl.format
        A.sampleStatus A.sampleBuffer
      match A.sampleBuffer with
      | none =>
        (none, [e0, e1, VTEvent.logError,
          VTEvent.CFRelease CFObjectType.CMBlockBufferRef blockBuffer])
      | some sampleBuffer =>
        if A.sampleStatus ≠ noErr then
          (none, [e0, e1, VTEvent.logError,
            VTEvent.CFRelease CFObjectType.CMBlockBufferRef blockBuffer])
        else
          let t := attempts impl blockBuffer sampleBuffer A
          (some (blockBuffer, t.1, t.2.1), [e0, e1] ++ t.2.2)

/-- The method `process`. -/
def process (Lst : FrameListener L) (self : VTRgbPacketProcessor L) (packet : RgbPacket)
    (A : ProcessAnswers) : VTRgbPacketProcessor L × List VTEvent :=
  match self.listener_ with
  | none => (self, [])
  | some l =>
    match decodePhase self.impl_ A with
    | (none, log) => (self, log)
    | (some (blockBuffer, impl, v), log) =>
      let g := finish Lst l impl packet v A
      ({ listener_ := some g.1, impl_ := impl },
        log ++ g.2 ++ releaseBuffers v.sampleBuffer blockBuffer)

end VTRgbPacketProcessor

/-- A run of the colour pipeline over a list of packets, each with the answers
of the system during its `process` call; the result is the final state and the
events of each call. -/
def runColor {L : Type} (Lst : FrameListener L) (s : VTRgbPacketProcessor L) :
    List (RgbPacket × ProcessAnswers) → VTRgbPacketProcessor L × List (List VTEvent)
  | [] => (s, [])
  | (p, A) :: rest =>
    let r := s.process Lst p A
    let q := runColor Lst r.1 rest
    (q.1, r.2 :: q.2)

/-! ## Auxiliary definitions used to state the depth theorems -/

/-- The IR frame as it is handed to the listener: tagged and zero-filled. -/
def irDelivered (ir : Frame) (packet : DepthPacket) : Frame :=
  { ir with
    timestamp := packet.timestamp, sequence := packet.sequence,
    data := memset ir.data 0 (MetalDepthPacketProcessorImpl.IMAGE_SIZE * sizeof_float) }

/-- The depth frame as it is handed to the listener: tagged and filled from
the output buffer `out` of the backend. -/
def depthDelivered (depth : Frame) (packet : DepthPacket) (out : Nat → Nat) : Frame :=
  { depth with
    timestamp := packet.timestamp, sequence := packet.sequence,
    data := memcpy depth.data out (MetalDepthPacketProcessorImpl.IMAGE_SIZE * sizeof_float) }

/-- The state of the implementation object after a ready `process` call, given
the answers `a` and `d` of the listener. -/
def implAfter {β : Type} (impl : MetalDepthPacketProcessorImpl β) (b : β) (irT depthT : Frame)
    (a d : Bool) : MetalDepthPacketProcessorImpl β :=
  { impl with
    processor := some b,
    ir_frame := if a = true then
        some { Frame.new impl.heap 512 424 sizeof_float with format := FrameFormat.Float }
      else some irT,
    depth_frame := if d = true then
        some { Frame.new (if a = true then impl.heap + 1 else impl.heap) 512 424 sizeof_float with
               format := FrameFormat.Float }
      else some depthT,
    heap := (if a = true then impl.heap + 1 else impl.heap) + (if d = true then 1 else 0) }

/-- The kind, timestamp and sequence number of each listener invocation. -/
def tagsOf (ds : List Delivery) : List (FrameType × Nat × Nat) :=
  ds.map (fun d => (d.type, d.frame.timestamp, d.frame.sequence))

/-- The invocations expected for a list of packets: for each packet, in
order, the IR frame and then the depth frame, both with the timestamp and the
sequence number of the packet. -/
def expectedTags : List DepthPacket → List (FrameType × Nat × Nat)
  | [] => []
  | p :: ps =>
    (FrameType.Ir, p.timestamp, p.sequence) :: (FrameType.Depth, p.timestamp, p.sequence) ::
      expectedTags ps

/-- The pipeline is ready at each call of `process` of the run over `packets`. -/
def readyAtEach {β L : Type} (B : MetalDepthProcessorObjC β) (Lst : FrameListener L)
    (s : MetalDepthPacketProcessor β L) : List DepthPacket → Bool
  | [] => true
  | p :: ps =>
    s.ready B &&
      (match s.process B Lst p with
       | none => false
       | some (s1, _) => readyAtEach B Lst s1 ps)

/-- The states of a pipeline: those reached from construction by a sequence of
calls. -/
def Reachable {β L : Type} (B : MetalDepthProcessorObjC β) (Lst : FrameListener L)
    (s : MetalDepthPacketProcessor β L) : Prop :=
  ∃ (listener : Option L) (config : Config) (ops : List DepthOp) (log : List Event),
    runDepth B Lst (MetalDepthPacketProcessor.new B listener config) ops = some (s, log)

/-- The invariant of the pipeline states, for the outcome `r` of the
construction (true when the backend was initialised): the implementation
object exists, its three flags equal `r`, it holds a backend object exactly
when `r` is true, and in that case both frames are allocated, are different
objects and have identities below the allocation counter. -/
def WellFormed {β L : Type} (r : Bool) (s : MetalDepthPacketProcessor β L) : Prop :=
  ∃ impl, s.impl_ = some impl ∧ impl.deviceInitialized = r ∧ impl.programInitialized = r ∧
    impl.runtimeOk = r ∧ impl.processor.isSome = r ∧
    (r = true → ∃ ir depth, impl.ir_frame = some ir ∧ impl.depth_frame = some depth ∧
      ir.id < impl.heap ∧ depth.id < impl.heap ∧ ir.id ≠ depth.id)

/-- No event of the list is a listener invocation or a backend call. -/
def silent (log : List Event) : Bool :=
  log.all (fun e => !e.isListenerCall && !e.isBackendCall)

/-- The operation is a call of `loadP0TablesFromCommandResponse`. -/
def DepthOp.isLoadP0Tables : DepthOp → Bool
  | DepthOp.loadP0TablesFromCommandResponse _ _ => true
  | _ => false

/-- The operation is a call of `loadXZTables`. -/
def DepthOp.isLoadXZTables : DepthOp → Bool
  | DepthOp.loadXZTables _ _ => true
  | _ => false

/-- The operation is a call of `loadLookupTable`. -/
def DepthOp.isLoadLookupTable : DepthOp → Bool
  | DepthOp.loadLookupTable _ => true
  | _ => false

/-- Each of the three tables has been loaded by some call of the list. -/
def allTablesLoaded (ops : List DepthOp) : Bool :=
  ops.any DepthOp.isLoadP0Tables && ops.any DepthOp.isLoadXZTables &&
    ops.any DepthOp.isLoadLookupTable

/-- A backend as `metal_depth_processor_objc.h` documents `isReady` ("YES if
Metal device, shaders, and buffers are initialized"): the device is available,
the object is ready from its initialisation on, and the output buffer is
filled with zero bytes.  It is used to evaluate the pipeline on concrete
inputs. -/
def readyBackend : MetalDepthProcessorObjC Unit :=
  { initWithWidth := fun _ _ => some (),
    isReady := fun _ => true,
    loadP0TablesFromCommandResponse := fun b _ _ => b,
    loadXZTables := fun b _ _ _ => b,
    loadLookupTable := fun b _ _ => b,
    processDepthData := fun b _ _ _ => (b, fun _ => 0) }

/-- A backend whose initialisation fails: `initWithWidth` returns `nil`. -/
def unavailableBackend : MetalDepthProcessorObjC Unit :=
  { readyBackend with initWithWidth := fun _ _ => none }

/-- A listener without state that returns `answer` for every frame. -/
def constListener (answer : Bool) : FrameListener Unit :=
  { onNewFrame := fun l _ _ => (answer, l) }

/-- A listener that accepts IR frames and rejects every other frame. -/
def irOnlyListener : FrameListener Unit :=
  { onNewFrame := fun l t _ => (decide (t = FrameType.Ir), l) }

/-- A configuration with both filters enabled. -/
def demoConfig : Config :=
  { MinDepth := 0, MaxDepth := 0, EnableBilateralFilter := true, EnableEdgeAwareFilter := true }

/-- A depth packet with the given sequence number and timestamp and an empty
buffer. -/
def demoPacket (sequence timestamp : Nat) : DepthPacket :=
  { sequence := sequence, timestamp := timestamp, buffer := [], buffer_length := 0 }

/-- The statement "ready only after all tables are loaded" for a backend and
a listener: in every state reached from construction in which `ready` returns
true, each of `loadP0TablesFromCommandResponse`, `loadXZTables` and
`loadLookupTable` has been performed. -/
def ReadyOnlyAfterLoads {β L : Type} (B : MetalDepthProcessorObjC β) (Lst : FrameListener L) :
    Prop :=
  ∀ (listener : Option L) (config : Config) (ops : List DepthOp)
    (s : MetalDepthPacketProcessor β L) (log : List Event),
    runDepth B Lst (MetalDepthPacketProcessor.new B listener config) ops = some (s, log) →
    s.ready B = true → allTablesLoaded ops = true

/-- The terminal state of a pipeline whose backend failed to initialise: no
backend object and no frame. -/
def Unavailable {β L : Type} (s : MetalDepthPacketProcessor β L) : Prop :=
  ∃ impl, s.impl_ = some impl ∧ impl.processor = none ∧ impl.ir_frame = none ∧
    impl.depth_frame = none

/-- The pipeline's current frame of a kind: `impl_->ir_frame` for IR,
`impl_->depth_frame` for depth; the depth pipeline has no colour frame. -/
def currentFrame {β L : Type} (k : FrameType) (s : MetalDepthPacketProcessor β L) :
    Option Frame :=
  match s.impl_ with
  | none => none
  | some impl =>
    match k with
    | FrameType.Ir => impl.ir_frame
    | FrameType.Depth => impl.depth_frame
    | FrameType.Color => none

/-- The allocation counter of the pipeline. -/
def heapOf {β L : Type} (s : MetalDepthPacketProcessor β L) : Nat :=
  match s.impl_ with
  | none => 0
  | some impl => impl.heap

/-- The identities of the frames of kind `k` among the deliveries, in order. -/
def idsOfKind (k : FrameType) (ds : List Delivery) : List Nat :=
  (ds.filter (fun d => decide (d.type = k))).map (fun d => d.frame.id)

/-- The identities of all delivered frames, in order. -/
def deliveredIds (ds : List Delivery) : List Nat :=
  ds.map (fun d => d.frame.id)

/-! ## Auxiliary definitions used to state the remaining theorems -/

/-- Modelled from the spec: the length validation of the backend method
`loadP0TablesFromCommandResponse:length:`, whose implementation
(`metal_depth_processor_objc.mm`) is not among the sources.  The spec says of
the load: "Fails (signals `CalibrationError`) if `length` does not match the
expected P0 response size; does not change readiness state on failure", and
"length must exactly match the expected size or the load is rejected".  A
buffer whose length differs from `expected` leaves the backend object as it
is; a buffer of the expected length is uploaded by `upload`. -/
def specLoadP0Tables {β : Type} (expected : Nat) (upload : β → List Nat → β) (b : β)
    (data : List Nat) (length : Nat) : β :=
  if length = expected then upload b data else b

/-- Modelled from the spec: the backend `B` with the length validation of
`specLoadP0Tables` as its `loadP0TablesFromCommandResponse`. -/
def withSpecLoadP0Tables {β : Type} (B : MetalDepthProcessorObjC β) (expected : Nat)
    (upload : β → List Nat → β) : MetalDepthProcessorObjC β :=
  { B with loadP0TablesFromCommandResponse := specLoadP0Tables expected upload }

/-- The events the colour theorems speak about: decode attempts, calls of
`setupDecoder` from `process`, listener invocations and frame deletions. -/
def VTEvent.observable : VTEvent → Bool
  | VTEvent.VTDecompressionSessionDecodeFrame _ _ _ => true
  | VTEvent.setupDecoder _ _ => true
  | VTEvent.onNewFrame _ _ _ => true
  | VTEvent.deleteFrame _ => true
  | _ => false

/-- The observable events of a list, in order. -/
def observed (log : List VTEvent) : List VTEvent :=
  log.filter VTEvent.observable

/-- The event is a decode attempt. -/
def VTEvent.isDecode : VTEvent → Bool
  | VTEvent.VTDecompressionSessionDecodeFrame _ _ _ => true
  | _ => false

/-- The event is a call of `setupDecoder` made by `process`. -/
def VTEvent.isSetupDecoder : VTEvent → Bool
  | VTEvent.setupDecoder _ _ => true
  | _ => false

/-- The event is a listener invocation. -/
def VTEvent.isListenerCall : VTEvent → Bool
  | VTEvent.onNewFrame _ _ _ => true
  | _ => false

/-- The number of decode attempts. -/
def decodeCount (log : List VTEvent) : Nat := log.countP VTEvent.isDecode

/-- The number of calls of `setupDecoder` made by `process`. -/
def setupCount (log : List VTEvent) : Nat := log.countP VTEvent.isSetupDecoder

/-- The number of listener invocations. -/
def listenerCount (log : List VTEvent) : Nat := log.countP VTEvent.isListenerCall

/-- The listener invocations of a colour event list: kind, frame, returned
value. -/
def vtDeliveries : List VTEvent → List (FrameType × VTFrame × Bool)
  | [] => []
  | VTEvent.onNewFrame t f r :: es => (t, f, r) :: vtDeliveries es
  | _ :: es => vtDeliveries es

/-- The frames deleted by the pipeline, in order. -/
def deletedFrames : List VTEvent → List VTFrame
  | [] => []
  | VTEvent.deleteFrame f :: es => f :: deletedFrames es
  | _ :: es => deletedFrames es

/-- The local variables after the first decode of a `process` call, when the
call gets that far (block buffer and sample buffer created). -/
def firstDecode (impl : VTRgbPacketProcessorImpl) (A : ProcessAnswers) : Option DecodeLocals :=
  match A.blockBuffer, A.sampleBuffer with
  | some _, some sampleBuffer =>
    if A.blockStatus = noErr ∧ A.sampleStatus = noErr then
      some (VTRgbPacketProcessor.firstAttempt impl sampleBuffer A).1
    else none
  | _, _ => none

/-- The `process` call enters the fallback block: a listener is attached, the
first decode is reached and fails, and the codec at entry is JPEG. -/
def fallbackTaken {L : Type} (self : VTRgbPacketProcessor L) (A : ProcessAnswers) : Bool :=
  self.listener_.isSome &&
    (match firstDecode self.impl_ A with
     | some v =>
       VTRgbPacketProcessor.decodeFailed v.status v.pixelBuffer &&
         decide (self.impl_.currentCodec = CMVideoCodecType.JPEG)
     | none => false)

/-- Answers of a system on which `setupDecoder` succeeds: every object is
created, and there is no Metal device. -/
def okSetup : SetupAnswers :=
  { formatStatus := 0, format := some 10, wNum := some 11, hNum := some 12, pNum := some 13,
    outputConfiguration := some 14, decoderSpec := some 15, sessionStatus := 0,
    decoder := some 16, device := none, cacheRet := 0, textureCache := none }

/-- Answers of a system on which the decompression session cannot be created. -/
def noSessionSetup : SetupAnswers :=
  { okSetup with sessionStatus := -12906, decoder := none }

/-- Answers for a `VTFrame` constructor on the CPU path. -/
def cpuTexture : TextureAnswers :=
  { cvRet := 0, metalTextureRef := none, metalTexture := none, contents := [], baseAddress := [] }

/-- A decode that fails: status `kVTVideoDecoderBadDataErr`, no callback. -/
def failingDecode : DecodeAnswer :=
  { status := -12909, callback := none }

/-- A decode that succeeds and hands pixel buffer 30 to the callback. -/
def goodDecode : DecodeAnswer :=
  { status := 0, callback := some (0, some 30) }

/-- Answers of one `process` call: buffers are created, both decodes are given
by the arguments, `setupDecoder` is answered by `setup`. -/
def demoAnswers (decode1 decode2 : DecodeAnswer) (setup : SetupAnswers) : ProcessAnswers :=
  { blockStatus := 0, blockBuffer := some 20, sampleStatus := 0, sampleBuffer := some 21,
    decode1 := decode1, setup := setup, sampleStatus2 := 0, sampleBuffer2 := some 22,
    decode2 := decode2, texture := cpuTexture, frameId := 0 }

/-- A colour packet with the given sequence number and timestamp. -/
def demoRgbPacket (sequence timestamp : Nat) : RgbPacket :=
  { sequence := sequence, timestamp := timestamp, jpeg_buffer := [], jpeg_buffer_length := 0,
    exposure := 1, gain := 2, gamma := 3 }

/-- Some call of the run enters the fallback block. -/
def anyFallback {L : Type} (Lst : FrameListener L) (s : VTRgbPacketProcessor L) :
    List (RgbPacket × ProcessAnswers) → Bool
  | [] => false
  | (p, A) :: rest => fallbackTaken s A || anyFallback Lst (s.process Lst p A).1 rest

/-- A backend whose state is the P0 table it holds; it is ready from its
initialisation on.  Its `loadP0TablesFromCommandResponse` is replaced by the
model of the spec where it is used. -/
def tableBackend : MetalDepthProcessorObjC (List Nat) :=
  { initWithWidth := fun _ _ => some [],
    isReady := fun _ => true,
    loadP0TablesFromCommandResponse := fun b _ _ => b,
    loadXZTables := fun b _ _ _ => b,
    loadLookupTable := fun b _ _ => b,
    processDepthData := fun b _ _ _ => (b, fun _ => 0) }

/-- Both current frames have the dimensions and the buffer size given by
`newIrFrame` and `newDepthFrame`: 512 x 424 pixels of `sizeof(float)` bytes,
a buffer of `IMAGE_SIZE * sizeof(float)` bytes. -/
def FramesSized {β L : Type} (s : MetalDepthPacketProcessor β L) : Prop :=
  ∀ (k : FrameType) (f : Frame), currentFrame k s = some f →
    f.width = 512 ∧ f.height = 424 ∧ f.bytes_per_pixel = sizeof_float ∧
      f.data.length = MetalDepthPacketProcessorImpl.IMAGE_SIZE * sizeof_float

/-- The integer denoted by an IEEE 754 binary32 bit pattern, when it denotes
one: sign bit `bits / 2 ^ 31`, biased exponent `E = bits / 2 ^ 23 % 256` and
fraction `F = bits % 2 ^ 23`.  The pattern with `E = 0` and `F = 0` is zero;
for `127 ≤ E ≤ 150` the value is `± (2 ^ 23 + F) / 2 ^ (150 - E)`, an integer
exactly when the division leaves no remainder.  All other patterns (fractions,
values of `2 ^ 24` and above, infinities, NaN) give `none`. -/
def float32ToInt (bits : Nat) : Option Int :=
  let sign := bits / 2 ^ 31 % 2
  let E := bits / 2 ^ 23 % 256
  let F := bits % 2 ^ 23
  if E = 0 ∧ F = 0 then some 0
  else if 127 ≤ E ∧ E ≤ 150 ∧ (2 ^ 23 + F) % 2 ^ (150 - E) = 0 then
    some ((if sign = 1 then -1 else 1) * (((2 ^ 23 + F) / 2 ^ (150 - E) : Nat) : Int))
  else none

/-- A lookup table for demonstrations: the values `-1024, -1023, ...`. -/
def demoLut (i : Nat) : Int :=
  (i : Int) - 1024

/-- The arguments of the `CVPixelBufferLockBaseAddress` calls of an event
list, in order. -/
def lockedBuffers : List VTEvent → List (Option Nat)
  | [] => []
  | VTEvent.CVPixelBufferLockBaseAddress pb :: es => pb :: lockedBuffers es
  | _ :: es => lockedBuffers es

/-- The arguments of the `CVPixelBufferUnlockBaseAddress` calls of an event
list, in order. -/
def unlockedBuffers : List VTEvent → List Nat
  | [] => []
  | VTEvent.CVPixelBufferUnlockBaseAddress pb :: es => pb :: unlockedBuffers es
  | _ :: es => unlockedBuffers es

/-- The arguments of the `CVPixelBufferRelease` calls of an event list, in
order. -/
def releasedPixelBuffers : List VTEvent → List Nat
  | [] => []
  | VTEvent.CVPixelBufferRelease pb :: es => pb :: releasedPixelBuffers es
  | _ :: es => releasedPixelBuffers es

/-- The pipeline holds a live decode session: the decoder and the format
description are both non-null. -/
def liveSession (impl : VTRgbPacketProcessorImpl) : Bool :=
  impl.decoder.isSome && impl.format.isSome

/-- A backend that is ready once initialised and whose `processDepthData`
writes the non-zero bytes `1, 2, ..., 251, 1, 2, ...` to the output buffer. -/
def patternBackend : MetalDepthProcessorObjC Unit :=
  { readyBackend with processDepthData := fun b _ _ _ => (b, fun j => j % 251 + 1) }

/-- A colour pipeline with a listener whose codec is ProRes422: the pipeline
after a call in which the JPEG decode failed and the ProRes422 retry
succeeded. -/
def secondaryPipeline : VTRgbPacketProcessor Unit :=
  ((VTRgbPacketProcessor.new (some ()) okSetup).process (constListener true)
    (demoRgbPacket 1 10) (demoAnswers failingDecode goodDecode okSetup)).1

/-- Answers of a `process` call in which `CMBlockBufferCreateWithMemoryBlock`
fails (`kCMBlockBufferStructureAllocationFailedErr`). -/
def noBlockBufferAnswers : ProcessAnswers :=
  { demoAnswers goodDecode goodDecode okSetup with blockStatus := -12700, blockBuffer := none }

/-- Answers of a `process` call in which the first `CMSampleBufferCreate`
fails (`kCMSampleBufferError_AllocationFailed`). -/
def noSampleBufferAnswers : ProcessAnswers :=
  { demoAnswers goodDecode goodDecode okSetup with sampleStatus := -12730, sampleBuffer := none }

/-- The event creates or releases a block buffer or a sample buffer. -/
def VTEvent.isBufferEvent : VTEvent → Bool
  | VTEvent.CMBlockBufferCreateWithMemoryBlock _ _ => true
  | VTEvent.CMSampleBufferCreate _ _ _ _ => true
  | VTEvent.CFRelease CFObjectType.CMBlockBufferRef _ => true
  | VTEvent.CFRelease CFObjectType.CMSampleBufferRef _ => true
  | _ => false

/-- The block-buffer and sample-buffer events of a list, in order. -/
def bufferEvents (log : List VTEvent) : List VTEvent :=
  log.filter VTEvent.isBufferEvent

/-- The block buffers and sample buffers the program holds at some point:
`live` are the buffers created by a call that returned `noErr` and not yet
released; `stray` are the references stored by a creation call that reported
an error (not successfully created buffers) and not yet released. -/
structure BufferLedger where
  live : List (CFObjectType × Nat)
  stray : List (CFObjectType × Nat)
deriving DecidableEq

/-- A `CFRelease` of the reference `x`: it releases a live buffer if `x` is
one, and otherwise a stray reference if `x` is one; there is no result when
`x` is neither, that is, when `x` was never created or was released before. -/
def BufferLedger.release (g : BufferLedger) (x : CFObjectType × Nat) : Option BufferLedger :=
  if x ∈ g.live then some { g with live := g.live.erase x }
  else if x ∈ g.stray then some { g with stray := g.stray.erase x }
  else none

/-- A creation call that returned `status` and stored the reference `x`: a
live buffer when the status is `noErr`, a stray reference otherwise. -/
def BufferLedger.create (g : BufferLedger) (status : Int) (x : CFObjectType × Nat) :
    BufferLedger :=
  if status = noErr then { g with live := x :: g.live } else { g with stray := x :: g.stray }

/-- The effect of one event on the ledger of block buffers and sample
buffers. -/
def bufferStep (e : VTEvent) (g : BufferLedger) : Option BufferLedger :=
  match e with
  | VTEvent.CMBlockBufferCreateWithMemoryBlock status (some b) =>
    some (g.create status (CFObjectType.CMBlockBufferRef, b))
  | VTEvent.CMSampleBufferCreate _ _ status (some b) =>
    some (g.create status (CFObjectType.CMSampleBufferRef, b))
  | VTEvent.CFRelease CFObjectType.CMBlockBufferRef b =>
    g.release (CFObjectType.CMBlockBufferRef, b)
  | VTEvent.CFRelease CFObjectType.CMSampleBufferRef b =>
    g.release (CFObjectType.CMSampleBufferRef, b)
  | _ => some g

/-- The ledger after a list of events, starting from the ledger `g`; `none`
when some reference is released that is neither a live buffer nor a stray
reference. -/
def trackBuffers : List VTEvent → BufferLedger → Option BufferLedger
  | [], g => some g
  | e :: es, g =>
    match bufferStep e g with
    | some g1 => trackBuffers es g1
    | none => none

/-- Answers of a `process` call in which the JPEG decode fails, `setupDecoder`
succeeds, and the second `CMSampleBufferCreate` reports an error
(`kCMSampleBufferError_RequiredParameterMissing`) but stores a reference. -/
def strayReferenceAnswers : ProcessAnswers :=
  { demoAnswers failingDecode goodDecode okSetup with sampleStatus2 := -12731 }

/-! ## Basic facts about the depth pipeline -/

section DepthLemmas

variable {β L : Type}

/-- The five conjuncts of `ready`. -/
theorem impl_ready_iff (B : MetalDepthProcessorObjC β)
    (impl : MetalDepthPacketProcessorImpl β) :
    impl.ready B = true ↔
      impl.deviceInitialized = true ∧ impl.programInitialized = true ∧
        impl.runtimeOk = true ∧ ∃ b, impl.processor = some b ∧ B.isReady b = true := by
  cases h : impl.processor <;> simp [MetalDepthPacketProcessorImpl.ready, h, and_assoc]

/-- A ready `process` call, written out: one backend call, then the IR
delivery, then the depth delivery. -/
theorem process_ready (B : MetalDepthProcessorObjC β)
    (Lst : FrameListener L) (s : MetalDepthPacketProcessor β L) (packet : DepthPacket)
    (l : L) (impl : MetalDepthPacketProcessorImpl β) (b : β) (ir depth : Frame)
    (hl : s.listener_ = some l) (hi : s.impl_ = some impl) (hr : impl.ready B = true)
    (hb : impl.processor = some b)
    (hir : impl.ir_frame = some ir) (hd : impl.depth_frame = some depth) :
    s.process B Lst packet =
      some ({ s with
              listener_ := some (Lst.onNewFrame
                (Lst.onNewFrame l FrameType.Ir (irDelivered ir packet)).2 FrameType.Depth
                (depthDelivered depth packet (B.processDepthData b packet.buffer
                  impl.config.EnableEdgeAwareFilter impl.config.EnableBilateralFilter).2)).2,
              impl_ := some (implAfter impl
                (B.processDepthData b packet.buffer
                  impl.config.EnableEdgeAwareFilter impl.config.EnableBilateralFilter).1
                (irDelivered ir packet)
                (depthDelivered depth packet (B.processDepthData b packet.buffer
                  impl.config.EnableEdgeAwareFilter impl.config.EnableBilateralFilter).2)
                (Lst.onNewFrame l FrameType.Ir (irDelivered ir packet)).1
                (Lst.onNewFrame
                  (Lst.onNewFrame l FrameType.Ir (irDelivered ir packet)).2 FrameType.Depth
                  (depthDelivered depth packet (B.processDepthData b packet.buffer
                    impl.config.EnableEdgeAwareFilter impl.config.EnableBilateralFilter).2)).1) },
            [Event.processDepthData packet.buffer
               impl.config.EnableEdgeAwareFilter impl.config.EnableBilateralFilter,
             Event.onNewFrame FrameType.Ir (irDelivered ir packet)
               (Lst.onNewFrame l FrameType.Ir (irDelivered ir packet)).1,
             Event.onNewFrame FrameType.Depth
               (depthDelivered depth packet (B.processDepthData b packet.buffer
                 impl.config.EnableEdgeAwareFilter impl.config.EnableBilateralFilter).2)
               (Lst.onNewFrame
                 (Lst.onNewFrame l FrameType.Ir (irDelivered ir packet)).2 FrameType.Depth
                 (depthDelivered depth packet (B.processDepthData b packet.buffer
                   impl.config.EnableEdgeAwareFilter impl.config.EnableBilateralFilter).2)).1]) := by
  have hr2 := (impl_ready_iff B impl).1 hr
  obtain ⟨-, -, hok, -⟩ := hr2
  cases ha : (Lst.onNewFrame l FrameType.Ir (irDelivered ir packet)).1 <;>
  cases hdd : (Lst.onNewFrame
      (Lst.onNewFrame l FrameType.Ir (irDelivered ir packet)).2 FrameType.Depth
      (depthDelivered depth packet (B.processDepthData b packet.buffer
        impl.config.EnableEdgeAwareFilter impl.config.EnableBilateralFilter).2)).1 <;>
  simp [MetalDepthPacketProcessor.process, MetalDepthPacketProcessor.tag,
    MetalDepthPacketProcessor.deliver, MetalDepthPacketProcessorImpl.process,
    MetalDepthPacketProcessorImpl.newIrFrame, MetalDepthPacketProcessorImpl.newDepthFrame,
    hl, hi, hr, hb, hir, hd, hok, irDelivered, depthDelivered, implAfter] at * <;>
  simp [*]

/-- A ready pipeline holds an implementation object that is ready. -/
theorem wrapper_ready_iff (B : MetalDepthProcessorObjC β)
    (s : MetalDepthPacketProcessor β L) :
    s.ready B = true ↔ ∃ impl, s.impl_ = some impl ∧ impl.ready B = true := by
  cases h : s.impl_ <;> simp [MetalDepthPacketProcessor.ready, h]

/-- A call of `process` on a pipeline that is not ready changes nothing. -/
theorem process_not_ready (B : MetalDepthProcessorObjC β)
    (Lst : FrameListener L) (s : MetalDepthPacketProcessor β L) (packet : DepthPacket)
    (h : s.ready B = false) :
    s.process B Lst packet = some (s, []) ∨ s.process B Lst packet = some (s, [Event.logError]) := by
  unfold MetalDepthPacketProcessor.process
  cases hl : s.listener_ with
  | none => simp
  | some l =>
    cases hi : s.impl_ with
    | none => simp
    | some impl =>
      have : impl.ready B = false := by
        simpa [MetalDepthPacketProcessor.ready, hi] using h
      simp [this]

/-- A call of `process` on a pipeline without listener changes nothing. -/
theorem process_no_listener (B : MetalDepthProcessorObjC β)
    (Lst : FrameListener L) (s : MetalDepthPacketProcessor β L) (packet : DepthPacket)
    (h : s.listener_ = none) : s.process B Lst packet = some (s, []) := by
  simp [MetalDepthPacketProcessor.process, h]

/-- The identity of the IR frame is not changed by tagging and filling. -/
theorem irDelivered_id (ir : Frame) (packet : DepthPacket) :
    (irDelivered ir packet).id = ir.id := rfl

/-- The identity of the depth frame is not changed by tagging and filling. -/
theorem depthDelivered_id (depth : Frame) (packet : DepthPacket) (out : Nat → Nat) :
    (depthDelivered depth packet out).id = depth.id := rfl

/-- The frames of the state after a ready `process` call are allocated. -/
theorem implAfter_frames (impl : MetalDepthPacketProcessorImpl β) (b : β) (irT depthT : Frame)
    (a d : Bool) (h1 : irT.id < impl.heap) (h2 : depthT.id < impl.heap)
    (h3 : irT.id ≠ depthT.id) :
    ∃ ir depth, (implAfter impl b irT depthT a d).ir_frame = some ir ∧
      (implAfter impl b irT depthT a d).depth_frame = some depth ∧
      ir.id < (implAfter impl b irT depthT a d).heap ∧
      depth.id < (implAfter impl b irT depthT a d).heap ∧ ir.id ≠ depth.id := by
  cases a <;> cases d <;> simp [implAfter, Frame.new] <;> omega

/-- The constructor establishes the invariant, with the outcome read off
`ready` right after construction. -/
theorem new_wellFormed (B : MetalDepthProcessorObjC β)
    (listener : Option L) (config : Config) :
    WellFormed ((MetalDepthPacketProcessor.new B listener config).ready B)
      (MetalDepthPacketProcessor.new B listener config) := by
  refine ⟨MetalDepthPacketProcessorImpl.new B config, rfl, ?_⟩
  simp only [MetalDepthPacketProcessor.new, MetalDepthPacketProcessor.ready,
    MetalDepthPacketProcessorImpl.ready, MetalDepthPacketProcessorImpl.new]
  cases hinit : B.initWithWidth 512 424 with
  | none => simp
  | some b =>
    cases hrdy : B.isReady b with
    | false => simp [hrdy]
    | true =>
      simp [hrdy, MetalDepthPacketProcessorImpl.newIrFrame,
        MetalDepthPacketProcessorImpl.newDepthFrame, Frame.new]

/-- In a well-formed state, `ready` unfolds to the outcome of the construction
and the present answer of the backend. -/
theorem wellFormed_ready_iff (B : MetalDepthProcessorObjC β) (r : Bool)
    (s : MetalDepthPacketProcessor β L) (h : WellFormed r s) :
    s.ready B = true ↔
      r = true ∧ ∃ impl b, s.impl_ = some impl ∧ impl.processor = some b ∧
        B.isReady b = true := by
  obtain ⟨impl, hi, h1, h2, h3, h4, -⟩ := h
  constructor
  · intro hr
    obtain ⟨impl2, hi2, hr2⟩ := (wrapper_ready_iff B s).1 hr
    rw [hi] at hi2
    simp only [Option.some.injEq] at hi2
    subst hi2
    obtain ⟨hd, -, -, b, hb, hrb⟩ := (impl_ready_iff B impl).1 hr2
    exact ⟨by rw [← h1, hd], impl, b, hi, hb, hrb⟩
  · rintro ⟨rfl, impl2, b, hi2, hb, hrb⟩
    rw [hi] at hi2
    simp only [Option.some.injEq] at hi2
    subst hi2
    exact (wrapper_ready_iff B s).2
      ⟨impl, hi, (impl_ready_iff B impl).2 ⟨h1, h2, h3, b, hb, hrb⟩⟩

/-- A ready `process` call in a well-formed state with a listener attached:
the outcome of `process_ready` with the frames of the state. -/
theorem process_ready_wf (B : MetalDepthProcessorObjC β)
    (r : Bool) (s : MetalDepthPacketProcessor β L)
    (hW : WellFormed r s) (hr : s.ready B = true) :
    r = true ∧ ∃ (impl : MetalDepthPacketProcessorImpl β) (b : β) (ir depth : Frame),
      s.impl_ = some impl ∧ impl.ready B = true ∧ impl.processor = some b ∧
      impl.ir_frame = some ir ∧ impl.depth_frame = some depth ∧
      ir.id < impl.heap ∧ depth.id < impl.heap ∧ ir.id ≠ depth.id ∧
      impl.deviceInitialized = true ∧ impl.programInitialized = true ∧
      impl.runtimeOk = true := by
  have hr1 := ((wellFormed_ready_iff B r s hW).1 hr).1
  subst hr1
  obtain ⟨impl, hi, h1, h2, h3, -, h5⟩ := hW
  obtain ⟨impl2, hi2, hr2⟩ := (wrapper_ready_iff B s).1 hr
  rw [hi] at hi2
  simp only [Option.some.injEq] at hi2
  subst hi2
  obtain ⟨-, -, -, b, hb, -⟩ := (impl_ready_iff B impl).1 hr2
  obtain ⟨ir, depth, hir, hd, i1, i2, i3⟩ := h5 rfl
  exact ⟨rfl, impl, b, ir, depth, hi, hr2, hb, hir, hd, i1, i2, i3, h1, h2, h3⟩

/-- A call of `process` preserves the invariant and keeps the listener
pointer null or non-null. -/
theorem process_preserves (B : MetalDepthProcessorObjC β)
    (Lst : FrameListener L) (r : Bool) (s s1 : MetalDepthPacketProcessor β L)
    (packet : DepthPacket) (log : List Event) (hW : WellFormed r s)
    (h : s.process B Lst packet = some (s1, log)) :
    WellFormed r s1 ∧ s1.listener_.isSome = s.listener_.isSome := by
  cases hr : s.ready B with
  | false =>
    rcases process_not_ready B Lst s packet hr with h2 | h2 <;>
    · rw [h2] at h
      simp only [Option.some.injEq, Prod.mk.injEq] at h
      obtain ⟨rfl, -⟩ := h
      exact ⟨hW, rfl⟩
  | true =>
    cases hl : s.listener_ with
    | none =>
      rw [process_no_listener B Lst s packet hl] at h
      simp only [Option.some.injEq, Prod.mk.injEq] at h
      obtain ⟨rfl, -⟩ := h
      exact ⟨hW, by rw [hl]⟩
    | some l =>
      obtain ⟨rfl, impl, b, ir, depth, hi, hri, hb, hir, hd, i1, i2, i3, f1, f2, f3⟩ :=
        process_ready_wf B r s hW hr
      rw [process_ready B Lst s packet l impl b ir depth hl hi hri hb
        hir hd] at h
      simp only [Option.some.injEq, Prod.mk.injEq] at h
      obtain ⟨rfl, -⟩ := h
      refine ⟨⟨_, rfl, f1, f2, f3, rfl, fun _ => ?_⟩, rfl⟩
      exact implAfter_frames impl _ _ _ _ _ (by rw [irDelivered_id]; exact i1)
        (by rw [depthDelivered_id]; exact i2)
        (by rw [irDelivered_id, depthDelivered_id]; exact i3)

/-- A call that is not `process` keeps the flags, the frames and the listener,
invokes no listener, and does nothing at all to a pipeline without backend
object except storing the configuration. -/
theorem stepDepth_not_process (B : MetalDepthProcessorObjC β) (Lst : FrameListener L)
    (s s1 : MetalDepthPacketProcessor β L) (op : DepthOp) (log : List Event)
    (hop : op.isProcess = false) (impl : MetalDepthPacketProcessorImpl β)
    (hi : s.impl_ = some impl) (h : stepDepth B Lst s op = some (s1, log)) :
    s1.listener_ = s.listener_ ∧ deliveries log = [] ∧
    ∃ impl1, s1.impl_ = some impl1 ∧ impl1.ir_frame = impl.ir_frame ∧
      impl1.depth_frame = impl.depth_frame ∧ impl1.heap = impl.heap ∧
      impl1.deviceInitialized = impl.deviceInitialized ∧
      impl1.programInitialized = impl.programInitialized ∧
      impl1.runtimeOk = impl.runtimeOk ∧
      impl1.processor.isSome = impl.processor.isSome ∧
      (impl.processor = none → log = []) := by
  cases hp : impl.processor <;> cases op <;>
    simp_all [stepDepth, DepthOp.isProcess, MetalDepthPacketProcessor.setConfiguration,
      MetalDepthPacketProcessor.loadP0TablesFromCommandResponse,
      MetalDepthPacketProcessor.loadXZTables, MetalDepthPacketProcessor.loadLookupTable,
      MetalDepthPacketProcessorImpl.setConfiguration,
      MetalDepthPacketProcessorImpl.loadP0TablesFromCommandResponse,
      MetalDepthPacketProcessorImpl.loadXZTables, MetalDepthPacketProcessorImpl.loadLookupTable,
      deliveries] <;>
    (obtain ⟨rfl, rfl⟩ := h; simp [deliveries, hp])

/-- Every call preserves the invariant and keeps the listener pointer null or
non-null. -/
theorem stepDepth_preserves (B : MetalDepthProcessorObjC β) (Lst : FrameListener L) (r : Bool)
    (s s1 : MetalDepthPacketProcessor β L) (op : DepthOp) (log : List Event)
    (hW : WellFormed r s) (h : stepDepth B Lst s op = some (s1, log)) :
    WellFormed r s1 ∧ s1.listener_.isSome = s.listener_.isSome := by
  cases hop : op.isProcess with
  | true =>
    cases op <;> simp only [DepthOp.isProcess, Bool.false_eq_true] at hop
    exact process_preserves B Lst r s s1 _ log hW h
  | false =>
    obtain ⟨impl, hi, h1, h2, h3, h4, h5⟩ := hW
    obtain ⟨hl, -, impl1, hi1, e1, e2, e3, e4, e5, e6, e7, -⟩ :=
      stepDepth_not_process B Lst s s1 op log hop impl hi h
    refine ⟨⟨impl1, hi1, by rw [e4, h1], by rw [e5, h2], by rw [e6, h3], by rw [e7, h4], ?_⟩,
      by rw [hl]⟩
    intro hr
    rw [e1, e2, e3]
    exact h5 hr

/-- An invariant of every call is an invariant of every run. -/
theorem runDepth_invariant (B : MetalDepthProcessorObjC β) (Lst : FrameListener L)
    (P : MetalDepthPacketProcessor β L → Prop)
    (hstep : ∀ (s s1 : MetalDepthPacketProcessor β L) (op : DepthOp) (log : List Event),
      P s → stepDepth B Lst s op = some (s1, log) → P s1)
    (ops : List DepthOp) :
    ∀ (s s1 : MetalDepthPacketProcessor β L) (log : List Event), P s →
      runDepth B Lst s ops = some (s1, log) → P s1 := by
  induction ops with
  | nil =>
    intro s s1 log hP h
    simp only [runDepth, Option.some.injEq, Prod.mk.injEq] at h
    obtain ⟨rfl, -⟩ := h
    exact hP
  | cons op ops ih =>
    intro s s1 log hP h
    unfold runDepth at h
    cases hs : stepDepth B Lst s op with
    | none => simp [hs] at h
    | some r =>
      obtain ⟨sa, loga⟩ := r
      cases hrun : runDepth B Lst sa ops with
      | none => simp [hs, hrun] at h
      | some q =>
        obtain ⟨sb, logb⟩ := q
        simp only [hs, hrun, Option.some.injEq, Prod.mk.injEq] at h
        obtain ⟨rfl, -⟩ := h
        exact ih sa sb logb (hstep s sa op loga hP hs) hrun

/-- A run preserves the invariant and keeps the listener pointer null or
non-null. -/
theorem runDepth_preserves (B : MetalDepthProcessorObjC β) (Lst : FrameListener L) (r : Bool)
    (ops : List DepthOp) (s s1 : MetalDepthPacketProcessor β L) (log : List Event)
    (hW : WellFormed r s) (h : runDepth B Lst s ops = some (s1, log)) :
    WellFormed r s1 ∧ s1.listener_.isSome = s.listener_.isSome :=
  runDepth_invariant B Lst (fun t => WellFormed r t ∧ t.listener_.isSome = s.listener_.isSome)
    (fun t t1 op lg hP hs =>
      ⟨(stepDepth_preserves B Lst r t t1 op lg hP.1 hs).1,
        (stepDepth_preserves B Lst r t t1 op lg hP.1 hs).2.trans hP.2⟩)
    ops s s1 log ⟨hW, rfl⟩ h

/-- Every state of a pipeline is well formed, with the outcome of its
construction. -/
theorem reachable_wellFormed (B : MetalDepthProcessorObjC β) (Lst : FrameListener L)
    (s : MetalDepthPacketProcessor β L) (h : Reachable B Lst s) : ∃ r, WellFormed r s := by
  obtain ⟨listener, config, ops, log, hrun⟩ := h
  exact ⟨_, (runDepth_preserves B Lst _ ops _ s log
    (new_wellFormed B listener config) hrun).1⟩

/-- The deliveries of a concatenation. -/
theorem deliveries_append (xs ys : List Event) :
    deliveries (xs ++ ys) = deliveries xs ++ deliveries ys := by
  induction xs with
  | nil => rfl
  | cons e es ih => cases e <;> simp [deliveries, ih]

/-- A ready `process` call on a well-formed state with a listener: the events
are one backend call and the two deliveries, both frames carrying the
timestamp and the sequence number of the packet. -/
theorem process_ready_summary (B : MetalDepthProcessorObjC β)
    (Lst : FrameListener L) (r : Bool) (s : MetalDepthPacketProcessor β L)
    (packet : DepthPacket)
    (hW : WellFormed r s) (hl : s.listener_.isSome = true) (hr : s.ready B = true) :
    ∃ (s1 : MetalDepthPacketProcessor β L) (flt bil : Bool) (irT depthT : Frame) (a d : Bool),
      s.process B Lst packet =
        some (s1, [Event.processDepthData packet.buffer flt bil,
          Event.onNewFrame FrameType.Ir irT a, Event.onNewFrame FrameType.Depth depthT d]) ∧
      irT.timestamp = packet.timestamp ∧ irT.sequence = packet.sequence ∧
      depthT.timestamp = packet.timestamp ∧ depthT.sequence = packet.sequence := by
  obtain ⟨-, impl, b, ir, depth, hi, hri, hb, hir, hd, -⟩ :=
    process_ready_wf B r s hW hr
  cases hl2 : s.listener_ with
  | none => simp [hl2] at hl
  | some l =>
    exact ⟨_, _, _, _, _, _, _,
      process_ready B Lst s packet l impl b ir depth hl2 hi hri hb hir hd,
      rfl, rfl, rfl, rfl⟩

/-- The listener invocations of a run of `process` calls that are all ready,
from a well-formed state. -/
theorem runDepth_process_tags (B : MetalDepthProcessorObjC β) (Lst : FrameListener L) (r : Bool)
    (packets : List DepthPacket) :
    ∀ (s : MetalDepthPacketProcessor β L), WellFormed r s → s.listener_.isSome = true →
      readyAtEach B Lst s packets = true →
      ∃ (s1 : MetalDepthPacketProcessor β L) (log : List Event),
        runDepth B Lst s (packets.map DepthOp.process) = some (s1, log) ∧
        tagsOf (deliveries log) = expectedTags packets := by
  induction packets with
  | nil =>
    intro s _ _ _
    exact ⟨s, [], rfl, rfl⟩
  | cons p ps ih =>
    intro s hW hl hready
    simp only [readyAtEach, Bool.and_eq_true] at hready
    obtain ⟨hr, hrest⟩ := hready
    obtain ⟨s1, flt, bil, irT, depthT, a, d, hp, h1, h2, h3, h4⟩ :=
      process_ready_summary B Lst r s p hW hl hr
    rw [hp] at hrest
    have hpres := process_preserves B Lst r s s1 p _ hW hp
    obtain ⟨s2, log2, hrun, htags⟩ := ih s1 hpres.1 (hpres.2.trans hl) hrest
    refine ⟨s2, [Event.processDepthData p.buffer flt bil,
      Event.onNewFrame FrameType.Ir irT a, Event.onNewFrame FrameType.Depth depthT d] ++ log2,
      ?_, ?_⟩
    · simp only [List.map_cons, runDepth, stepDepth, hp, hrun]
    · rw [deliveries_append]
      simp only [deliveries, tagsOf, List.map_cons, List.map_append, List.map_nil,
        List.cons_append, List.nil_append, expectedTags, h1, h2, h3, h4]
      simp only [tagsOf] at htags
      rw [htags]

/-! ## The claims about the depth pipeline -/

/-- C1: for every list of depth packets processed in order on a pipeline with a
listener attached that is ready at each call, whatever the listener returns,
the run succeeds and the listener invocations are exactly, packet by packet in
submission order, the IR frame and then the depth frame, each carrying the
timestamp and sequence number of its packet when it is delivered (hence two
invocations per packet and no interleaving across packets). -/
theorem C1_deliveries_in_order (B : MetalDepthProcessorObjC β) (Lst : FrameListener L)
    (s : MetalDepthPacketProcessor β L) (packets : List DepthPacket)
    (hs : Reachable B Lst s) (hl : s.listener_.isSome = true)
    (hready : readyAtEach B Lst s packets = true) :
    ∃ (s1 : MetalDepthPacketProcessor β L) (log : List Event),
      runDepth B Lst s (packets.map DepthOp.process) = some (s1, log) ∧
      tagsOf (deliveries log) = expectedTags packets ∧
      (deliveries log).length = 2 * packets.length := by
  obtain ⟨r, hW⟩ := reachable_wellFormed B Lst s hs
  obtain ⟨s1, log, hrun, htags⟩ := runDepth_process_tags B Lst r packets s hW hl hready
  refine ⟨s1, log, hrun, htags, ?_⟩
  have hlen : (tagsOf (deliveries log)).length = (expectedTags packets).length := by rw [htags]
  have hexp : ∀ ps : List DepthPacket, (expectedTags ps).length = 2 * ps.length := by
    intro ps
    induction ps with
    | nil => rfl
    | cons q qs ihq => simp only [expectedTags, List.length_cons, ihq]; omega
  simpa [tagsOf, hexp] using hlen

/-- C1, evaluated: three packets with sequence numbers 1, 2, 3 on a fresh
pipeline over `readyBackend` with a listener that rejects every frame. -/
theorem C1_deliveries_in_order_witness :
    Reachable readyBackend (constListener false)
        (MetalDepthPacketProcessor.new readyBackend (some ()) demoConfig) ∧
      (MetalDepthPacketProcessor.new readyBackend (some ()) demoConfig).listener_.isSome = true ∧
      readyAtEach readyBackend (constListener false)
        (MetalDepthPacketProcessor.new readyBackend (some ()) demoConfig)
        [demoPacket 1 10, demoPacket 2 20, demoPacket 3 30] = true ∧
      ∃ (s1 : MetalDepthPacketProcessor Unit Unit) (log : List Event),
        runDepth readyBackend (constListener false)
            (MetalDepthPacketProcessor.new readyBackend (some ()) demoConfig)
            ([demoPacket 1 10, demoPacket 2 20, demoPacket 3 30].map DepthOp.process) =
          some (s1, log) ∧
        tagsOf (deliveries log) =
          expectedTags [demoPacket 1 10, demoPacket 2 20, demoPacket 3 30] ∧
        (deliveries log).length = 2 * [demoPacket 1 10, demoPacket 2 20, demoPacket 3 30].length :=
  ⟨⟨some (), demoConfig, [], [], rfl⟩, rfl, rfl,
    C1_deliveries_in_order readyBackend (constListener false)
      (MetalDepthPacketProcessor.new readyBackend (some ()) demoConfig)
      [demoPacket 1 10, demoPacket 2 20, demoPacket 3 30]
      ⟨some (), demoConfig, [], [], rfl⟩ rfl rfl⟩

/-- C2: for every state in which `ready` returns false and every packet,
`process` is a no-op: it returns normally with the same state (same listener,
same IR and depth frames with their identity, timestamp, sequence and data,
same stored configuration), the listener is not invoked and no method of the
backend is called. -/
theorem C2_not_ready_is_noop (B : MetalDepthProcessorObjC β) (Lst : FrameListener L)
    (s : MetalDepthPacketProcessor β L) (packet : DepthPacket) (h : s.ready B = false) :
    ∃ log : List Event, s.process B Lst packet = some (s, log) ∧ deliveries log = [] ∧
      silent log = true := by
  rcases process_not_ready B Lst s packet h with h2 | h2
  · exact ⟨[], h2, rfl, rfl⟩
  · exact ⟨[Event.logError], h2, rfl, rfl⟩

/-- C2, evaluated on a pipeline whose backend failed to initialise. -/
theorem C2_not_ready_is_noop_witness :
    (MetalDepthPacketProcessor.new unavailableBackend (some ()) demoConfig).ready
        unavailableBackend = false ∧
      ∃ log : List Event,
        (MetalDepthPacketProcessor.new unavailableBackend (some ()) demoConfig).process
            unavailableBackend (constListener true) (demoPacket 1 10) =
          some (MetalDepthPacketProcessor.new unavailableBackend (some ()) demoConfig, log) ∧
        deliveries log = [] ∧ silent log = true :=
  ⟨rfl, C2_not_ready_is_noop unavailableBackend (constListener true)
    (MetalDepthPacketProcessor.new unavailableBackend (some ()) demoConfig) (demoPacket 1 10) rfl⟩

/-- C3 as stated fails: over `readyBackend` the pipeline is ready right after
construction, when no table has been loaded, and a `process` call made then
invokes the listener twice. -/
theorem C3_counterexample :
    ¬ ReadyOnlyAfterLoads readyBackend (constListener false) ∧
      allTablesLoaded [] = false ∧
      (MetalDepthPacketProcessor.new readyBackend (some ()) demoConfig).ready readyBackend = true ∧
      ((MetalDepthPacketProcessor.new readyBackend (some ()) demoConfig).process readyBackend
          (constListener false) (demoPacket 1 10)).map (fun r => (deliveries r.2).length) =
        some 2 := by
  refine ⟨fun h => ?_, rfl, rfl, rfl⟩
  have := h (some ()) demoConfig [] _ [] rfl rfl
  simp [allTablesLoaded] at this

/-- C3, amended: in every state `s` reached from construction, `ready` returns
true exactly when the pipeline was ready right after construction (the backend
object was created and reported `isReady` before any table was loaded) and the
backend object held in `s` reports `isReady`; which tables have been loaded
plays no part.  A `process` call made while `ready` returns false invokes the
listener zero times and leaves the state unchanged. -/
theorem C3_ready_tracks_backend_only (B : MetalDepthProcessorObjC β) (Lst : FrameListener L)
    (listener : Option L) (config : Config) (ops : List DepthOp)
    (s : MetalDepthPacketProcessor β L) (log : List Event)
    (hrun : runDepth B Lst (MetalDepthPacketProcessor.new B listener config) ops =
      some (s, log)) :
    (s.ready B = true ↔
      (MetalDepthPacketProcessor.new B listener config).ready B = true ∧
        ∃ impl b, s.impl_ = some impl ∧ impl.processor = some b ∧ B.isReady b = true) ∧
    (s.ready B = false → ∀ packet : DepthPacket,
      ∃ lg : List Event, s.process B Lst packet = some (s, lg) ∧ deliveries lg = []) := by
  have hW := (runDepth_preserves B Lst _ ops _ s log
    (new_wellFormed B listener config) hrun).1
  refine ⟨wellFormed_ready_iff B _ s hW, fun hnr packet => ?_⟩
  rcases process_not_ready B Lst s packet hnr with h2 | h2
  · exact ⟨[], h2, rfl⟩
  · exact ⟨[Event.logError], h2, rfl⟩

/-- C3 amended, evaluated: over `readyBackend`, after a single
`setConfiguration` and no load. -/
theorem C3_ready_tracks_backend_only_witness :
    runDepth readyBackend (constListener false)
        (MetalDepthPacketProcessor.new readyBackend (some ()) demoConfig)
        [DepthOp.setConfiguration demoConfig] =
      some ((MetalDepthPacketProcessor.new readyBackend (some ()) demoConfig).setConfiguration
        demoConfig, []) ∧
    (((MetalDepthPacketProcessor.new readyBackend (some ()) demoConfig).setConfiguration
          demoConfig).ready readyBackend = true ↔
      (MetalDepthPacketProcessor.new readyBackend (some ()) demoConfig).ready readyBackend = true ∧
        ∃ impl b,
          ((MetalDepthPacketProcessor.new readyBackend (some ()) demoConfig).setConfiguration
            demoConfig).impl_ = some impl ∧
          impl.processor = some b ∧ readyBackend.isReady b = true) ∧
    (((MetalDepthPacketProcessor.new readyBackend (some ()) demoConfig).setConfiguration
          demoConfig).ready readyBackend = false → ∀ packet : DepthPacket,
      ∃ lg : List Event,
        ((MetalDepthPacketProcessor.new readyBackend (some ()) demoConfig).setConfiguration
            demoConfig).process readyBackend (constListener false) packet =
          some ((MetalDepthPacketProcessor.new readyBackend (some ()) demoConfig).setConfiguration
            demoConfig, lg) ∧
        deliveries lg = []) :=
  ⟨rfl, C3_ready_tracks_backend_only readyBackend (constListener false) (some ()) demoConfig
    [DepthOp.setConfiguration demoConfig] _ [] rfl⟩

/-- The events of a concatenation are silent when both parts are. -/
theorem silent_append (xs ys : List Event) :
    silent (xs ++ ys) = (silent xs && silent ys) := by
  simp [silent, List.all_append]

/-- A pipeline without backend object is not ready. -/
theorem unavailable_not_ready (B : MetalDepthProcessorObjC β)
    (s : MetalDepthPacketProcessor β L) (h : Unavailable s) : s.ready B = false := by
  obtain ⟨impl, hi, hp, -⟩ := h
  simp [MetalDepthPacketProcessor.ready, hi, MetalDepthPacketProcessorImpl.ready, hp]

/-- Every call on a pipeline without backend object returns normally, leaves
it without backend object and frames, and performs no listener invocation and
no backend call. -/
theorem stepDepth_unavailable (B : MetalDepthProcessorObjC β) (Lst : FrameListener L)
    (s : MetalDepthPacketProcessor β L) (op : DepthOp) (h : Unavailable s) :
    ∃ (s1 : MetalDepthPacketProcessor β L) (log : List Event),
      stepDepth B Lst s op = some (s1, log) ∧ Unavailable s1 ∧ deliveries log = [] ∧
      silent log = true := by
  cases hop : op.isProcess with
  | true =>
    cases op <;> simp only [DepthOp.isProcess, Bool.false_eq_true] at hop
    rename_i p
    rcases process_not_ready B Lst s p (unavailable_not_ready B s h) with h2 | h2
    · exact ⟨s, [], h2, h, rfl, rfl⟩
    · exact ⟨s, [Event.logError], h2, h, rfl, rfl⟩
  | false =>
    have htotal : ∃ r, stepDepth B Lst s op = some r := by
      cases op <;> simp [stepDepth, DepthOp.isProcess] at hop ⊢
    obtain ⟨⟨s1, log⟩, hstep⟩ := htotal
    obtain ⟨impl, hi, hp, hir, hd⟩ := h
    obtain ⟨-, hdel, impl1, hi1, e1, e2, -, -, -, -, e7, hlog⟩ :=
      stepDepth_not_process B Lst s s1 op log hop impl hi hstep
    refine ⟨s1, log, hstep, ⟨impl1, hi1, ?_, by rw [e1, hir], by rw [e2, hd]⟩, hdel, ?_⟩
    · rw [hp] at e7
      cases hp1 : impl1.processor with
      | none => rfl
      | some b => simp [hp1] at e7
    · rw [hlog hp]
      rfl

/-- Every run on a pipeline without backend object returns normally, leaves it
without backend object and frames, and performs no listener invocation and no
backend call. -/
theorem runDepth_unavailable (B : MetalDepthProcessorObjC β) (Lst : FrameListener L)
    (ops : List DepthOp) :
    ∀ (s : MetalDepthPacketProcessor β L), Unavailable s →
      ∃ (s1 : MetalDepthPacketProcessor β L) (log : List Event),
        runDepth B Lst s ops = some (s1, log) ∧ Unavailable s1 ∧ deliveries log = [] ∧
        silent log = true := by
  induction ops with
  | nil =>
    intro s h
    exact ⟨s, [], rfl, h, rfl, rfl⟩
  | cons op ops ih =>
    intro s h
    obtain ⟨sa, loga, hstep, hUa, hda, hsa⟩ := stepDepth_unavailable B Lst s op h
    obtain ⟨sb, logb, hrun, hUb, hdb, hsb⟩ := ih sa hUa
    refine ⟨sb, loga ++ logb, ?_, hUb, ?_, ?_⟩
    · simp only [runDepth, hstep, hrun]
    · rw [deliveries_append, hda, hdb]
      rfl
    · rw [silent_append, hsa, hsb]
      rfl

/-- C5: if the backend fails to initialise at construction (the backend object
is nil or its `isReady` is false), then every finite sequence of
`setConfiguration`, `loadP0TablesFromCommandResponse`, `loadXZTables`,
`loadLookupTable` and `process` calls returns normally, and afterwards `ready`
still returns false, the listener has been invoked zero times, no method of
the backend has been called, and the pipeline still holds no backend object
and no frame (so no frame pointer was dereferenced). -/
theorem C5_unavailable_is_terminal (B : MetalDepthProcessorObjC β) (Lst : FrameListener L)
    (listener : Option L) (config : Config) (ops : List DepthOp)
    (hfail : ∀ b, B.initWithWidth 512 424 = some b → B.isReady b = false) :
    ∃ (s : MetalDepthPacketProcessor β L) (log : List Event),
      runDepth B Lst (MetalDepthPacketProcessor.new B listener config) ops = some (s, log) ∧
      s.ready B = false ∧ deliveries log = [] ∧ silent log = true ∧ Unavailable s := by
  have hU : Unavailable (MetalDepthPacketProcessor.new B listener config) := by
    refine ⟨MetalDepthPacketProcessorImpl.new B config, rfl, ?_⟩
    unfold MetalDepthPacketProcessorImpl.new
    cases hinit : B.initWithWidth 512 424 with
    | none => simp
    | some b => simp [hfail b hinit]
  obtain ⟨s, log, hrun, hUs, hd, hs⟩ := runDepth_unavailable B Lst ops _ hU
  exact ⟨s, log, hrun, unavailable_not_ready B s hUs, hd, hs, hUs⟩

/-- C5, evaluated: over `unavailableBackend`, a sequence with one call of every
method, with a listener that would accept every frame. -/
theorem C5_unavailable_is_terminal_witness :
    (∀ b, unavailableBackend.initWithWidth 512 424 = some b →
        unavailableBackend.isReady b = false) ∧
      ∃ (s : MetalDepthPacketProcessor Unit Unit) (log : List Event),
        runDepth unavailableBackend (constListener true)
            (MetalDepthPacketProcessor.new unavailableBackend (some ()) demoConfig)
            [DepthOp.setConfiguration demoConfig,
              DepthOp.loadP0TablesFromCommandResponse [] 0, DepthOp.loadXZTables [] [],
              DepthOp.loadLookupTable (fun _ => 0), DepthOp.process (demoPacket 1 10)] =
          some (s, log) ∧
        s.ready unavailableBackend = false ∧ deliveries log = [] ∧ silent log = true ∧
        Unavailable s :=
  ⟨fun _ h => by simp [unavailableBackend] at h,
    C5_unavailable_is_terminal unavailableBackend (constListener true) (some ()) demoConfig
      [DepthOp.setConfiguration demoConfig,
        DepthOp.loadP0TablesFromCommandResponse [] 0, DepthOp.loadXZTables [] [],
        DepthOp.loadLookupTable (fun _ => 0), DepthOp.process (demoPacket 1 10)]
      (fun _ h => by simp [unavailableBackend] at h)⟩

/-- A call without listener invocation leaves both frame pointers and their
frames as they are. -/
theorem stepDepth_quiet (B : MetalDepthProcessorObjC β) (Lst : FrameListener L) (r : Bool)
    (s s1 : MetalDepthPacketProcessor β L) (op : DepthOp) (log : List Event)
    (hW : WellFormed r s) (h : stepDepth B Lst s op = some (s1, log))
    (hq : deliveries log = []) (impl : MetalDepthPacketProcessorImpl β)
    (hi : s.impl_ = some impl) :
    ∃ impl1, s1.impl_ = some impl1 ∧ impl1.ir_frame = impl.ir_frame ∧
      impl1.depth_frame = impl.depth_frame := by
  cases hop : op.isProcess with
  | false =>
    obtain ⟨-, -, impl1, hi1, e1, e2, -⟩ := stepDepth_not_process B Lst s s1 op log hop impl hi h
    exact ⟨impl1, hi1, e1, e2⟩
  | true =>
    cases op <;> simp only [DepthOp.isProcess, Bool.false_eq_true] at hop
    rename_i p
    have hsame : s1 = s := by
      cases hr : s.ready B with
      | false =>
        rcases process_not_ready B Lst s p hr with h2 | h2 <;>
        · simp only [stepDepth] at h
          rw [h2] at h
          simp only [Option.some.injEq, Prod.mk.injEq] at h
          exact h.1.symm
      | true =>
        cases hl : s.listener_ with
        | none =>
          simp only [stepDepth] at h
          rw [process_no_listener B Lst s p hl] at h
          simp only [Option.some.injEq, Prod.mk.injEq] at h
          exact h.1.symm
        | some l =>
          obtain ⟨s1', flt, bil, irT, depthT, a, d, hp, -⟩ :=
            process_ready_summary B Lst r s p hW (by simp [hl]) hr
          simp only [stepDepth] at h
          rw [hp] at h
          simp only [Option.some.injEq, Prod.mk.injEq] at h
          rw [← h.2] at hq
          simp [deliveries] at hq
    subst hsame
    exact ⟨impl, hi, rfl, rfl⟩

/-- A run without listener invocation leaves both frame pointers and their
frames as they are. -/
theorem runDepth_quiet (B : MetalDepthProcessorObjC β) (Lst : FrameListener L) (r : Bool)
    (ops : List DepthOp) :
    ∀ (s s1 : MetalDepthPacketProcessor β L) (log : List Event), WellFormed r s →
      runDepth B Lst s ops = some (s1, log) → deliveries log = [] →
      ∀ impl, s.impl_ = some impl →
        ∃ impl1, s1.impl_ = some impl1 ∧ impl1.ir_frame = impl.ir_frame ∧
          impl1.depth_frame = impl.depth_frame := by
  induction ops with
  | nil =>
    intro s s1 log _ h _ impl hi
    simp only [runDepth, Option.some.injEq, Prod.mk.injEq] at h
    obtain ⟨rfl, -⟩ := h
    exact ⟨impl, hi, rfl, rfl⟩
  | cons op ops ih =>
    intro s s1 log hW h hq impl hi
    unfold runDepth at h
    cases hs : stepDepth B Lst s op with
    | none => simp [hs] at h
    | some x =>
      obtain ⟨sa, loga⟩ := x
      cases hrun : runDepth B Lst sa ops with
      | none => simp [hs, hrun] at h
      | some q =>
        obtain ⟨sb, logb⟩ := q
        simp only [hs, hrun, Option.some.injEq, Prod.mk.injEq] at h
        obtain ⟨rfl, rfl⟩ := h
        rw [deliveries_append, List.append_eq_nil] at hq
        obtain ⟨impla, hia, ea1, ea2⟩ := stepDepth_quiet B Lst r s sa op loga hW hs hq.1 impl hi
        obtain ⟨implb, hib, eb1, eb2⟩ :=
          ih sa sb logb (stepDepth_preserves B Lst r s sa op loga hW hs).1 hrun hq.2 impla hia
        exact ⟨implb, hib, eb1.trans ea1, eb2.trans ea2⟩

/-- C6: for each of the kinds IR and depth independently, if the listener
returns false for that kind during a ready `process` call, the pipeline keeps
the delivered frame object as its current frame of that kind, and the next
ready `process` call (after any calls in between that invoke no listener)
delivers a frame with the same identity for that kind, whatever the listener
returned for the other kind. -/
theorem C6_reuse_on_reject (B : MetalDepthProcessorObjC β) (Lst : FrameListener L)
    (s s1 s2 s3 : MetalDepthPacketProcessor β L) (p1 p2 : DepthPacket) (mid : List DepthOp)
    (log1 logm log3 : List Event)
    (hs : Reachable B Lst s) (hl : s.listener_.isSome = true) (hr : s.ready B = true)
    (h1 : s.process B Lst p1 = some (s1, log1))
    (hm : runDepth B Lst s1 mid = some (s2, logm)) (hq : deliveries logm = [])
    (hr2 : s2.ready B = true) (h3 : s2.process B Lst p2 = some (s3, log3)) :
    ∃ (ir1 depth1 ir3 depth3 : Frame) (a1 d1 a3 d3 : Bool),
      deliveries log1 = [⟨FrameType.Ir, ir1, a1⟩, ⟨FrameType.Depth, depth1, d1⟩] ∧
      deliveries log3 = [⟨FrameType.Ir, ir3, a3⟩, ⟨FrameType.Depth, depth3, d3⟩] ∧
      (a1 = false → ir3.id = ir1.id ∧ currentFrame FrameType.Ir s1 = some ir1) ∧
      (d1 = false → depth3.id = depth1.id ∧ currentFrame FrameType.Depth s1 = some depth1) := by
  obtain ⟨r, hW⟩ := reachable_wellFormed B Lst s hs
  obtain ⟨rfl, impl, b, ir, depth, hi, hri, hb, hir, hd, -⟩ := process_ready_wf B r s hW hr
  cases hl2 : s.listener_ with
  | none => simp [hl2] at hl
  | some l =>
    have hW1 := (process_preserves B Lst true s s1 p1 log1 hW h1)
    rw [process_ready B Lst s p1 l impl b ir depth hl2 hi hri hb hir hd] at h1
    simp only [Option.some.injEq, Prod.mk.injEq] at h1
    obtain ⟨hs1, hlog1⟩ := h1
    have hW2 := runDepth_preserves B Lst true mid s1 s2 logm hW1.1 hm
    obtain ⟨impl2, hi2, e1, e2⟩ :=
      runDepth_quiet B Lst true mid s1 s2 logm hW1.1 hm hq _ (by rw [← hs1])
    obtain ⟨-, impl2', b2, ir2, depth2, hi2', hri2, hb2, hir2, hd2, -⟩ :=
      process_ready_wf B true s2 hW2.1 hr2
    rw [hi2] at hi2'
    simp only [Option.some.injEq] at hi2'
    subst hi2'
    have hl3 : ∃ l3, s2.listener_ = some l3 := by
      have : s2.listener_.isSome = true := by rw [hW2.2, hW1.2, hl2]; rfl
      exact Option.isSome_iff_exists.1 this
    obtain ⟨l3, hl3⟩ := hl3
    rw [process_ready B Lst s2 p2 l3 impl2 b2 ir2 depth2 hl3 hi2 hri2 hb2 hir2 hd2] at h3
    simp only [Option.some.injEq, Prod.mk.injEq] at h3
    obtain ⟨-, hlog3⟩ := h3
    refine ⟨_, _, _, _, _, _, _, _, by rw [← hlog1]; rfl, by rw [← hlog3]; rfl, ?_, ?_⟩
    · intro ha
      refine ⟨?_, ?_⟩
      · rw [irDelivered_id, irDelivered_id]
        rw [hir2] at e1
        simp only [implAfter, ha, Bool.false_eq_true, if_false] at e1
        simp only [Option.some.injEq] at e1
        rw [e1, irDelivered_id]
      · rw [← hs1]
        simp only [currentFrame, implAfter, ha, Bool.false_eq_true, if_false]
    · intro hd1
      refine ⟨?_, ?_⟩
      · rw [depthDelivered_id, depthDelivered_id]
        rw [hd2] at e2
        simp only [implAfter, hd1, Bool.false_eq_true, if_false] at e2
        simp only [Option.some.injEq] at e2
        rw [e2, depthDelivered_id]
      · rw [← hs1]
        simp only [currentFrame, implAfter, hd1, Bool.false_eq_true, if_false]

/-- C6, evaluated: two consecutive packets on a fresh pipeline over
`readyBackend` with a listener that accepts IR frames and rejects depth
frames. -/
theorem C6_reuse_on_reject_witness :
    ∃ (s1 s3 : MetalDepthPacketProcessor Unit Unit) (log1 log3 : List Event),
      Reachable readyBackend irOnlyListener
        (MetalDepthPacketProcessor.new readyBackend (some ()) demoConfig) ∧
      (MetalDepthPacketProcessor.new readyBackend (some ()) demoConfig).listener_.isSome = true ∧
      (MetalDepthPacketProcessor.new readyBackend (some ()) demoConfig).ready readyBackend = true ∧
      (MetalDepthPacketProcessor.new readyBackend (some ()) demoConfig).process readyBackend
        irOnlyListener (demoPacket 1 10) = some (s1, log1) ∧
      runDepth readyBackend irOnlyListener s1 [] = some (s1, []) ∧
      deliveries [] = [] ∧
      s1.ready readyBackend = true ∧
      s1.process readyBackend irOnlyListener (demoPacket 2 20) = some (s3, log3) ∧
      ∃ (ir1 depth1 ir3 depth3 : Frame) (a1 d1 a3 d3 : Bool),
        deliveries log1 = [⟨FrameType.Ir, ir1, a1⟩, ⟨FrameType.Depth, depth1, d1⟩] ∧
        deliveries log3 = [⟨FrameType.Ir, ir3, a3⟩, ⟨FrameType.Depth, depth3, d3⟩] ∧
        (a1 = false → ir3.id = ir1.id ∧ currentFrame FrameType.Ir s1 = some ir1) ∧
        (d1 = false → depth3.id = depth1.id ∧ currentFrame FrameType.Depth s1 = some depth1) :=
  ⟨_, _, _, _, ⟨some (), demoConfig, [], [], rfl⟩, rfl, rfl, rfl, rfl, rfl, rfl, rfl,
    C6_reuse_on_reject readyBackend irOnlyListener
      (MetalDepthPacketProcessor.new readyBackend (some ()) demoConfig) _ _ _
      (demoPacket 1 10) (demoPacket 2 20) [] _ [] _
      ⟨some (), demoConfig, [], [], rfl⟩ rfl rfl rfl rfl rfl rfl rfl⟩

/-- A ready `process` call seen from one kind `k` of frame: the frame of that
kind handed to the listener is the current one, every delivered identity was
allocated before the call, and after an accepted delivery the current frame of
kind `k` has an identity allocated during the call. -/
theorem process_ready_kind (B : MetalDepthProcessorObjC β) (Lst : FrameListener L) (r : Bool)
    (s s1 : MetalDepthPacketProcessor β L) (p : DepthPacket) (log : List Event)
    (k : FrameType) (hk : k = FrameType.Ir ∨ k = FrameType.Depth)
    (hW : WellFormed r s) (hl : s.listener_.isSome = true) (hr : s.ready B = true)
    (h : s.process B Lst p = some (s1, log)) :
    ∃ (fk : Frame) (rk : Bool),
      (deliveries log).filter (fun d => decide (d.type = k)) = [⟨k, fk, rk⟩] ∧
      (∃ c, currentFrame k s = some c ∧ c.id = fk.id) ∧
      (∀ x ∈ deliveredIds (deliveries log), x < heapOf s) ∧ heapOf s ≤ heapOf s1 ∧
      (rk = true → ∃ f, currentFrame k s1 = some f ∧ heapOf s ≤ f.id) := by
  obtain ⟨-, impl, b, ir, depth, hi, hri, hb, hir, hd, i1, i2, -⟩ := process_ready_wf B r s hW hr
  cases hl2 : s.listener_ with
  | none => simp [hl2] at hl
  | some l =>
    rw [process_ready B Lst s p l impl b ir depth hl2 hi hri hb hir hd] at h
    simp only [Option.some.injEq, Prod.mk.injEq] at h
    obtain ⟨rfl, rfl⟩ := h
    rcases hk with rfl | rfl
    · refine ⟨irDelivered ir p, (Lst.onNewFrame l FrameType.Ir (irDelivered ir p)).1,
        by simp [deliveries], ⟨ir, by simp [currentFrame, hi, hir], rfl⟩, ?_, ?_, ?_⟩
      · intro x hx
        simp only [deliveries, deliveredIds, List.map_cons, List.map_nil, List.mem_cons,
          List.mem_singleton, irDelivered_id, depthDelivered_id, List.not_mem_nil, or_false] at hx
        rcases hx with rfl | rfl <;> simpa [heapOf, hi]
      · simp only [heapOf, hi, implAfter]
        split <;> split <;> omega
      · intro ha
        simp [currentFrame, implAfter, ha, heapOf, hi, Frame.new]
    · refine ⟨depthDelivered depth p (B.processDepthData b p.buffer
          impl.config.EnableEdgeAwareFilter impl.config.EnableBilateralFilter).2,
        (Lst.onNewFrame (Lst.onNewFrame l FrameType.Ir (irDelivered ir p)).2 FrameType.Depth
          (depthDelivered depth p (B.processDepthData b p.buffer
            impl.config.EnableEdgeAwareFilter impl.config.EnableBilateralFilter).2)).1,
        by simp [deliveries], ⟨depth, by simp [currentFrame, hi, hd], rfl⟩, ?_, ?_, ?_⟩
      · intro x hx
        simp only [deliveries, deliveredIds, List.map_cons, List.map_nil, List.mem_cons,
          List.mem_singleton, irDelivered_id, depthDelivered_id, List.not_mem_nil, or_false] at hx
        rcases hx with rfl | rfl <;> simpa [heapOf, hi]
      · simp only [heapOf, hi, implAfter]
        split <;> split <;> omega
      · intro ha
        simp only [currentFrame, implAfter, ha, heapOf, hi, Frame.new, if_true]
        split <;> simp

/-- A successful run of a non-empty list of calls splits at its first call. -/
theorem runDepth_cons_some (B : MetalDepthProcessorObjC β) (Lst : FrameListener L)
    (s s1 : MetalDepthPacketProcessor β L) (op : DepthOp) (ops : List DepthOp) (log : List Event)
    (h : runDepth B Lst s (op :: ops) = some (s1, log)) :
    ∃ (sa : MetalDepthPacketProcessor β L) (loga logb : List Event),
      stepDepth B Lst s op = some (sa, loga) ∧ runDepth B Lst sa ops = some (s1, logb) ∧
      log = loga ++ logb := by
  unfold runDepth at h
  cases hs : stepDepth B Lst s op with
  | none => simp [hs] at h
  | some x =>
    obtain ⟨sa, loga⟩ := x
    cases hrun : runDepth B Lst sa ops with
    | none => simp [hs, hrun] at h
    | some q =>
      obtain ⟨sb, logb⟩ := q
      simp only [hs, hrun, Option.some.injEq, Prod.mk.injEq] at h
      obtain ⟨rfl, rfl⟩ := h
      exact ⟨sa, loga, logb, rfl, hrun, rfl⟩

/-- Every call delivers only frames allocated before it and never lowers the
allocation counter. -/
theorem stepDepth_ids (B : MetalDepthProcessorObjC β) (Lst : FrameListener L) (r : Bool)
    (s s1 : MetalDepthPacketProcessor β L) (op : DepthOp) (log : List Event)
    (hW : WellFormed r s) (h : stepDepth B Lst s op = some (s1, log)) :
    (∀ x ∈ deliveredIds (deliveries log), x < heapOf s) ∧ heapOf s ≤ heapOf s1 := by
  cases hop : op.isProcess with
  | false =>
    obtain ⟨impl, hi, -⟩ := hW
    obtain ⟨-, hdel, impl1, hi1, -, -, e3, -⟩ :=
      stepDepth_not_process B Lst s s1 op log hop impl hi h
    refine ⟨by simp [hdel, deliveredIds], ?_⟩
    simp [heapOf, hi, hi1, e3]
  | true =>
    cases op <;> simp only [DepthOp.isProcess, Bool.false_eq_true] at hop
    rename_i p
    simp only [stepDepth] at h
    cases hr : s.ready B with
    | false =>
      rcases process_not_ready B Lst s p hr with h2 | h2 <;>
      · rw [h2] at h
        simp only [Option.some.injEq, Prod.mk.injEq] at h
        obtain ⟨rfl, rfl⟩ := h
        simp [deliveries, deliveredIds]
    | true =>
      cases hl : s.listener_ with
      | none =>
        rw [process_no_listener B Lst s p hl] at h
        simp only [Option.some.injEq, Prod.mk.injEq] at h
        obtain ⟨rfl, rfl⟩ := h
        simp [deliveries, deliveredIds]
      | some l =>
        obtain ⟨-, -, -, -, h3, h4, -⟩ :=
          process_ready_kind B Lst r s s1 p log FrameType.Ir (Or.inl rfl) hW (by simp [hl]) hr h
        exact ⟨h3, h4⟩

/-- Every frame delivered during a run was allocated during or before the
run, and the allocation counter does not decrease. -/
theorem runDepth_ids (B : MetalDepthProcessorObjC β) (Lst : FrameListener L) (r : Bool)
    (ops : List DepthOp) :
    ∀ (s s1 : MetalDepthPacketProcessor β L) (log : List Event), WellFormed r s →
      runDepth B Lst s ops = some (s1, log) →
      (∀ x ∈ deliveredIds (deliveries log), x < heapOf s1) ∧ heapOf s ≤ heapOf s1 := by
  induction ops with
  | nil =>
    intro s s1 log _ h
    simp only [runDepth, Option.some.injEq, Prod.mk.injEq] at h
    obtain ⟨rfl, rfl⟩ := h
    simp [deliveries, deliveredIds]
  | cons op ops ih =>
    intro s s1 log hW h
    obtain ⟨sa, loga, logb, hs, hrun, rfl⟩ := runDepth_cons_some B Lst s s1 op ops log h
    have ha := stepDepth_ids B Lst r s sa op loga hW hs
    have hb := ih sa s1 logb (stepDepth_preserves B Lst r s sa op loga hW hs).1 hrun
    refine ⟨?_, le_trans ha.2 hb.2⟩
    intro x hx
    simp only [deliveries_append, deliveredIds, List.map_append, List.mem_append] at hx
    rcases hx with hx | hx
    · exact lt_of_lt_of_le (ha.1 x hx) (le_trans ha.2 hb.2)
    · exact hb.1 x hx

/-- A run of ready `process` calls in which every frame of kind `k` is
accepted: one frame of kind `k` per call, with strictly increasing identities
starting at the current frame, and after the last call a current frame
allocated during the run, later than every frame delivered by the run. -/
theorem runDepth_accepting (B : MetalDepthProcessorObjC β) (Lst : FrameListener L) (r : Bool)
    (k : FrameType) (hk : k = FrameType.Ir ∨ k = FrameType.Depth) (packets : List DepthPacket) :
    ∀ (s s1 : MetalDepthPacketProcessor β L) (log : List Event), WellFormed r s →
      s.listener_.isSome = true → readyAtEach B Lst s packets = true →
      runDepth B Lst s (packets.map DepthOp.process) = some (s1, log) →
      (∀ d ∈ deliveries log, d.type = k → d.result = true) →
      (idsOfKind k (deliveries log)).length = packets.length ∧
      (idsOfKind k (deliveries log)).Pairwise (fun x y => x < y) ∧
      (∀ x ∈ idsOfKind k (deliveries log), ∃ c, currentFrame k s = some c ∧ c.id ≤ x) ∧
      (packets ≠ [] → ∃ f, currentFrame k s1 = some f ∧ heapOf s ≤ f.id ∧
        ∀ x ∈ deliveredIds (deliveries log), x < f.id) := by
  induction packets with
  | nil =>
    intro s s1 log _ _ _ h _
    simp only [List.map_nil, runDepth, Option.some.injEq, Prod.mk.injEq] at h
    obtain ⟨rfl, rfl⟩ := h
    simp [deliveries, idsOfKind]
  | cons p ps ih =>
    intro s s1 log hW hl hready hrun hacc
    simp only [readyAtEach, Bool.and_eq_true] at hready
    obtain ⟨hr, hrest⟩ := hready
    obtain ⟨sa, loga, logb, hs, hrunb, rfl⟩ :=
      runDepth_cons_some B Lst s s1 (DepthOp.process p) (ps.map DepthOp.process) log hrun
    simp only [stepDepth] at hs
    rw [hs] at hrest
    simp only at hrest
    have hpres := process_preserves B Lst r s sa p loga hW hs
    obtain ⟨fk, rk, hfilter, ⟨c, hc, hcid⟩, hids, hheap, hfresh⟩ :=
      process_ready_kind B Lst r s sa p loga k hk hW hl hr hs
    rw [deliveries_append] at hacc
    have hmem : (⟨k, fk, rk⟩ : Delivery) ∈ deliveries loga := by
      have : (⟨k, fk, rk⟩ : Delivery) ∈
          (deliveries loga).filter (fun d => decide (d.type = k)) := by
        rw [hfilter]; exact List.mem_singleton.2 rfl
      exact (List.mem_filter.1 this).1
    have hrk : rk = true := hacc _ (List.mem_append_left _ hmem) rfl
    obtain ⟨f, hf, hfid⟩ := hfresh hrk
    obtain ⟨ih1, ih2, ih3, ih4⟩ := ih sa s1 logb hpres.1 (hpres.2.trans hl) hrest hrunb
      (fun d hd => hacc d (List.mem_append_right _ hd))
    have hkids : idsOfKind k (deliveries (loga ++ logb)) =
        fk.id :: idsOfKind k (deliveries logb) := by
      simp only [idsOfKind, deliveries_append, List.filter_append, List.map_append, hfilter,
        List.map_cons, List.map_nil, List.singleton_append]
    have hfk : fk.id < heapOf s := by
      apply hids
      simp only [deliveredIds, List.mem_map]
      exact ⟨_, hmem, rfl⟩
    have hlater : ∀ x ∈ idsOfKind k (deliveries logb), fk.id < x := by
      intro x hx
      obtain ⟨c2, hc2, hle⟩ := ih3 x hx
      rw [hf] at hc2
      simp only [Option.some.injEq] at hc2
      subst hc2
      omega
    refine ⟨?_, ?_, ?_, ?_⟩
    · rw [hkids, List.length_cons, ih1, List.length_cons]
    · rw [hkids]
      exact List.Pairwise.cons hlater ih2
    · intro x hx
      rw [hkids] at hx
      rcases List.mem_cons.1 hx with rfl | hx
      · exact ⟨c, hc, le_of_eq hcid⟩
      · exact ⟨c, hc, by rw [hcid]; exact le_of_lt (hlater x hx)⟩
    · intro _
      have hheapb := (runDepth_ids B Lst r (ps.map DepthOp.process) sa s1 logb hpres.1 hrunb).2
      cases ps with
      | nil =>
        simp only [List.map_nil, runDepth, Option.some.injEq, Prod.mk.injEq] at hrunb
        obtain ⟨rfl, rfl⟩ := hrunb
        refine ⟨f, hf, hfid, ?_⟩
        intro x hx
        rw [List.append_nil] at hx
        exact lt_of_lt_of_le (hids x hx) hfid
      | cons q qs =>
        obtain ⟨g, hg, hgid, hgall⟩ := ih4 (by simp)
        refine ⟨g, hg, le_trans hheap hgid, ?_⟩
        intro x hx
        simp only [deliveries_append, deliveredIds, List.map_append, List.mem_append] at hx
        rcases hx with hx | hx
        · exact lt_of_lt_of_le (hids x hx) (le_trans hheap hgid)
        · exact hgall x hx

/-- C7: with every allocation producing a fresh frame identity, for each of
the kinds IR and depth: if the listener returns true for that kind in each of
N consecutive ready `process` calls (made at any point of the life of the
pipeline), the N frames of that kind delivered by these calls are pairwise
distinct, and after the last of these calls the current frame of that kind is
a frame allocated during these calls whose identity differs from the identity
of every frame delivered so far since construction. -/
theorem C7_accepted_frames_are_fresh (B : MetalDepthProcessorObjC β) (Lst : FrameListener L)
    (listener : Option L) (config : Config) (before : List DepthOp)
    (packets : List DepthPacket) (k : FrameType)
    (s0 s1 : MetalDepthPacketProcessor β L) (log0 log1 : List Event)
    (hk : k = FrameType.Ir ∨ k = FrameType.Depth)
    (hbefore : runDepth B Lst (MetalDepthPacketProcessor.new B listener config) before =
      some (s0, log0))
    (hl : s0.listener_.isSome = true) (hready : readyAtEach B Lst s0 packets = true)
    (hrun : runDepth B Lst s0 (packets.map DepthOp.process) = some (s1, log1))
    (hacc : ∀ d ∈ deliveries log1, d.type = k → d.result = true) :
    (idsOfKind k (deliveries log1)).length = packets.length ∧
    (idsOfKind k (deliveries log1)).Nodup ∧
    (packets ≠ [] → ∃ f, currentFrame k s1 = some f ∧ heapOf s0 ≤ f.id ∧
      f.id ∉ deliveredIds (deliveries (log0 ++ log1))) := by
  have hW0 := new_wellFormed B listener config
  have hW := (runDepth_preserves B Lst _ before _ s0 log0 hW0 hbefore).1
  have hhist := (runDepth_ids B Lst _ before _ s0 log0 hW0 hbefore).1
  obtain ⟨h1, h2, -, h4⟩ := runDepth_accepting B Lst _ k hk packets s0 s1 log1 hW hl hready
    hrun hacc
  refine ⟨h1, ?_, ?_⟩
  · exact List.Pairwise.imp (fun hxy => ne_of_lt hxy) h2
  · intro hne
    obtain ⟨f, hf, hfid, hall⟩ := h4 hne
    refine ⟨f, hf, hfid, ?_⟩
    intro hmem
    simp only [deliveries_append, deliveredIds, List.map_append, List.mem_append] at hmem
    rcases hmem with hm | hm
    · have := hhist f.id hm
      omega
    · have := hall f.id hm
      omega

/-- C7, evaluated: over `readyBackend` with a listener that accepts every IR
frame, one earlier `process` call and then two consecutive calls. -/
theorem C7_accepted_frames_are_fresh_witness :
    ∃ (s0 s1 : MetalDepthPacketProcessor Unit Unit) (log0 log1 : List Event),
      (FrameType.Ir = FrameType.Ir ∨ FrameType.Ir = FrameType.Depth) ∧
      runDepth readyBackend irOnlyListener
        (MetalDepthPacketProcessor.new readyBackend (some ()) demoConfig)
        [DepthOp.process (demoPacket 1 10)] = some (s0, log0) ∧
      s0.listener_.isSome = true ∧
      readyAtEach readyBackend irOnlyListener s0 [demoPacket 2 20, demoPacket 3 30] = true ∧
      runDepth readyBackend irOnlyListener s0
        ([demoPacket 2 20, demoPacket 3 30].map DepthOp.process) = some (s1, log1) ∧
      (∀ d ∈ deliveries log1, d.type = FrameType.Ir → d.result = true) ∧
      (idsOfKind FrameType.Ir (deliveries log1)).length =
        [demoPacket 2 20, demoPacket 3 30].length ∧
      (idsOfKind FrameType.Ir (deliveries log1)).Nodup ∧
      ([demoPacket 2 20, demoPacket 3 30] ≠ [] →
        ∃ f, currentFrame FrameType.Ir s1 = some f ∧ heapOf s0 ≤ f.id ∧
          f.id ∉ deliveredIds (deliveries (log0 ++ log1))) :=
  ⟨_, _, _, _, Or.inl rfl, rfl, rfl, rfl, rfl, by decide,
    C7_accepted_frames_are_fresh readyBackend irOnlyListener (some ()) demoConfig
      [DepthOp.process (demoPacket 1 10)] [demoPacket 2 20, demoPacket 3 30] FrameType.Ir
      _ _ _ _ (Or.inl rfl) rfl rfl rfl rfl (by decide)⟩

/-- C8: with the backend's `loadP0TablesFromCommandResponse` as the spec
describes it, for every pipeline state and every buffer whose `buffer_length`
differs from the expected P0 response size, the load leaves the whole pipeline
state as it was: the buffer is not uploaded, the tables held by the backend
are not replaced, `ready` returns the same value after the call as before,
and no listener is invoked. -/
theorem C8_wrong_length_is_rejected (B : MetalDepthProcessorObjC β) (expected : Nat)
    (upload : β → List Nat → β) (s : MetalDepthPacketProcessor β L) (buffer : List Nat)
    (buffer_length : Nat) (h : buffer_length ≠ expected) :
    (s.loadP0TablesFromCommandResponse (withSpecLoadP0Tables B expected upload) buffer
        buffer_length).1 = s ∧
      (s.loadP0TablesFromCommandResponse (withSpecLoadP0Tables B expected upload) buffer
        buffer_length).1.ready (withSpecLoadP0Tables B expected upload) =
        s.ready (withSpecLoadP0Tables B expected upload) ∧
      deliveries (s.loadP0TablesFromCommandResponse (withSpecLoadP0Tables B expected upload)
        buffer buffer_length).2 = [] := by
  have key : (s.loadP0TablesFromCommandResponse (withSpecLoadP0Tables B expected upload) buffer
        buffer_length).1 = s := by
    obtain ⟨listener, config, impl⟩ := s
    cases impl with
    | none => rfl
    | some impl =>
      obtain ⟨c, i, d, p, f1, f2, f3, hp⟩ := impl
      cases p with
      | none => rfl
      | some b =>
        simp [MetalDepthPacketProcessor.loadP0TablesFromCommandResponse,
          MetalDepthPacketProcessorImpl.loadP0TablesFromCommandResponse, withSpecLoadP0Tables,
          specLoadP0Tables, h]
  refine ⟨key, by rw [key], ?_⟩
  cases hi : s.impl_ with
  | none => simp [MetalDepthPacketProcessor.loadP0TablesFromCommandResponse, hi, deliveries]
  | some impl =>
    cases hp : impl.processor <;>
      simp [MetalDepthPacketProcessor.loadP0TablesFromCommandResponse,
        MetalDepthPacketProcessorImpl.loadP0TablesFromCommandResponse, hi, hp, deliveries]

/-- C8, evaluated: a table of the expected length 3 is loaded, then a buffer
of length 1 is offered and rejected. -/
theorem C8_wrong_length_is_rejected_witness :
    (1 : Nat) ≠ 3 ∧
      (((MetalDepthPacketProcessor.new (withSpecLoadP0Tables tableBackend 3 (fun _ data => data))
            (some ()) demoConfig).loadP0TablesFromCommandResponse
          (withSpecLoadP0Tables tableBackend 3 (fun _ data => data)) [1, 2, 3] 3).1.loadP0TablesFromCommandResponse
        (withSpecLoadP0Tables tableBackend 3 (fun _ data => data)) [9] 1).1 =
        ((MetalDepthPacketProcessor.new (withSpecLoadP0Tables tableBackend 3 (fun _ data => data))
            (some ()) demoConfig).loadP0TablesFromCommandResponse
          (withSpecLoadP0Tables tableBackend 3 (fun _ data => data)) [1, 2, 3] 3).1 ∧
      (((MetalDepthPacketProcessor.new (withSpecLoadP0Tables tableBackend 3 (fun _ data => data))
            (some ()) demoConfig).loadP0TablesFromCommandResponse
          (withSpecLoadP0Tables tableBackend 3 (fun _ data => data)) [1, 2, 3] 3).1.loadP0TablesFromCommandResponse
        (withSpecLoadP0Tables tableBackend 3 (fun _ data => data)) [9] 1).1.ready
          (withSpecLoadP0Tables tableBackend 3 (fun _ data => data)) =
        ((MetalDepthPacketProcessor.new (withSpecLoadP0Tables tableBackend 3 (fun _ data => data))
            (some ()) demoConfig).loadP0TablesFromCommandResponse
          (withSpecLoadP0Tables tableBackend 3 (fun _ data => data)) [1, 2, 3] 3).1.ready
          (withSpecLoadP0Tables tableBackend 3 (fun _ data => data)) ∧
      deliveries (((MetalDepthPacketProcessor.new
            (withSpecLoadP0Tables tableBackend 3 (fun _ data => data))
            (some ()) demoConfig).loadP0TablesFromCommandResponse
          (withSpecLoadP0Tables tableBackend 3 (fun _ data => data)) [1, 2, 3] 3).1.loadP0TablesFromCommandResponse
        (withSpecLoadP0Tables tableBackend 3 (fun _ data => data)) [9] 1).2 = [] :=
  ⟨by decide,
    C8_wrong_length_is_rejected tableBackend 3 (fun _ data => data)
      ((MetalDepthPacketProcessor.new (withSpecLoadP0Tables tableBackend 3 (fun _ data => data))
          (some ()) demoConfig).loadP0TablesFromCommandResponse
        (withSpecLoadP0Tables tableBackend 3 (fun _ data => data)) [1, 2, 3] 3).1
      [9] 1 (by decide)⟩


/-- `memset` over a whole buffer keeps its length and leaves only the fill
byte. -/
theorem memset_whole (dst : List Nat) (c n : Nat) (h : dst.length = n) :
    memset dst c n = List.replicate n c ∧ (memset dst c n).length = dst.length := by
  have hd : dst.drop n = [] := List.drop_eq_nil_of_le (le_of_eq h)
  simp [memset, hd, h]

/-- `memcpy` over a whole buffer keeps its length and leaves only the source
bytes, in order. -/
theorem memcpy_whole (dst : List Nat) (src : Nat → Nat) (n : Nat) (h : dst.length = n) :
    memcpy dst src n = (List.range' 0 n).map src ∧ (memcpy dst src n).length = dst.length := by
  have hd : dst.drop n = [] := List.drop_eq_nil_of_le (le_of_eq h)
  simp [memcpy, hd, h]

/-- A fresh frame has the size of its dimensions. -/
theorem Frame_new_length (id w h bpp : Nat) : (Frame.new id w h bpp).data.length = w * h * bpp := by
  simp [Frame.new]

/-- The constructor establishes `FramesSized`. -/
theorem new_framesSized (B : MetalDepthProcessorObjC β) (listener : Option L) (config : Config) :
    FramesSized (MetalDepthPacketProcessor.new B listener config) := by
  intro k f hf
  simp only [currentFrame, MetalDepthPacketProcessor.new, MetalDepthPacketProcessorImpl.new] at hf
  cases hinit : B.initWithWidth 512 424 with
  | none => cases k <;> simp [hinit] at hf
  | some b =>
    cases hrdy : B.isReady b with
    | false => cases k <;> simp [hinit, hrdy] at hf
    | true =>
      cases k <;>
        simp only [hinit, hrdy, Bool.true_eq_false, if_false,
          MetalDepthPacketProcessorImpl.newIrFrame, MetalDepthPacketProcessorImpl.newDepthFrame,
          Option.some.injEq] at hf
      · exact absurd hf (by simp)
      · subst hf
        exact ⟨rfl, rfl, rfl, by simp [Frame.new, MetalDepthPacketProcessorImpl.IMAGE_SIZE]⟩
      · subst hf
        exact ⟨rfl, rfl, rfl, by simp [Frame.new, MetalDepthPacketProcessorImpl.IMAGE_SIZE]⟩

/-- A call of `process` preserves `FramesSized`. -/
theorem process_framesSized (B : MetalDepthProcessorObjC β) (Lst : FrameListener L) (r : Bool)
    (s s1 : MetalDepthPacketProcessor β L) (packet : DepthPacket) (log : List Event)
    (hW : WellFormed r s) (hS : FramesSized s)
    (h : s.process B Lst packet = some (s1, log)) : FramesSized s1 := by
  cases hr : s.ready B with
  | false =>
    rcases process_not_ready B Lst s packet hr with h2 | h2 <;>
    · rw [h2] at h
      simp only [Option.some.injEq, Prod.mk.injEq] at h
      obtain ⟨rfl, -⟩ := h
      exact hS
  | true =>
    cases hl : s.listener_ with
    | none =>
      rw [process_no_listener B Lst s packet hl] at h
      simp only [Option.some.injEq, Prod.mk.injEq] at h
      obtain ⟨rfl, -⟩ := h
      exact hS
    | some l =>
      obtain ⟨-, impl, b, ir, depth, hi, hri, hb, hir, hd, -⟩ := process_ready_wf B r s hW hr
      rw [process_ready B Lst s packet l impl b ir depth hl hi hri hb hir hd] at h
      simp only [Option.some.injEq, Prod.mk.injEq] at h
      obtain ⟨rfl, -⟩ := h
      have hIr := hS FrameType.Ir ir (by simp [currentFrame, hi, hir])
      have hDepth := hS FrameType.Depth depth (by simp [currentFrame, hi, hd])
      intro k f hf
      cases k with
      | Color => simp [currentFrame] at hf
      | Ir =>
        simp only [currentFrame, implAfter] at hf
        split_ifs at hf
        · simp only [Option.some.injEq] at hf
          subst hf
          exact ⟨rfl, rfl, rfl, by simp [Frame.new, MetalDepthPacketProcessorImpl.IMAGE_SIZE]⟩
        · simp only [Option.some.injEq] at hf
          subst hf
          exact ⟨hIr.1, hIr.2.1, hIr.2.2.1,
            ((memset_whole ir.data 0 _ hIr.2.2.2).2).trans hIr.2.2.2⟩
      | Depth =>
        simp only [currentFrame, implAfter] at hf
        split_ifs at hf <;> simp only [Option.some.injEq] at hf <;> subst hf <;>
          first
            | exact ⟨rfl, rfl, rfl, by simp [Frame.new, MetalDepthPacketProcessorImpl.IMAGE_SIZE]⟩
            | exact ⟨hDepth.1, hDepth.2.1, hDepth.2.2.1,
                ((memcpy_whole depth.data _ _ hDepth.2.2.2).2).trans hDepth.2.2.2⟩

/-- Every call preserves `FramesSized`. -/
theorem stepDepth_framesSized (B : MetalDepthProcessorObjC β) (Lst : FrameListener L) (r : Bool)
    (s s1 : MetalDepthPacketProcessor β L) (op : DepthOp) (log : List Event)
    (hW : WellFormed r s) (hS : FramesSized s)
    (h : stepDepth B Lst s op = some (s1, log)) : FramesSized s1 := by
  cases hop : op.isProcess with
  | true =>
    cases op <;> simp only [DepthOp.isProcess, Bool.false_eq_true] at hop
    exact process_framesSized B Lst r s s1 _ log hW hS h
  | false =>
    obtain ⟨impl, hi, -⟩ := hW
    obtain ⟨-, -, impl1, hi1, e1, e2, -⟩ := stepDepth_not_process B Lst s s1 op log hop impl hi h
    intro k f hf
    apply hS k f
    cases k <;> simp only [currentFrame, hi, hi1] at hf ⊢
    · exact hf
    · rw [← e1]; exact hf
    · rw [← e2]; exact hf

/-- Every state of a pipeline is well formed and has frames of the fixed
size. -/
theorem reachable_framesSized (B : MetalDepthProcessorObjC β) (Lst : FrameListener L)
    (s : MetalDepthPacketProcessor β L) (h : Reachable B Lst s) :
    ∃ r, WellFormed r s ∧ FramesSized s := by
  obtain ⟨listener, config, ops, log, hrun⟩ := h
  exact ⟨_, runDepth_invariant B Lst (fun t => WellFormed _ t ∧ FramesSized t)
    (fun t t1 op lg hP hs =>
      ⟨(stepDepth_preserves B Lst _ t t1 op lg hP.1 hs).1,
        stepDepth_framesSized B Lst _ t t1 op lg hP.1 hP.2 hs⟩)
    ops _ s log
    ⟨new_wellFormed B listener config, new_framesSized B listener config⟩ hrun⟩

/-- In a well-formed state every call of `process` returns normally. -/
theorem process_total (B : MetalDepthProcessorObjC β) (Lst : FrameListener L) (r : Bool)
    (s : MetalDepthPacketProcessor β L) (packet : DepthPacket) (hW : WellFormed r s) :
    ∃ x, s.process B Lst packet = some x := by
  cases hr : s.ready B with
  | false =>
    rcases process_not_ready B Lst s packet hr with h2 | h2
    · exact ⟨_, h2⟩
    · exact ⟨_, h2⟩
  | true =>
    cases hl : s.listener_ with
    | none => exact ⟨_, process_no_listener B Lst s packet hl⟩
    | some l =>
      obtain ⟨-, impl, b, ir, depth, hi, hri, hb, hir, hd, -⟩ := process_ready_wf B r s hW hr
      exact ⟨_, process_ready B Lst s packet l impl b ir depth hl hi hri hb hir hd⟩

/-- In a well-formed state every run returns normally. -/
theorem runDepth_total (B : MetalDepthProcessorObjC β) (Lst : FrameListener L) (r : Bool)
    (ops : List DepthOp) :
    ∀ (s : MetalDepthPacketProcessor β L), WellFormed r s →
      ∃ x, runDepth B Lst s ops = some x := by
  induction ops with
  | nil => intro s _; exact ⟨_, rfl⟩
  | cons op ops ih =>
    intro s hW
    have hstep : ∃ x, stepDepth B Lst s op = some x := by
      cases op with
      | process p => exact process_total B Lst r s p hW
      | setConfiguration c => exact ⟨_, rfl⟩
      | loadP0TablesFromCommandResponse buffer n => exact ⟨_, rfl⟩
      | loadXZTables x z => exact ⟨_, rfl⟩
      | loadLookupTable lut => exact ⟨_, rfl⟩
    obtain ⟨⟨sa, loga⟩, hs⟩ := hstep
    obtain ⟨⟨sb, logb⟩, hrun⟩ := ih sa (stepDepth_preserves B Lst r s sa op loga hW hs).1
    exact ⟨(sb, loga ++ logb), by simp only [runDepth, hs, hrun]⟩

/-- Every byte of a filled buffer is the fill byte. -/
theorem replicate_getElem (n c j : Nat) (h : j < n) : (List.replicate n c)[j]? = some c := by
  simp [List.getElem?_replicate, h]

/-- Byte `j` of a copied buffer is byte `j` of the source. -/
theorem range_map_getElem (n : Nat) (out : Nat → Nat) (j : Nat) (h : j < n) :
    ((List.range' 0 n).map out)[j]? = some (out j) := by
  simp [List.getElem?_map, List.getElem?_range', h]

/-- C17: in every state reached from construction by any sequence of
`setConfiguration`, `load*` and `process` calls, with any listener, a true
`ready()` implies that the current IR frame and the current Depth frame are
both set; and every `process` call, and every further sequence of calls,
returns normally, that is, without reading or writing through an unset frame
pointer (which the model reports as the result `none`). -/
theorem C17_ready_frames_are_set (B : MetalDepthProcessorObjC β) (Lst : FrameListener L)
    (s : MetalDepthPacketProcessor β L) (hs : Reachable B Lst s) :
    (s.ready B = true →
      ∃ ir depth, currentFrame FrameType.Ir s = some ir ∧
        currentFrame FrameType.Depth s = some depth) ∧
    (∀ packet : DepthPacket, ∃ x, s.process B Lst packet = some x) ∧
    (∀ ops : List DepthOp, ∃ x, runDepth B Lst s ops = some x) := by
  obtain ⟨r, hW⟩ := reachable_wellFormed B Lst s hs
  refine ⟨fun hr => ?_, fun packet => process_total B Lst r s packet hW,
    fun ops => runDepth_total B Lst r ops s hW⟩
  obtain ⟨-, impl, b, ir, depth, hi, -, -, hir, hd, -⟩ := process_ready_wf B r s hW hr
  exact ⟨ir, depth, by simp [currentFrame, hi, hir], by simp [currentFrame, hi, hd]⟩

/-- C17, evaluated on a freshly constructed pipeline. -/
theorem C17_ready_frames_are_set_witness :
    Reachable readyBackend (constListener true)
        (MetalDepthPacketProcessor.new readyBackend (some ()) demoConfig) ∧
      ((MetalDepthPacketProcessor.new readyBackend (some ()) demoConfig).ready readyBackend = true →
        ∃ ir depth,
          currentFrame FrameType.Ir
              (MetalDepthPacketProcessor.new readyBackend (some ()) demoConfig) = some ir ∧
            currentFrame FrameType.Depth
              (MetalDepthPacketProcessor.new readyBackend (some ()) demoConfig) = some depth) ∧
      (∀ packet : DepthPacket, ∃ x,
        (MetalDepthPacketProcessor.new readyBackend (some ()) demoConfig).process readyBackend
          (constListener true) packet = some x) ∧
      (∀ ops : List DepthOp, ∃ x,
        runDepth readyBackend (constListener true)
          (MetalDepthPacketProcessor.new readyBackend (some ()) demoConfig) ops = some x) :=
  ⟨⟨some (), demoConfig, [], [], rfl⟩,
    C17_ready_frames_are_set readyBackend (constListener true) _
      ⟨some (), demoConfig, [], [], rfl⟩⟩

/-- The fold of `exponentOf` over the exponents `0 .. n` finds the largest
power of two that is not above `m`. -/
theorem exponentOf_fold (m : Nat) (h1 : 1 ≤ m) (n : Nat) :
    (List.range (n + 1)).foldl (fun e k => if 2 ^ k ≤ m then k else e) 0 ≤ n ∧
    2 ^ (List.range (n + 1)).foldl (fun e k => if 2 ^ k ≤ m then k else e) 0 ≤ m ∧
    (m < 2 ^ (n + 1) →
      m < 2 ^ ((List.range (n + 1)).foldl (fun e k => if 2 ^ k ≤ m then k else e) 0 + 1)) := by
  induction n with
  | zero => simp [List.range_succ]; omega
  | succ n ih =>
    rw [List.range_succ, List.foldl_append]
    simp only [List.foldl_cons, List.foldl_nil]
    by_cases h : 2 ^ (n + 1) ≤ m
    · rw [if_pos h]
      exact ⟨le_refl _, h, fun h3 => h3⟩
    · rw [if_neg h]
      exact ⟨Nat.le_succ_of_le ih.1, ih.2.1, fun _ => ih.2.2 (by omega)⟩

/-- The binary exponent of a positive `m < 2 ^ 16`. -/
theorem exponentOf_spec (m : Nat) (h1 : 1 ≤ m) (h2 : m < 65536) :
    exponentOf m ≤ 15 ∧ 2 ^ exponentOf m ≤ m ∧ m < 2 ^ (exponentOf m + 1) := by
  have h := exponentOf_fold m h1 15
  exact ⟨h.1, h.2.1, h.2.2 (by norm_num; omega)⟩

/-- The fields of the bit pattern built from a sign `sg`, an exponent `e` and
a magnitude `m` with `2 ^ e ≤ m < 2 ^ (e + 1)`. -/
theorem float_fields (sg e m : Nat) (hsg : sg ≤ 1) (he : e ≤ 15) (hlo : 2 ^ e ≤ m)
    (hhi : m < 2 ^ (e + 1)) :
    (sg * 2 ^ 31 + (127 + e) * 2 ^ 23 + (m - 2 ^ e) * 2 ^ (23 - e)) / 2 ^ 31 % 2 = sg ∧
    (sg * 2 ^ 31 + (127 + e) * 2 ^ 23 + (m - 2 ^ e) * 2 ^ (23 - e)) / 2 ^ 23 % 256 = 127 + e ∧
    (2 ^ 23 + (sg * 2 ^ 31 + (127 + e) * 2 ^ 23 + (m - 2 ^ e) * 2 ^ (23 - e)) % 2 ^ 23) %
        2 ^ (150 - (127 + e)) = 0 ∧
    (2 ^ 23 + (sg * 2 ^ 31 + (127 + e) * 2 ^ 23 + (m - 2 ^ e) * 2 ^ (23 - e)) % 2 ^ 23) /
        2 ^ (150 - (127 + e)) = m := by
  interval_cases e <;> norm_num at hlo hhi ⊢ <;> omega

/-- The integer denoted by a bit pattern whose fields are known. -/
theorem float32ToInt_fields (bits sg e m : Nat) (he : e ≤ 15)
    (f1 : bits / 2 ^ 31 % 2 = sg) (f2 : bits / 2 ^ 23 % 256 = 127 + e)
    (f3 : (2 ^ 23 + bits % 2 ^ 23) % 2 ^ (150 - (127 + e)) = 0)
    (f4 : (2 ^ 23 + bits % 2 ^ 23) / 2 ^ (150 - (127 + e)) = m) :
    float32ToInt bits = some ((if sg = 1 then -1 else 1) * (m : Int)) := by
  have c1 : ¬ (127 + e = 0 ∧ bits % 2 ^ 23 = 0) := by omega
  have c2 : 127 ≤ 127 + e ∧ 127 + e ≤ 150 ∧ (0 : Nat) = 0 := by omega
  simp only [float32ToInt, f1, f2, f3, f4, c1, c2, if_false, if_true, and_self]

/-- Widening a `short` to `float` keeps its value: the bit pattern produced
for `s` denotes the integer `s`. -/
theorem floatOfShort_value (s : Int) (h1 : -32768 ≤ s) (h2 : s ≤ 32767) :
    float32ToInt (floatOfShort s) = some s := by
  by_cases h0 : s = 0
  · subst h0; decide
  · have hm1 : 1 ≤ s.natAbs := by omega
    have hm2 : s.natAbs < 65536 := by omega
    obtain ⟨he, hlo, hhi⟩ := exponentOf_spec s.natAbs hm1 hm2
    by_cases hneg : s < 0
    · obtain ⟨f1, f2, f3, f4⟩ := float_fields 1 _ _ (le_refl 1) he hlo hhi
      have hb : floatOfShort s = 1 * 2 ^ 31 + (127 + exponentOf s.natAbs) * 2 ^ 23 +
          (s.natAbs - 2 ^ exponentOf s.natAbs) * 2 ^ (23 - exponentOf s.natAbs) := by
        simp only [floatOfShort, h0, if_false, hneg, if_true, one_mul]
      rw [hb, float32ToInt_fields _ 1 _ _ he f1 f2 f3 f4]
      simp only [if_true, Option.some.injEq]
      omega
    · obtain ⟨f1, f2, f3, f4⟩ := float_fields 0 _ _ (by omega) he hlo hhi
      have hb : floatOfShort s = 0 * 2 ^ 31 + (127 + exponentOf s.natAbs) * 2 ^ 23 +
          (s.natAbs - 2 ^ exponentOf s.natAbs) * 2 ^ (23 - exponentOf s.natAbs) := by
        simp only [floatOfShort, h0, if_false, hneg, zero_mul]
      rw [hb, float32ToInt_fields _ 0 _ _ he f1 f2 f3 f4]
      simp only [zero_ne_one, if_false, Option.some.injEq]
      omega

/-- Entry `i` of the widened table is the widened entry `i` of the table. -/
theorem floatLut_getElem (lut : Nat → Int) (i : Nat)
    (h : i < MetalDepthPacketProcessorImpl.LUT_SIZE) :
    (MetalDepthPacketProcessorImpl.floatLut lut)[i]? = some (floatOfShort (lut i)) := by
  simp only [MetalDepthPacketProcessorImpl.floatLut]
  generalize MetalDepthPacketProcessorImpl.LUT_SIZE = n at h ⊢
  simp [List.getElem?_map, List.getElem?_range, h]

/-- C14: for every lookup table of 2048 signed 16-bit integers, the table the
loop of `loadLookupTable` builds has exactly `LUT_SIZE` = 2048 entries and its
entry `i` is a float whose value is the integer `lut[i]`, for every `i` below
2048. On a pipeline whose backend object exists, `loadLookupTable` makes
exactly one backend call, `loadLookupTable:length:` with that table and the
length 2048, and the backend object becomes the one this call returns. On a
pipeline without a backend object it makes no call and leaves the pipeline as
it was. -/
theorem C14_lookup_table_is_widened (B : MetalDepthProcessorObjC β)
    (s : MetalDepthPacketProcessor β L) (lut : Nat → Int)
    (hlut : ∀ i, i < 2048 → -32768 ≤ lut i ∧ lut i ≤ 32767) :
    MetalDepthPacketProcessorImpl.LUT_SIZE = 2048 ∧
    (MetalDepthPacketProcessorImpl.floatLut lut).length = 2048 ∧
    (∀ i, i < 2048 → ∃ w, (MetalDepthPacketProcessorImpl.floatLut lut)[i]? = some w ∧
      float32ToInt w = some (lut i)) ∧
    (∀ impl b, s.impl_ = some impl → impl.processor = some b →
      s.loadLookupTable B lut =
        ({ s with impl_ := some { impl with
            processor := some (B.loadLookupTable b (MetalDepthPacketProcessorImpl.floatLut lut)
              2048) } },
          [Event.backendLoadLookupTable (MetalDepthPacketProcessorImpl.floatLut lut) 2048])) ∧
    ((s.impl_ = none ∨ ∃ impl, s.impl_ = some impl ∧ impl.processor = none) →
      s.loadLookupTable B lut = (s, [])) := by
  refine ⟨rfl, ?_, ?_, ?_, ?_⟩
  · simp [MetalDepthPacketProcessorImpl.floatLut, MetalDepthPacketProcessorImpl.LUT_SIZE]
  · intro i hi
    exact ⟨_, floatLut_getElem lut i hi, floatOfShort_value _ (hlut i hi).1 (hlut i hi).2⟩
  · intro impl b hi hb
    simp only [MetalDepthPacketProcessor.loadLookupTable, hi,
      MetalDepthPacketProcessorImpl.loadLookupTable, hb]
    rfl
  · rintro (hi | ⟨impl, hi, hb⟩)
    · simp only [MetalDepthPacketProcessor.loadLookupTable, hi]
    · simp only [MetalDepthPacketProcessor.loadLookupTable, hi,
        MetalDepthPacketProcessorImpl.loadLookupTable, hb]
      cases s
      simp_all

/-- C14, evaluated on the table `-1024, -1023, ..., 1023`. -/
theorem C14_lookup_table_is_widened_witness :
    (∀ i, i < 2048 → -32768 ≤ demoLut i ∧ demoLut i ≤ 32767) ∧
      (∀ i, i < 2048 → ∃ w, (MetalDepthPacketProcessorImpl.floatLut demoLut)[i]? = some w ∧
        float32ToInt w = some (demoLut i)) ∧
      ((MetalDepthPacketProcessor.new unavailableBackend (some ()) demoConfig).loadLookupTable
          unavailableBackend demoLut).2 = [] ∧
      ((MetalDepthPacketProcessor.new readyBackend (some ()) demoConfig).loadLookupTable
          readyBackend demoLut).2 =
        [Event.backendLoadLookupTable (MetalDepthPacketProcessorImpl.floatLut demoLut) 2048] :=
  ⟨fun i hi => by simp only [demoLut]; omega,
    (C14_lookup_table_is_widened readyBackend
      (MetalDepthPacketProcessor.new readyBackend (some ()) demoConfig) demoLut
      (fun i hi => by simp only [demoLut]; omega)).2.2.1,
    rfl, rfl⟩

/-- A ready `process` call with a listener, in a reachable state or in any
other state that satisfies the invariants: what the frames held before the
call does not matter.  The events are one backend call, the delivery of the
current IR frame after `memset` and the delivery of the current depth frame
after `memcpy`; both buffers have `IMAGE_SIZE * sizeof(float)` bytes. -/
theorem process_ready_written (B : MetalDepthProcessorObjC β) (Lst : FrameListener L)
    (s : MetalDepthPacketProcessor β L) (packet : DepthPacket)
    (hs : Reachable B Lst s ∨ ∃ r, WellFormed r s ∧ FramesSized s)
    (hl : s.listener_.isSome = true) (hr : s.ready B = true) :
    ∃ (impl : MetalDepthPacketProcessorImpl β) (b : β) (ir0 depth0 : Frame)
      (s1 : MetalDepthPacketProcessor β L) (a d : Bool),
      s.impl_ = some impl ∧ impl.processor = some b ∧
      impl.ir_frame = some ir0 ∧ impl.depth_frame = some depth0 ∧
      ir0.data.length = MetalDepthPacketProcessorImpl.IMAGE_SIZE * sizeof_float ∧
      depth0.data.length = MetalDepthPacketProcessorImpl.IMAGE_SIZE * sizeof_float ∧
      s.process B Lst packet =
        some (s1, [Event.processDepthData packet.buffer impl.config.EnableEdgeAwareFilter
            impl.config.EnableBilateralFilter,
          Event.onNewFrame FrameType.Ir (irDelivered ir0 packet) a,
          Event.onNewFrame FrameType.Depth
            (depthDelivered depth0 packet (B.processDepthData b packet.buffer
              impl.config.EnableEdgeAwareFilter impl.config.EnableBilateralFilter).2) d]) := by
  have hinv : ∃ r, WellFormed r s ∧ FramesSized s := by
    rcases hs with h | h
    · exact reachable_framesSized B Lst s h
    · exact h
  obtain ⟨r, hW, hS⟩ := hinv
  obtain ⟨-, impl, b, ir, depth, hi, hri, hb, hir, hd, -⟩ := process_ready_wf B r s hW hr
  have hIr := (hS FrameType.Ir ir (by simp [currentFrame, hi, hir])).2.2.2
  have hDepth := (hS FrameType.Depth depth (by simp [currentFrame, hi, hd])).2.2.2
  cases hl2 : s.listener_ with
  | none => simp [hl2] at hl
  | some l =>
    exact ⟨impl, b, ir, depth, _, _, _, hi, hb, hir, hd, hIr, hDepth,
      process_ready B Lst s packet l impl b ir depth hl2 hi hri hb hir hd⟩

/-- The buffer of the IR frame handed to the listener is the buffer before the
call after `memset(data, 0, IMAGE_SIZE * sizeof(float))`. -/
theorem irDelivered_data (ir : Frame) (packet : DepthPacket) :
    (irDelivered ir packet).data =
      memset ir.data 0 (MetalDepthPacketProcessorImpl.IMAGE_SIZE * sizeof_float) := rfl

/-- The buffer of the depth frame handed to the listener is the buffer before
the call after `memcpy(data, outputData, IMAGE_SIZE * sizeof(float))`. -/
theorem depthDelivered_data (depth : Frame) (packet : DepthPacket) (out : Nat → Nat) :
    (depthDelivered depth packet out).data =
      memcpy depth.data out (MetalDepthPacketProcessorImpl.IMAGE_SIZE * sizeof_float) := rfl

/-- C15: `IMAGE_SIZE` is 512 * 424 = 217088 and `LUT_SIZE` is 2048, the
values the tests assert.  The frames allocated by `newIrFrame` and
`newDepthFrame` have width 512, height 424 and 4 bytes per pixel, and a buffer
of width * height * bytes-per-pixel = `IMAGE_SIZE` * 4 = 868352 bytes; so has
every current frame of a reachable state.  A ready `process` call with a
listener, in a reachable state or in any other state satisfying the invariants
(whatever the buffers held before), writes exactly that many bytes: the IR
frame it delivers is the current IR frame, its buffer is the old one after
`memset` of `IMAGE_SIZE * sizeof(float)` bytes, has the same length (nothing is
written past the end) and holds only zeros (no byte is left unwritten); the
depth frame it delivers is the current depth frame, its buffer is the old one
after `memcpy` of `IMAGE_SIZE * sizeof(float)` bytes, has the same length and
holds, at every position, the byte of the backend's output buffer at that
position. -/
theorem C15_sizes (B : MetalDepthProcessorObjC β) (Lst : FrameListener L)
    (s : MetalDepthPacketProcessor β L) (packet : DepthPacket)
    (hs : Reachable B Lst s ∨ ∃ r, WellFormed r s ∧ FramesSized s) :
    MetalDepthPacketProcessorImpl.IMAGE_SIZE = 512 * 424 ∧
    MetalDepthPacketProcessorImpl.IMAGE_SIZE = 217088 ∧
    MetalDepthPacketProcessorImpl.LUT_SIZE = 2048 ∧
    MetalDepthPacketProcessorImpl.IMAGE_SIZE * sizeof_float = 868352 ∧
    (∀ impl : MetalDepthPacketProcessorImpl β, ∃ ir depth,
      impl.newIrFrame.ir_frame = some ir ∧ impl.newDepthFrame.depth_frame = some depth ∧
      ir.width = 512 ∧ ir.height = 424 ∧ ir.bytes_per_pixel = 4 ∧
      ir.data.length = ir.width * ir.height * ir.bytes_per_pixel ∧ ir.data.length = 868352 ∧
      depth.width = 512 ∧ depth.height = 424 ∧ depth.bytes_per_pixel = 4 ∧
      depth.data.length = depth.width * depth.height * depth.bytes_per_pixel ∧
      depth.data.length = 868352) ∧
    (∀ (k : FrameType) (f : Frame), currentFrame k s = some f →
      f.width = 512 ∧ f.height = 424 ∧ f.bytes_per_pixel = 4 ∧
      f.data.length = f.width * f.height * f.bytes_per_pixel ∧ f.data.length = 868352) ∧
    (s.listener_.isSome = true → s.ready B = true →
      ∃ (b : β) (flt bil : Bool) (ir0 depth0 ir depth : Frame)
        (s1 : MetalDepthPacketProcessor β L) (a d : Bool),
        currentFrame FrameType.Ir s = some ir0 ∧ currentFrame FrameType.Depth s = some depth0 ∧
        s.process B Lst packet =
          some (s1, [Event.processDepthData packet.buffer flt bil,
            Event.onNewFrame FrameType.Ir ir a, Event.onNewFrame FrameType.Depth depth d]) ∧
        ir.id = ir0.id ∧
        ir.data = memset ir0.data 0 (MetalDepthPacketProcessorImpl.IMAGE_SIZE * sizeof_float) ∧
        ir.data.length = ir0.data.length ∧ ir.data.length = 868352 ∧
        ir.data = List.replicate ir0.data.length 0 ∧
        depth.id = depth0.id ∧
        depth.data = memcpy depth0.data (B.processDepthData b packet.buffer flt bil).2
          (MetalDepthPacketProcessorImpl.IMAGE_SIZE * sizeof_float) ∧
        depth.data.length = depth0.data.length ∧ depth.data.length = 868352 ∧
        depth.data = (List.range' 0 depth0.data.length).map
          (B.processDepthData b packet.buffer flt bil).2) := by
  have hinv : ∃ r, WellFormed r s ∧ FramesSized s := by
    rcases hs with h | h
    · exact reachable_framesSized B Lst s h
    · exact h
  obtain ⟨r, -, hS⟩ := hinv
  have hN : MetalDepthPacketProcessorImpl.IMAGE_SIZE * sizeof_float = 868352 := by
    simp [MetalDepthPacketProcessorImpl.IMAGE_SIZE, sizeof_float]
  have hprod : ∀ id : Nat,
      ({ Frame.new id 512 424 sizeof_float with format := FrameFormat.Float } : Frame).data.length =
        512 * 424 * sizeof_float := by
    intro id
    show (List.replicate (512 * 424 * sizeof_float) uninitialisedByte).length = _
    exact List.length_replicate _ _
  have hnew : ∀ id : Nat,
      ({ Frame.new id 512 424 sizeof_float with format := FrameFormat.Float } : Frame).data.length =
        868352 := by
    intro id
    rw [hprod]
    rfl
  refine ⟨rfl, by simp [MetalDepthPacketProcessorImpl.IMAGE_SIZE], rfl, hN, ?_, ?_, ?_⟩
  · intro impl
    exact ⟨{ Frame.new impl.heap 512 424 sizeof_float with format := FrameFormat.Float },
      { Frame.new impl.heap 512 424 sizeof_float with format := FrameFormat.Float },
      rfl, rfl, rfl, rfl, rfl, hprod impl.heap, hnew impl.heap, rfl, rfl, rfl, hprod impl.heap,
      hnew impl.heap⟩
  · intro k f hf
    obtain ⟨h1, h2, h3, h4⟩ := hS k f hf
    have h3' : f.bytes_per_pixel = 4 := h3
    refine ⟨h1, h2, h3', ?_, by rw [h4, hN]⟩
    rw [h1, h2, h3', h4, hN]
  · intro hl hr
    obtain ⟨impl, b, ir0, depth0, s1, a, d, hi, -, hir, hd, hIr, hDepth, hp⟩ :=
      process_ready_written B Lst s packet hs hl hr
    have mi := memset_whole ir0.data 0 _ hIr
    have md := memcpy_whole depth0.data (B.processDepthData b packet.buffer
      impl.config.EnableEdgeAwareFilter impl.config.EnableBilateralFilter).2 _ hDepth
    refine ⟨b, _, _, ir0, depth0, _, _, s1, a, d, by simp [currentFrame, hi, hir],
      by simp [currentFrame, hi, hd], hp, rfl, rfl, ?_, ?_, ?_, rfl, rfl, ?_, ?_, ?_⟩
    · rw [irDelivered_data]; exact mi.2
    · rw [irDelivered_data, mi.2, hIr, hN]
    · rw [irDelivered_data, mi.1, hIr]
    · rw [depthDelivered_data]; exact md.2
    · rw [depthDelivered_data, md.2, hDepth, hN]
    · rw [depthDelivered_data, md.1, hDepth]

/-- C15, evaluated: the first packet on a freshly constructed pipeline whose
backend writes non-zero bytes. -/
theorem C15_sizes_witness :
    (Reachable patternBackend (constListener true)
        (MetalDepthPacketProcessor.new patternBackend (some ()) demoConfig) ∨
      ∃ r, WellFormed r (MetalDepthPacketProcessor.new patternBackend (some ()) demoConfig) ∧
        FramesSized (MetalDepthPacketProcessor.new patternBackend (some ()) demoConfig)) ∧
      MetalDepthPacketProcessorImpl.IMAGE_SIZE * sizeof_float = 868352 ∧
      ∃ (ir0 depth0 ir depth : Frame) (s1 : MetalDepthPacketProcessor Unit Unit)
        (flt bil a d : Bool),
        currentFrame FrameType.Ir
          (MetalDepthPacketProcessor.new patternBackend (some ()) demoConfig) = some ir0 ∧
        currentFrame FrameType.Depth
          (MetalDepthPacketProcessor.new patternBackend (some ()) demoConfig) = some depth0 ∧
        (MetalDepthPacketProcessor.new patternBackend (some ()) demoConfig).process
            patternBackend (constListener true) (demoPacket 1 10) =
          some (s1, [Event.processDepthData (demoPacket 1 10).buffer flt bil,
            Event.onNewFrame FrameType.Ir ir a, Event.onNewFrame FrameType.Depth depth d]) ∧
        ir.data.length = ir0.data.length ∧ ir.data = List.replicate ir0.data.length 0 ∧
        depth.data.length = depth0.data.length ∧
        depth.data = (List.range' 0 depth0.data.length).map (fun j => j % 251 + 1) :=
  ⟨Or.inl ⟨some (), demoConfig, [], [], rfl⟩,
    (C15_sizes patternBackend (constListener true) _ (demoPacket 1 10)
      (Or.inl ⟨some (), demoConfig, [], [], rfl⟩)).2.2.2.1,
    ((C15_sizes patternBackend (constListener true) _ (demoPacket 1 10)
      (Or.inl ⟨some (), demoConfig, [], [], rfl⟩)).2.2.2.2.2.2 rfl rfl).elim
      fun _ h => h.elim fun flt h => h.elim fun bil h => h.elim fun ir0 h =>
        h.elim fun depth0 h => h.elim fun ir h => h.elim fun depth h => h.elim fun s1 h =>
          h.elim fun a h => h.elim fun d h =>
            ⟨ir0, depth0, ir, depth, s1, flt, bil, a, d, h.1, h.2.1, h.2.2.1,
              h.2.2.2.2.2.1, h.2.2.2.2.2.2.2.1, h.2.2.2.2.2.2.2.2.2.2.1,
              h.2.2.2.2.2.2.2.2.2.2.2.2⟩⟩

/-- C18: a ready `process` call with a listener, in a reachable state or in
any other state satisfying the invariants (whatever the frame buffers held
before the call), calls the backend's `processDepthData` exactly once, with
`enableFilter` equal to the stored `EnableEdgeAwareFilter` and
`enableBilateral` equal to the stored `EnableBilateralFilter`, then hands the
listener the current IR frame and the current depth frame.  The IR frame's
buffer then is 512 * 424 * 4 zero bytes (512 * 424 floats with the bit pattern
of zero), written by `memset`; the depth frame's buffer is the first
512 * 424 * 4 bytes of the backend's output buffer in the same order, so byte
`k` of value `i` is byte `4 * i + k` of the output.  The stored configuration
is whatever `setConfiguration` stored last. -/
theorem C18_ready_process_output (B : MetalDepthProcessorObjC β) (Lst : FrameListener L)
    (s : MetalDepthPacketProcessor β L) (packet : DepthPacket)
    (hs : Reachable B Lst s ∨ ∃ r, WellFormed r s ∧ FramesSized s)
    (hl : s.listener_.isSome = true) (hr : s.ready B = true) :
    ∃ (impl : MetalDepthPacketProcessorImpl β) (b : β) (s1 : MetalDepthPacketProcessor β L)
      (ir0 depth0 ir depth : Frame) (a d : Bool),
      s.impl_ = some impl ∧ impl.processor = some b ∧
      currentFrame FrameType.Ir s = some ir0 ∧ currentFrame FrameType.Depth s = some depth0 ∧
      s.process B Lst packet =
        some (s1, [Event.processDepthData packet.buffer impl.config.EnableEdgeAwareFilter
            impl.config.EnableBilateralFilter,
          Event.onNewFrame FrameType.Ir ir a, Event.onNewFrame FrameType.Depth depth d]) ∧
      ir.id = ir0.id ∧ depth.id = depth0.id ∧
      ir.data = memset ir0.data 0 (MetalDepthPacketProcessorImpl.IMAGE_SIZE * sizeof_float) ∧
      ir.data = List.replicate (512 * 424 * 4) 0 ∧
      depth.data = (List.range' 0 (512 * 424 * 4)).map
        (B.processDepthData b packet.buffer impl.config.EnableEdgeAwareFilter
          impl.config.EnableBilateralFilter).2 ∧
      (∀ i, i < 512 * 424 → ∀ k, k < 4 →
        ir.data[4 * i + k]? = some 0 ∧
        depth.data[4 * i + k]? =
          some ((B.processDepthData b packet.buffer impl.config.EnableEdgeAwareFilter
            impl.config.EnableBilateralFilter).2 (4 * i + k))) ∧
      (∀ c : Config, ∃ impl1, (s.setConfiguration c).impl_ = some impl1 ∧ impl1.config = c) := by
  obtain ⟨impl, b, ir0, depth0, s1, a, d, hi, hb, hir, hd, hIr, hDepth, hp⟩ :=
    process_ready_written B Lst s packet hs hl hr
  have hN : MetalDepthPacketProcessorImpl.IMAGE_SIZE * sizeof_float = 512 * 424 * 4 := by
    simp [MetalDepthPacketProcessorImpl.IMAGE_SIZE, sizeof_float]
  have e1 : (irDelivered ir0 packet).data = List.replicate (512 * 424 * 4) 0 := by
    rw [← hN]
    exact (memset_whole ir0.data 0 _ hIr).1
  have e2 : ∀ out, (depthDelivered depth0 packet out).data =
      (List.range' 0 (512 * 424 * 4)).map out := by
    intro out
    rw [← hN]
    exact (memcpy_whole depth0.data out _ hDepth).1
  refine ⟨impl, b, s1, ir0, depth0, _, _, a, d, hi, hb, by simp [currentFrame, hi, hir],
    by simp [currentFrame, hi, hd], hp, rfl, rfl, rfl, e1, e2 _, ?_, ?_⟩
  · intro i hi4 k hk
    rw [e1, e2]
    have hlt : 4 * i + k < 512 * 424 * 4 := by omega
    exact ⟨replicate_getElem _ 0 _ hlt, range_map_getElem _ _ _ hlt⟩
  · intro c
    exact ⟨impl.setConfiguration c, by simp [MetalDepthPacketProcessor.setConfiguration, hi],
      rfl⟩

/-- C18, evaluated: the first packet on a freshly constructed pipeline whose
backend writes non-zero bytes.  Before the call the first byte of the IR buffer
is the non-zero byte of fresh memory; the IR frame delivered is all zero and
byte 6 of the depth frame delivered is byte 6 of the backend's output. -/
theorem C18_ready_process_output_witness :
    (Reachable patternBackend (constListener true)
        (MetalDepthPacketProcessor.new patternBackend (some ()) demoConfig) ∨
      ∃ r, WellFormed r (MetalDepthPacketProcessor.new patternBackend (some ()) demoConfig) ∧
        FramesSized (MetalDepthPacketProcessor.new patternBackend (some ()) demoConfig)) ∧
      (MetalDepthPacketProcessor.new patternBackend (some ()) demoConfig).listener_.isSome =
        true ∧
      (MetalDepthPacketProcessor.new patternBackend (some ()) demoConfig).ready patternBackend =
        true ∧
      (currentFrame FrameType.Ir
        (MetalDepthPacketProcessor.new patternBackend (some ()) demoConfig)).map
          (fun f => f.data.head?) = some (some 205) ∧
      ∃ (s1 : MetalDepthPacketProcessor Unit Unit) (ir depth : Frame) (a d : Bool),
        (MetalDepthPacketProcessor.new patternBackend (some ()) demoConfig).process
            patternBackend (constListener true) (demoPacket 1 10) =
          some (s1, [Event.processDepthData (demoPacket 1 10).buffer true true,
            Event.onNewFrame FrameType.Ir ir a, Event.onNewFrame FrameType.Depth depth d]) ∧
        ir.data = List.replicate (512 * 424 * 4) 0 ∧
        ir.data[6]? = some 0 ∧ depth.data[6]? = some 7 :=
  ⟨Or.inl ⟨some (), demoConfig, [], [], rfl⟩, rfl, rfl, rfl,
    (C18_ready_process_output patternBackend (constListener true) _ (demoPacket 1 10)
      (Or.inl ⟨some (), demoConfig, [], [], rfl⟩) rfl rfl).elim
      fun impl h => h.elim fun _ h => h.elim fun s1 h => h.elim fun _ h => h.elim fun _ h =>
        h.elim fun ir h => h.elim fun depth h => h.elim fun a h => h.elim fun d h =>
          have hi : some (MetalDepthPacketProcessorImpl.new patternBackend demoConfig) =
              some impl := h.1
          have hc : impl.config = demoConfig := by
            rw [← Option.some.inj hi]; rfl
          ⟨s1, ir, depth, a, d, by rw [h.2.2.2.2.1, hc]; rfl, h.2.2.2.2.2.2.2.2.1,
            (h.2.2.2.2.2.2.2.2.2.2.1 1 (by decide) 2 (by decide)).1,
            (h.2.2.2.2.2.2.2.2.2.2.1 1 (by decide) 2 (by decide)).2⟩⟩

end DepthLemmas

/-! ## The colour pipeline -/

section ColorLemmas

variable {L : Type}

open VTRgbPacketProcessor VTRgbPacketProcessorImpl

/-- The observable events of a concatenation. -/
theorem observed_append (xs ys : List VTEvent) :
    observed (xs ++ ys) = observed xs ++ observed ys := by
  simp [observed]

/-- Releasing the session and the format description is not observable. -/
theorem observed_cleanup (impl : VTRgbPacketProcessorImpl) : observed (cleanup impl).2 = [] := by
  unfold cleanup
  cases impl.decoder <;> cases impl.format <;> rfl

/-- Initialising the texture cache is not observable. -/
theorem observed_initTextureCache (impl : VTRgbPacketProcessorImpl) (A : SetupAnswers) :
    observed (initTextureCache impl A).2 = [] := by
  unfold initTextureCache
  cases impl.textureCache <;> cases A.device <;> simp only <;> try rfl
  split <;> rfl

/-- The system calls of `setupDecoder` are not observable. -/
theorem observed_setupDecoder (impl : VTRgbPacketProcessorImpl) (codecType : CMVideoCodecType)
    (A : SetupAnswers) : observed (setupDecoder impl codecType A).2.2 = [] := by
  unfold setupDecoder
  simp only
  split_ifs <;>
    simp only [observed_append, observed_cleanup, observed_initTextureCache] <;>
    rfl

/-- After `setupDecoder` the current codec is the requested one, whatever it returns. -/
theorem setupDecoder_currentCodec (impl : VTRgbPacketProcessorImpl)
    (codecType : CMVideoCodecType) (A : SetupAnswers) :
    (setupDecoder impl codecType A).2.1.currentCodec = codecType := by
  unfold setupDecoder
  simp only
  split_ifs with h1 <;> try rfl
  · exact h1.2
  · unfold initTextureCache
    simp only [cleanup]
    split <;> try rfl
    split <;> try rfl
    split <;> rfl

/-- The output callback is not observable. -/
theorem observed_decodeFrame (out : Option Nat) (status : Int) (pb : Option Nat) :
    observed (decodeFrame out status pb).2 = [] := by
  unfold decodeFrame
  cases pb <;> split_ifs <;> simp_all [observed, VTEvent.observable]

/-- One decode call is one observable decode attempt. -/
theorem observed_decode (decoder : Option Nat) (sb : Nat) (pb : Option Nat) (D : DecodeAnswer) :
    observed (decode decoder sb pb D).2.2 =
      [VTEvent.VTDecompressionSessionDecodeFrame decoder sb D.status] := by
  unfold decode
  cases hc : D.callback with
  | none => simp [observed, VTEvent.observable]
  | some c =>
    obtain ⟨st, p⟩ := c
    have := observed_decodeFrame pb st p
    simp only [observed] at this
    simp [observed, VTEvent.observable, this]

/-- The constructor of `VTFrame` is not observable. -/
theorem observed_VTFrame_new (id w h bpp : Nat) (pb tc : Option Nat) (T : TextureAnswers) :
    observed (VTFrame.new id w h bpp pb tc T).2 = [] := by
  unfold VTFrame.new
  cases tc <;> cases pb <;> simp only <;> try rfl
  split_ifs <;> try rfl
  cases T.metalTextureRef <;> simp only <;> try rfl
  cases T.metalTexture <;> rfl

/-- The destructor of `VTFrame` is not observable. -/
theorem observed_VTFrame_delete (frame : VTFrame) : observed frame.delete = [] := by
  unfold VTFrame.delete
  cases frame.pixelBuffer <;> cases frame.textureCache <;> cases frame.usingMetal <;> rfl

/-- The final releases are not observable. -/
theorem observed_releaseBuffers (sb : Option Nat) (bb : Nat) :
    observed (releaseBuffers sb bb) = [] := by
  cases sb <;> rfl

/-- The end of `process` after a failed decode: nothing observable. -/
theorem finish_failed (Lst : FrameListener L) (l : L) (impl : VTRgbPacketProcessorImpl)
    (packet : RgbPacket) (v : DecodeLocals) (A : ProcessAnswers)
    (h : decodeFailed v.status v.pixelBuffer = true) :
    observed (finish Lst l impl packet v A).2 = [] := by
  unfold finish
  cases hp : v.pixelBuffer with
  | none => rfl
  | some pb =>
    have hs : v.status ≠ noErr := by
      simpa [decodeFailed, hp] using h
    simp [hs, observed, VTEvent.observable]

/-- The end of `process` after a successful decode: one listener invocation
with the colour frame, followed by its deletion when the listener returned
false. -/
theorem finish_decoded (Lst : FrameListener L) (l : L) (impl : VTRgbPacketProcessorImpl)
    (packet : RgbPacket) (v : DecodeLocals) (A : ProcessAnswers) (pb : Nat)
    (hs : v.status = noErr) (hp : v.pixelBuffer = some pb) :
    observed (finish Lst l impl packet v A).2 =
      VTEvent.onNewFrame FrameType.Color (colorFrame impl packet pb A)
          (Lst.onNewFrame l FrameType.Color (colorFrame impl packet pb A).toFrame).1 ::
        (if (Lst.onNewFrame l FrameType.Color (colorFrame impl packet pb A).toFrame).1 = false
          then [VTEvent.deleteFrame (colorFrame impl packet pb A)] else []) := by
  unfold finish
  simp only [hp, hs, if_true]
  rw [observed_append, observed_append, observed_VTFrame_new]
  cases hres : (Lst.onNewFrame l FrameType.Color (colorFrame impl packet pb A).toFrame).1 with
  | true => rfl
  | false =>
    have hdel := observed_VTFrame_delete (colorFrame impl packet pb A)
    simp only [observed, List.filter_cons, List.filter_nil, List.nil_append, List.cons_append,
      VTEvent.observable, if_true] at hdel ⊢
    rw [hdel]


/-- The observable events of the fallback block: the call of `setupDecoder`
and, when it succeeded and the sample buffer was created again, one decode. -/
theorem observed_fallback (impl : VTRgbPacketProcessorImpl) (bb sb : Nat) (v : DecodeLocals)
    (A : ProcessAnswers) :
    observed (fallback impl bb sb v A).2.2 =
      VTEvent.setupDecoder CMVideoCodecType.AppleProRes422
          (setupDecoder impl CMVideoCodecType.AppleProRes422 A.setup).1 ::
        (if (setupDecoder impl CMVideoCodecType.AppleProRes422 A.setup).1 = true ∧
            A.sampleStatus2 = noErr then
          match A.sampleBuffer2 with
          | some sb2 =>
            [VTEvent.VTDecompressionSessionDecodeFrame
              (setupDecoder impl CMVideoCodecType.AppleProRes422 A.setup).2.1.decoder sb2
              A.decode2.status]
          | none => []
        else []) := by
  unfold fallback
  simp only
  cases hr : (setupDecoder impl CMVideoCodecType.AppleProRes422 A.setup).1 with
  | false =>
    simp only [Bool.false_eq_true, if_false, false_and, observed_append, observed_setupDecoder]
    rfl
  | true =>
    simp only [if_true, true_and]
    cases hsb : A.sampleBuffer2 with
    | none =>
      simp only [observed_append, observed_setupDecoder]
      split_ifs <;> rfl
    | some sb2 =>
      simp only
      split_ifs <;> simp only [observed_append, observed_setupDecoder, observed_decode] <;> rfl

/-- The state after the fallback block is the state after `setupDecoder`. -/
theorem fallback_impl (impl : VTRgbPacketProcessorImpl) (bb sb : Nat) (v : DecodeLocals)
    (A : ProcessAnswers) :
    (fallback impl bb sb v A).1 =
      (setupDecoder impl CMVideoCodecType.AppleProRes422 A.setup).2.1 := by
  cases hr : (setupDecoder impl CMVideoCodecType.AppleProRes422 A.setup).1 <;>
    cases hsb : A.sampleBuffer2 <;>
    by_cases hst : A.sampleStatus2 = noErr <;>
    simp [fallback, hr, hsb, hst]

/-- The first decode is reached exactly when both buffers are created. -/
theorem firstDecode_eq_some (impl : VTRgbPacketProcessorImpl) (A : ProcessAnswers)
    (v : DecodeLocals) (h : firstDecode impl A = some v) :
    ∃ bb sb, A.blockBuffer = some bb ∧ A.sampleBuffer = some sb ∧ A.blockStatus = noErr ∧
      A.sampleStatus = noErr ∧ v = (firstAttempt impl sb A).1 := by
  unfold firstDecode at h
  cases hbb : A.blockBuffer with
  | none => simp [hbb] at h
  | some bb =>
    cases hsb : A.sampleBuffer with
    | none => simp [hbb, hsb] at h
    | some sb =>
      simp only [hbb, hsb] at h
      split_ifs at h with hc
      simp only [Option.some.injEq] at h
      exact ⟨bb, sb, rfl, rfl, hc.1, hc.2, h.symm⟩

/-- The observable events of the first attempt: one decode. -/
theorem observed_firstAttempt (impl : VTRgbPacketProcessorImpl) (sb : Nat)
    (A : ProcessAnswers) :
    observed (firstAttempt impl sb A).2 =
      [VTEvent.VTDecompressionSessionDecodeFrame impl.decoder sb A.decode1.status] := by
  unfold firstAttempt
  exact observed_decode _ _ _ _

/-- Counting events of an observable class can be done on the observable
events. -/
theorem countP_observed (P : VTEvent → Bool) (hP : ∀ e, P e = true → e.observable = true)
    (log : List VTEvent) : log.countP P = (observed log).countP P := by
  induction log with
  | nil => rfl
  | cons e es ih =>
    cases ho : e.observable with
    | true =>
      simp only [observed, List.filter_cons, ho, if_true, List.countP_cons] at ih ⊢
      rw [ih]
    | false =>
      have hp : P e = false := by
        cases hpe : P e with
        | false => rfl
        | true => rw [hP e hpe] at ho; exact absurd ho (by decide)
      simp only [observed, List.filter_cons, ho, Bool.false_eq_true, if_false, List.countP_cons,
        hp, Nat.add_zero] at ih ⊢
      exact ih

/-- Decode attempts can be counted on the observable events. -/
theorem decodeCount_observed (log : List VTEvent) :
    decodeCount log = (observed log).countP VTEvent.isDecode :=
  countP_observed _ (fun e h => by cases e <;> simp_all [VTEvent.isDecode, VTEvent.observable]) log

/-- Calls of `setupDecoder` can be counted on the observable events. -/
theorem setupCount_observed (log : List VTEvent) :
    setupCount log = (observed log).countP VTEvent.isSetupDecoder :=
  countP_observed _
    (fun e h => by cases e <;> simp_all [VTEvent.isSetupDecoder, VTEvent.observable]) log

/-- Listener invocations can be counted on the observable events. -/
theorem listenerCount_observed (log : List VTEvent) :
    listenerCount log = (observed log).countP VTEvent.isListenerCall :=
  countP_observed _
    (fun e h => by cases e <;> simp_all [VTEvent.isListenerCall, VTEvent.observable]) log

/-- A `process` call that reaches the first decode, written out. -/
theorem process_of_buffers (Lst : FrameListener L) (s : VTRgbPacketProcessor L)
    (packet : RgbPacket) (A : ProcessAnswers) (l : L) (bb sb : Nat)
    (hl : s.listener_ = some l)
    (hbb : A.blockBuffer = some bb) (hsb : A.sampleBuffer = some sb)
    (hbs : A.blockStatus = noErr) (hss : A.sampleStatus = noErr) :
    decodePhase s.impl_ A =
        (some (bb, (attempts s.impl_ bb sb A).1, (attempts s.impl_ bb sb A).2.1),
          [VTEvent.CMBlockBufferCreateWithMemoryBlock A.blockStatus A.blockBuffer,
            VTEvent.CMSampleBufferCreate bb s.impl_.format A.sampleStatus A.sampleBuffer] ++
            (attempts s.impl_ bb sb A).2.2) ∧
      (s.process Lst packet A).1.impl_ = (attempts s.impl_ bb sb A).1 ∧
      observed (s.process Lst packet A).2 =
        observed (attempts s.impl_ bb sb A).2.2 ++
          observed (finish Lst l (attempts s.impl_ bb sb A).1 packet
            (attempts s.impl_ bb sb A).2.1 A).2 := by
  have hdp : decodePhase s.impl_ A =
      (some (bb, (attempts s.impl_ bb sb A).1, (attempts s.impl_ bb sb A).2.1),
        [VTEvent.CMBlockBufferCreateWithMemoryBlock A.blockStatus A.blockBuffer,
          VTEvent.CMSampleBufferCreate bb s.impl_.format A.sampleStatus A.sampleBuffer] ++
          (attempts s.impl_ bb sb A).2.2) := by
    unfold decodePhase
    simp only [hbb, hsb, hbs, hss, ne_eq, not_true_eq_false, if_false]
  refine ⟨hdp, ?_, ?_⟩
  · simp only [process, hl, hdp]
  · simp only [process, hl, hdp, observed_append, observed_releaseBuffers, List.append_nil]
    rfl

/-- The attempts when the fallback block is entered. -/
theorem attempts_fallback (impl : VTRgbPacketProcessorImpl) (bb sb : Nat) (A : ProcessAnswers)
    (hfail : decodeFailed (firstAttempt impl sb A).1.status
      (firstAttempt impl sb A).1.pixelBuffer = true)
    (hcodec : impl.currentCodec = CMVideoCodecType.JPEG) :
    (attempts impl bb sb A).1 = (setupDecoder impl CMVideoCodecType.AppleProRes422 A.setup).2.1 ∧
    (attempts impl bb sb A).2.1 = (fallback impl bb sb (firstAttempt impl sb A).1 A).2.1 ∧
    observed (attempts impl bb sb A).2.2 =
      VTEvent.VTDecompressionSessionDecodeFrame impl.decoder sb A.decode1.status ::
        observed (fallback impl bb sb (firstAttempt impl sb A).1 A).2.2 := by
  unfold attempts
  simp only [hfail, hcodec, and_self, if_true, observed_append, observed_firstAttempt,
    fallback_impl]
  exact ⟨trivial, trivial, rfl⟩

/-- The attempts when the fallback block is not entered. -/
theorem attempts_direct (impl : VTRgbPacketProcessorImpl) (bb sb : Nat) (A : ProcessAnswers)
    (h : ¬(decodeFailed (firstAttempt impl sb A).1.status
      (firstAttempt impl sb A).1.pixelBuffer = true ∧
      impl.currentCodec = CMVideoCodecType.JPEG)) :
    (attempts impl bb sb A).1 = impl ∧
    (attempts impl bb sb A).2.1 = (firstAttempt impl sb A).1 ∧
    observed (attempts impl bb sb A).2.2 =
      [VTEvent.VTDecompressionSessionDecodeFrame impl.decoder sb A.decode1.status] := by
  unfold attempts
  simp only [h, if_false, observed_firstAttempt]
  exact ⟨trivial, trivial, trivial⟩


/-- A decode did not fail exactly when the status is `noErr` and a pixel buffer
is present. -/
theorem decodeFailed_eq_false (status : Int) (pixelBuffer : Option Nat) :
    decodeFailed status pixelBuffer = false ↔
      status = noErr ∧ ∃ pb, pixelBuffer = some pb := by
  cases pixelBuffer <;> simp [decodeFailed]

/-- The end of `process` makes no decode attempt and no call of
`setupDecoder`, and invokes the listener once exactly when the decode did not
fail. -/
theorem finish_counts (Lst : FrameListener L) (l : L) (impl : VTRgbPacketProcessorImpl)
    (packet : RgbPacket) (v : DecodeLocals) (A : ProcessAnswers) :
    (observed (finish Lst l impl packet v A).2).countP VTEvent.isSetupDecoder = 0 ∧
    (observed (finish Lst l impl packet v A).2).countP VTEvent.isDecode = 0 ∧
    (observed (finish Lst l impl packet v A).2).countP VTEvent.isListenerCall =
      (if decodeFailed v.status v.pixelBuffer = true then 0 else 1) := by
  cases hf : decodeFailed v.status v.pixelBuffer with
  | true =>
    rw [finish_failed Lst l impl packet v A hf]
    exact ⟨rfl, rfl, rfl⟩
  | false =>
    obtain ⟨hs, pb, hp⟩ := (decodeFailed_eq_false _ _).1 hf
    rw [finish_decoded Lst l impl packet v A pb hs hp]
    cases (Lst.onNewFrame l FrameType.Color (colorFrame impl packet pb A).toFrame).1 <;>
      exact ⟨rfl, rfl, rfl⟩

/-- Listener invocations can be read off the observable events. -/
theorem vtDeliveries_observed (log : List VTEvent) :
    vtDeliveries log = vtDeliveries (observed log) := by
  induction log with
  | nil => rfl
  | cons e es ih =>
    cases e <;>
      simp only [vtDeliveries, observed, List.filter_cons, VTEvent.observable,
        Bool.false_eq_true, if_false, if_true] <;>
      first
        | exact ih
        | exact congrArg _ ih

/-- Frame deletions can be read off the observable events. -/
theorem deletedFrames_observed (log : List VTEvent) :
    deletedFrames log = deletedFrames (observed log) := by
  induction log with
  | nil => rfl
  | cons e es ih =>
    cases e <;>
      simp only [deletedFrames, observed, List.filter_cons, VTEvent.observable,
        Bool.false_eq_true, if_false, if_true] <;>
      first
        | exact ih
        | exact congrArg _ ih

/-- Listener invocations of a concatenation. -/
theorem vtDeliveries_append (xs ys : List VTEvent) :
    vtDeliveries (xs ++ ys) = vtDeliveries xs ++ vtDeliveries ys := by
  induction xs with
  | nil => rfl
  | cons e es ih => cases e <;> simp [vtDeliveries, ih]

/-- Frame deletions of a concatenation. -/
theorem deletedFrames_append (xs ys : List VTEvent) :
    deletedFrames (xs ++ ys) = deletedFrames xs ++ deletedFrames ys := by
  induction xs with
  | nil => rfl
  | cons e es ih => cases e <;> simp [deletedFrames, ih]

/-- The decode attempts invoke no listener and delete no frame. -/
theorem attempts_no_frames (impl : VTRgbPacketProcessorImpl) (bb sb : Nat)
    (A : ProcessAnswers) :
    vtDeliveries (observed (attempts impl bb sb A).2.2) = [] ∧
      deletedFrames (observed (attempts impl bb sb A).2.2) = [] := by
  by_cases h : decodeFailed (firstAttempt impl sb A).1.status
      (firstAttempt impl sb A).1.pixelBuffer = true ∧ impl.currentCodec = CMVideoCodecType.JPEG
  · rw [(attempts_fallback impl bb sb A h.1 h.2).2.2, observed_fallback]
    split_ifs
    · cases A.sampleBuffer2 <;> exact ⟨rfl, rfl⟩
    · exact ⟨rfl, rfl⟩
  · rw [(attempts_direct impl bb sb A h).2.2]
    exact ⟨rfl, rfl⟩

/-- The decode phase gets past the early returns only when both buffers are
created. -/
theorem decodePhase_eq_some (impl : VTRgbPacketProcessorImpl) (A : ProcessAnswers)
    (x : Nat × VTRgbPacketProcessorImpl × DecodeLocals) (log : List VTEvent)
    (h : decodePhase impl A = (some x, log)) :
    ∃ bb sb, A.blockBuffer = some bb ∧ A.sampleBuffer = some sb ∧ A.blockStatus = noErr ∧
      A.sampleStatus = noErr := by
  unfold decodePhase at h
  cases hbb : A.blockBuffer with
  | none => simp [hbb] at h
  | some bb =>
    cases hsb : A.sampleBuffer with
    | none =>
      simp only [hbb, hsb] at h
      split_ifs at h <;> simp at h
    | some sb =>
      simp only [hbb, hsb] at h
      split_ifs at h with h1 h2
      · simp at h
      · simp at h
      · exact ⟨bb, sb, rfl, rfl, not_not.1 h1, not_not.1 h2⟩

/-- The dimensions given to the constructor of `VTFrame` are those of the
frame. -/
theorem VTFrame_new_dims (id w h bpp : Nat) (pb tc : Option Nat) (T : TextureAnswers) :
    (VTFrame.new id w h bpp pb tc T).1.toFrame.width = w ∧
    (VTFrame.new id w h bpp pb tc T).1.toFrame.height = h ∧
    (VTFrame.new id w h bpp pb tc T).1.toFrame.bytes_per_pixel = bpp ∧
    (VTFrame.new id w h bpp pb tc T).1.pixelBuffer = pb := by
  unfold VTFrame.new
  cases tc with
  | none => cases pb <;> exact ⟨rfl, rfl, rfl, rfl⟩
  | some t =>
    cases pb with
    | none => exact ⟨rfl, rfl, rfl, rfl⟩
    | some p =>
      simp only
      split_ifs
      · cases T.metalTextureRef with
        | none => exact ⟨rfl, rfl, rfl, rfl⟩
        | some r => cases T.metalTexture <;> exact ⟨rfl, rfl, rfl, rfl⟩
      · exact ⟨rfl, rfl, rfl, rfl⟩

/-- C9: in `process` with a listener attached, whenever the decode attempts
end with status `noErr` and a non-null pixel buffer, the listener is invoked
exactly once, with kind `Color` and a frame of 1920 x 1080 pixels, 4 bytes per
pixel and format `BGRX` that wraps the decoded pixel buffer and carries the
timestamp, sequence, exposure, gain and gamma of the packet.  The pipeline
deletes exactly that frame when the listener returns false and deletes nothing
when it returns true.  The state after the call is the state of the
implementation object reached before the frame was built: the pipeline has no
field that could refer to the frame. -/
theorem C9_decoded_frame_delivered_once (Lst : FrameListener L) (s : VTRgbPacketProcessor L)
    (packet : RgbPacket) (A : ProcessAnswers) (l : L) (bb pb : Nat)
    (impl : VTRgbPacketProcessorImpl) (v : DecodeLocals) (log0 : List VTEvent)
    (hl : s.listener_ = some l)
    (hphase : decodePhase s.impl_ A = (some (bb, impl, v), log0))
    (hs : v.status = noErr) (hp : v.pixelBuffer = some pb) :
    vtDeliveries (s.process Lst packet A).2 =
      [(FrameType.Color, colorFrame impl packet pb A,
        (Lst.onNewFrame l FrameType.Color (colorFrame impl packet pb A).toFrame).1)] ∧
    (colorFrame impl packet pb A).toFrame.width = 1920 ∧
    (colorFrame impl packet pb A).toFrame.height = 1080 ∧
    (colorFrame impl packet pb A).toFrame.bytes_per_pixel = 4 ∧
    (colorFrame impl packet pb A).toFrame.format = FrameFormat.BGRX ∧
    (colorFrame impl packet pb A).toFrame.timestamp = packet.timestamp ∧
    (colorFrame impl packet pb A).toFrame.sequence = packet.sequence ∧
    (colorFrame impl packet pb A).toFrame.exposure = packet.exposure ∧
    (colorFrame impl packet pb A).toFrame.gain = packet.gain ∧
    (colorFrame impl packet pb A).toFrame.gamma = packet.gamma ∧
    (colorFrame impl packet pb A).pixelBuffer = some pb ∧
    deletedFrames (s.process Lst packet A).2 =
      (if (Lst.onNewFrame l FrameType.Color (colorFrame impl packet pb A).toFrame).1 = false
        then [colorFrame impl packet pb A] else []) ∧
    (s.process Lst packet A).1.impl_ = impl := by
  obtain ⟨bb2, sb, hbb, hsb, hbs, hss⟩ := decodePhase_eq_some s.impl_ A _ log0 hphase
  obtain ⟨hdp, himpl, hobs⟩ := process_of_buffers Lst s packet A l bb2 sb hl hbb hsb hbs hss
  rw [hphase] at hdp
  simp only [Prod.mk.injEq, Option.some.injEq] at hdp
  obtain ⟨⟨-, hi, hv⟩, -⟩ := hdp
  rw [← hi, ← hv] at hobs
  rw [← hi] at himpl
  have hnf := attempts_no_frames s.impl_ bb2 sb A
  have hdims := VTFrame_new_dims A.frameId 1920 1080 4 (some pb) impl.textureCache A.texture
  rw [vtDeliveries_observed, deletedFrames_observed, hobs, vtDeliveries_append,
    deletedFrames_append, hnf.1, hnf.2, finish_decoded Lst l impl packet v A pb hs hp]
  refine ⟨?_, hdims.1, hdims.2.1, hdims.2.2.1, rfl, rfl, rfl, rfl, rfl, rfl, hdims.2.2.2, ?_,
    himpl⟩
  · cases (Lst.onNewFrame l FrameType.Color (colorFrame impl packet pb A).toFrame).1 <;> rfl
  · cases (Lst.onNewFrame l FrameType.Color (colorFrame impl packet pb A).toFrame).1 <;> rfl

/-- When the first decode is not reached, `process` returns early. -/
theorem decodePhase_of_firstDecode_none (impl : VTRgbPacketProcessorImpl) (A : ProcessAnswers)
    (h : firstDecode impl A = none) : (decodePhase impl A).1 = none := by
  unfold firstDecode at h
  unfold decodePhase
  cases hbb : A.blockBuffer with
  | none => rfl
  | some bb =>
    cases hsb : A.sampleBuffer with
    | none => simp only; split_ifs <;> rfl
    | some sb =>
      simp only [hbb, hsb] at h ⊢
      split_ifs at h with hc
      split_ifs with h1 h2
      · rfl
      · rfl
      · exact absurd ⟨not_not.1 h1, not_not.1 h2⟩ hc

/-- The codec after one `process` call. -/
theorem process_currentCodec (Lst : FrameListener L) (s : VTRgbPacketProcessor L)
    (packet : RgbPacket) (A : ProcessAnswers) :
    (s.process Lst packet A).1.impl_.currentCodec =
      if fallbackTaken s A = true then CMVideoCodecType.AppleProRes422
      else s.impl_.currentCodec := by
  cases hl : s.listener_ with
  | none => simp [process, hl, fallbackTaken]
  | some l =>
    cases hf : firstDecode s.impl_ A with
    | none =>
      have hnone := decodePhase_of_firstDecode_none s.impl_ A hf
      have : (s.process Lst packet A).1 = s := by
        unfold process
        simp only [hl]
        generalize decodePhase s.impl_ A = r at hnone
        obtain ⟨r1, r2⟩ := r
        simp only at hnone
        subst hnone
        rfl
      simp [this, fallbackTaken, hl, hf]
    | some v =>
      obtain ⟨bb, sb, hbb, hsb, hbs, hss, rfl⟩ := firstDecode_eq_some s.impl_ A v hf
      obtain ⟨-, himpl, -⟩ := process_of_buffers Lst s packet A l bb sb hl hbb hsb hbs hss
      rw [himpl]
      by_cases h : decodeFailed (firstAttempt s.impl_ sb A).1.status
          (firstAttempt s.impl_ sb A).1.pixelBuffer = true ∧
          s.impl_.currentCodec = CMVideoCodecType.JPEG
      · rw [(attempts_fallback s.impl_ bb sb A h.1 h.2).1, setupDecoder_currentCodec]
        simp [fallbackTaken, hl, hf, h.1, h.2]
      · rw [(attempts_direct s.impl_ bb sb A h).1]
        have : fallbackTaken s A = false := by
          simp only [fallbackTaken, hl, hf, Option.isSome_some, Bool.true_and,
            Bool.and_eq_false_iff, decide_eq_false_iff_not]
          by_cases h1 : decodeFailed (firstAttempt s.impl_ sb A).1.status
              (firstAttempt s.impl_ sb A).1.pixelBuffer = true
          · exact Or.inr (fun h2 => h ⟨h1, h2⟩)
          · exact Or.inl (by simpa using h1)
        simp [this]

/-- C10, amended: after any sequence of colour `process` calls the configured
codec is ProRes422 if some call of the sequence entered the fallback block (a
listener was attached, its first decode was reached and failed, and the codec
at its entry was JPEG), whether or not the ProRes422 session could then be
created or the retry succeeded; otherwise it is the codec configured before
the sequence.  So each call starts with JPEG until the first call whose JPEG
decode fails and with ProRes422 from then on. -/
theorem C10_codec_follows_fallback (Lst : FrameListener L) (s : VTRgbPacketProcessor L)
    (calls : List (RgbPacket × ProcessAnswers)) :
    (runColor Lst s calls).1.impl_.currentCodec =
      if anyFallback Lst s calls = true then CMVideoCodecType.AppleProRes422
      else s.impl_.currentCodec := by
  induction calls generalizing s with
  | nil => rfl
  | cons c rest ih =>
    obtain ⟨p, A⟩ := c
    simp only [runColor, anyFallback]
    rw [ih, process_currentCodec]
    by_cases h1 : fallbackTaken s A = true <;>
      by_cases h2 : anyFallback Lst (s.process Lst p A).1 rest = true <;>
      simp [h1, h2]

/-- C9, evaluated: the JPEG decode succeeds and the listener rejects the
frame. -/
theorem C9_decoded_frame_delivered_once_witness :
    ∃ (impl : VTRgbPacketProcessorImpl) (v : DecodeLocals) (log0 : List VTEvent),
      (VTRgbPacketProcessor.new (some ()) okSetup).listener_ = some () ∧
      decodePhase (VTRgbPacketProcessor.new (some ()) okSetup).impl_
        (demoAnswers goodDecode goodDecode okSetup) = (some (20, impl, v), log0) ∧
      v.status = noErr ∧ v.pixelBuffer = some 30 ∧
      vtDeliveries ((VTRgbPacketProcessor.new (some ()) okSetup).process (constListener false)
          (demoRgbPacket 1 10) (demoAnswers goodDecode goodDecode okSetup)).2 =
        [(FrameType.Color,
          colorFrame impl (demoRgbPacket 1 10) 30 (demoAnswers goodDecode goodDecode okSetup),
          false)] ∧
      deletedFrames ((VTRgbPacketProcessor.new (some ()) okSetup).process (constListener false)
          (demoRgbPacket 1 10) (demoAnswers goodDecode goodDecode okSetup)).2 =
        [colorFrame impl (demoRgbPacket 1 10) 30 (demoAnswers goodDecode goodDecode okSetup)] :=
  ⟨_, _, _, rfl, rfl, rfl, rfl,
    (C9_decoded_frame_delivered_once (constListener false)
      (VTRgbPacketProcessor.new (some ()) okSetup) (demoRgbPacket 1 10)
      (demoAnswers goodDecode goodDecode okSetup) () 20 30 _ _ _ rfl rfl rfl rfl).1,
    (C9_decoded_frame_delivered_once (constListener false)
      (VTRgbPacketProcessor.new (some ()) okSetup) (demoRgbPacket 1 10)
      (demoAnswers goodDecode goodDecode okSetup) () 20 30 _ _ _ rfl rfl rfl
      rfl).2.2.2.2.2.2.2.2.2.2.2.1⟩

/-- C10 as stated fails: on a fresh pipeline (codec JPEG, no decode has
succeeded yet), a call whose JPEG decode fails and whose ProRes422 session
cannot be created, and likewise a call whose JPEG decode and ProRes422 retry
both fail, invokes no listener and leaves the codec set to ProRes422 for the
next call. -/
theorem C10_counterexample :
    (VTRgbPacketProcessor.new (some ()) okSetup).impl_.currentCodec = CMVideoCodecType.JPEG ∧
    listenerCount ((VTRgbPacketProcessor.new (some ()) okSetup).process (constListener true)
      (demoRgbPacket 1 10) (demoAnswers failingDecode failingDecode noSessionSetup)).2 = 0 ∧
    decodeCount ((VTRgbPacketProcessor.new (some ()) okSetup).process (constListener true)
      (demoRgbPacket 1 10) (demoAnswers failingDecode failingDecode noSessionSetup)).2 = 1 ∧
    ((VTRgbPacketProcessor.new (some ()) okSetup).process (constListener true)
      (demoRgbPacket 1 10)
      (demoAnswers failingDecode failingDecode noSessionSetup)).1.impl_.currentCodec =
        CMVideoCodecType.AppleProRes422 ∧
    listenerCount ((VTRgbPacketProcessor.new (some ()) okSetup).process (constListener true)
      (demoRgbPacket 1 10) (demoAnswers failingDecode failingDecode okSetup)).2 = 0 ∧
    decodeCount ((VTRgbPacketProcessor.new (some ()) okSetup).process (constListener true)
      (demoRgbPacket 1 10) (demoAnswers failingDecode failingDecode okSetup)).2 = 2 ∧
    ((VTRgbPacketProcessor.new (some ()) okSetup).process (constListener true)
      (demoRgbPacket 1 10)
      (demoAnswers failingDecode failingDecode okSetup)).1.impl_.currentCodec =
        CMVideoCodecType.AppleProRes422 := by
  decide

/-- C13: for a `VTFrame` constructed with a non-null pixel buffer, the
constructor takes the GPU-mapped path (`usingMetal` true, data at the texture
contents, no lock) exactly when a texture cache is supplied,
`CVMetalTextureCacheCreateTextureFromImage` returns success with a non-null
texture reference and the texture obtained from it is non-null; in every other
case it locks the base address of the pixel buffer once (`usingMetal` false,
data at the base address).  The destructor unlocks the pixel buffer once
exactly when the constructor locked it, never on the GPU path, and releases the
pixel buffer exactly once on either path. -/
theorem C13_frame_released_by_its_access_mode (id w h bpp pb : Nat) (tc : Option Nat)
    (T : TextureAnswers) :
    ((VTFrame.new id w h bpp (some pb) tc T).1.usingMetal = true ↔
      tc.isSome = true ∧ T.cvRet = kCVReturnSuccess ∧ T.metalTextureRef.isSome = true ∧
        T.metalTexture.isSome = true) ∧
    ((VTFrame.new id w h bpp (some pb) tc T).1.usingMetal = true →
      lockedBuffers (VTFrame.new id w h bpp (some pb) tc T).2 = [] ∧
      (VTFrame.new id w h bpp (some pb) tc T).1.toFrame.data = T.contents ∧
      unlockedBuffers (VTFrame.new id w h bpp (some pb) tc T).1.delete = []) ∧
    ((VTFrame.new id w h bpp (some pb) tc T).1.usingMetal = false →
      lockedBuffers (VTFrame.new id w h bpp (some pb) tc T).2 = [some pb] ∧
      (VTFrame.new id w h bpp (some pb) tc T).1.toFrame.data = T.baseAddress ∧
      unlockedBuffers (VTFrame.new id w h bpp (some pb) tc T).1.delete = [pb]) ∧
    (lockedBuffers (VTFrame.new id w h bpp (some pb) tc T).2).length =
      (unlockedBuffers (VTFrame.new id w h bpp (some pb) tc T).1.delete).length ∧
    releasedPixelBuffers (VTFrame.new id w h bpp (some pb) tc T).1.delete = [pb] ∧
    releasedPixelBuffers (VTFrame.new id w h bpp (some pb) tc T).2 = [] ∧
    unlockedBuffers (VTFrame.new id w h bpp (some pb) tc T).2 = [] ∧
    lockedBuffers (VTFrame.new id w h bpp (some pb) tc T).1.delete = [] := by
  cases tc with
  | none =>
    simp only [VTFrame.new, VTFrame.delete]
    simp [lockedBuffers, unlockedBuffers, releasedPixelBuffers]
  | some c =>
    by_cases hcv : T.cvRet = kCVReturnSuccess
    · cases href : T.metalTextureRef with
      | none =>
        simp only [VTFrame.new, VTFrame.delete, hcv, href]
        simp [lockedBuffers, unlockedBuffers, releasedPixelBuffers]
      | some r =>
        cases htex : T.metalTexture with
        | none =>
          simp only [VTFrame.new, VTFrame.delete, hcv, href, htex]
          simp [lockedBuffers, unlockedBuffers, releasedPixelBuffers]
        | some t =>
          simp only [VTFrame.new, VTFrame.delete, hcv, href, htex]
          simp [lockedBuffers, unlockedBuffers, releasedPixelBuffers]
    · simp only [VTFrame.new, VTFrame.delete, hcv]
      simp [lockedBuffers, unlockedBuffers, releasedPixelBuffers]

/-- A `process` call that returns before the first decode leaves the pipeline
as it was and makes no observable event. -/
theorem process_early (Lst : FrameListener L) (s : VTRgbPacketProcessor L)
    (packet : RgbPacket) (A : ProcessAnswers) (h : firstDecode s.impl_ A = none) :
    (s.process Lst packet A).1 = s ∧ observed (s.process Lst packet A).2 = [] := by
  cases hl : s.listener_ with
  | none => simp [process, hl, observed]
  | some l =>
    unfold firstDecode at h
    unfold process decodePhase
    simp only [hl]
    cases hbb : A.blockBuffer with
    | none => exact ⟨rfl, rfl⟩
    | some bb =>
      cases hsb : A.sampleBuffer with
      | none => simp only; split_ifs <;> exact ⟨rfl, rfl⟩
      | some sb =>
        simp only [hbb, hsb] at h ⊢
        split_ifs at h with hc
        split_ifs with h1 h2
        · exact ⟨rfl, rfl⟩
        · exact ⟨rfl, rfl⟩
        · exact absurd ⟨not_not.1 h1, not_not.1 h2⟩ hc

/-- A `process` call without a listener does nothing. -/
theorem process_without_listener (Lst : FrameListener L) (s : VTRgbPacketProcessor L)
    (packet : RgbPacket) (A : ProcessAnswers) (h : s.listener_ = none) :
    s.process Lst packet A = (s, []) := by
  simp [process, h]

/-- A `process` call that does not enter the fallback block leaves the
implementation object as it was, never calls `setupDecoder`, and attempts one
decode when it reaches the decode stage and none otherwise. -/
theorem process_direct (Lst : FrameListener L) (s : VTRgbPacketProcessor L)
    (packet : RgbPacket) (A : ProcessAnswers) (h : fallbackTaken s A = false) :
    (s.process Lst packet A).1.impl_ = s.impl_ ∧
    setupCount (s.process Lst packet A).2 = 0 ∧
    decodeCount (s.process Lst packet A).2 ≤ 1 ∧
    (∀ l v, s.listener_ = some l → firstDecode s.impl_ A = some v →
      decodeCount (s.process Lst packet A).2 = 1 ∧
      (decodeFailed v.status v.pixelBuffer = true →
        listenerCount (s.process Lst packet A).2 = 0)) := by
  cases hl : s.listener_ with
  | none =>
    rw [process_without_listener Lst s packet A hl]
    exact ⟨rfl, rfl, Nat.zero_le _, fun l v h1 => by simp at h1⟩
  | some l =>
    cases hf : firstDecode s.impl_ A with
    | none =>
      obtain ⟨h1, h2⟩ := process_early Lst s packet A hf
      rw [setupCount_observed, decodeCount_observed, h2, h1]
      exact ⟨rfl, rfl, Nat.zero_le _, fun l v _ h3 => by simp at h3⟩
    | some v =>
      obtain ⟨bb, sb, hbb, hsb, hbs, hss, rfl⟩ := firstDecode_eq_some s.impl_ A v hf
      obtain ⟨-, himpl, hobs⟩ := process_of_buffers Lst s packet A l bb sb hl hbb hsb hbs hss
      have hno : ¬(decodeFailed (firstAttempt s.impl_ sb A).1.status
          (firstAttempt s.impl_ sb A).1.pixelBuffer = true ∧
          s.impl_.currentCodec = CMVideoCodecType.JPEG) := by
        intro hc
        simp [fallbackTaken, hl, hf, hc.1, hc.2] at h
      obtain ⟨ha1, ha2, ha3⟩ := attempts_direct s.impl_ bb sb A hno
      rw [ha1, ha2, ha3] at hobs
      have hfin := finish_counts Lst l s.impl_ packet (firstAttempt s.impl_ sb A).1 A
      have hd : decodeCount (s.process Lst packet A).2 = 1 := by
        rw [decodeCount_observed, hobs]
        simp only [List.cons_append, List.nil_append, List.countP_cons, hfin.2.1,
          VTEvent.isDecode, if_true]
      refine ⟨by rw [himpl, ha1], ?_, le_of_eq hd, ?_⟩
      · rw [setupCount_observed, hobs]
        simp only [List.cons_append, List.nil_append, List.countP_cons, hfin.1,
          VTEvent.isSetupDecoder, Bool.false_eq_true, if_false]
      · intro l2 v2 _ hv
        simp only [Option.some.injEq] at hv
        subst hv
        refine ⟨hd, fun hfail => ?_⟩
        rw [listenerCount_observed, hobs]
        simp only [List.cons_append, List.nil_append, List.countP_cons, hfin.2.2, hfail,
          VTEvent.isListenerCall, Bool.false_eq_true, if_false, if_true]

/-- A `process` call that enters the fallback block calls `setupDecoder` once
and attempts at most two decodes. -/
theorem process_fallback_counts (Lst : FrameListener L) (s : VTRgbPacketProcessor L)
    (packet : RgbPacket) (A : ProcessAnswers) (h : fallbackTaken s A = true) :
    (s.process Lst packet A).1.impl_ =
      (setupDecoder s.impl_ CMVideoCodecType.AppleProRes422 A.setup).2.1 ∧
    setupCount (s.process Lst packet A).2 = 1 ∧
    decodeCount (s.process Lst packet A).2 ≤ 2 ∧
    s.impl_.currentCodec = CMVideoCodecType.JPEG ∧
    ∃ v, firstDecode s.impl_ A = some v ∧ decodeFailed v.status v.pixelBuffer = true := by
  cases hl : s.listener_ with
  | none => simp [fallbackTaken, hl] at h
  | some l =>
    cases hf : firstDecode s.impl_ A with
    | none => simp [fallbackTaken, hl, hf] at h
    | some v =>
      have hv : decodeFailed v.status v.pixelBuffer = true ∧
          s.impl_.currentCodec = CMVideoCodecType.JPEG := by
        simpa [fallbackTaken, hl, hf] using h
      obtain ⟨bb, sb, hbb, hsb, hbs, hss, rfl⟩ := firstDecode_eq_some s.impl_ A v hf
      obtain ⟨-, himpl, hobs⟩ := process_of_buffers Lst s packet A l bb sb hl hbb hsb hbs hss
      obtain ⟨ha1, ha2, ha3⟩ := attempts_fallback s.impl_ bb sb A hv.1 hv.2
      rw [ha1, ha2, ha3, observed_fallback] at hobs
      have hfin := finish_counts Lst l
        (setupDecoder s.impl_ CMVideoCodecType.AppleProRes422 A.setup).2.1 packet
        (fallback s.impl_ bb sb (firstAttempt s.impl_ sb A).1 A).2.1 A
      refine ⟨by rw [himpl, ha1], ?_, ?_, hv.2, _, rfl, hv.1⟩
      · rw [setupCount_observed, hobs]
        simp only [List.cons_append, List.countP_cons, List.countP_append, hfin.1,
          VTEvent.isSetupDecoder, Bool.false_eq_true, if_false, if_true]
        split_ifs <;> try rfl
        cases A.sampleBuffer2 <;> rfl
      · rw [decodeCount_observed, hobs]
        simp only [List.cons_append, List.countP_cons, List.countP_append, hfin.2.1,
          VTEvent.isDecode, Bool.false_eq_true, if_false, if_true]
        split_ifs
        · cases A.sampleBuffer2 <;> simp [VTEvent.isDecode]
        · simp

/-- A run that starts with the codec ProRes422 ends with the codec
ProRes422. -/
theorem runColor_stays_secondary (Lst : FrameListener L)
    (calls : List (RgbPacket × ProcessAnswers)) :
    ∀ s : VTRgbPacketProcessor L, s.impl_.currentCodec = CMVideoCodecType.AppleProRes422 →
      (runColor Lst s calls).1.impl_.currentCodec = CMVideoCodecType.AppleProRes422 := by
  induction calls with
  | nil => intro s h; exact h
  | cons c rest ih =>
    intro s h
    obtain ⟨p, A⟩ := c
    simp only [runColor]
    apply ih
    rw [process_currentCodec]
    split_ifs
    · rfl
    · exact h

/-- When `setupDecoder` has to build a session (the codec differs from the
current one), the pipeline holds a live session afterwards exactly when it
returns true, and it leaves the decoder null when it returns false. -/
theorem setupDecoder_live (impl : VTRgbPacketProcessorImpl) (codecType : CMVideoCodecType)
    (A : SetupAnswers) (h : impl.currentCodec ≠ codecType) :
    liveSession (setupDecoder impl codecType A).2.1 = (setupDecoder impl codecType A).1 ∧
    ((setupDecoder impl codecType A).1 = false →
      (setupDecoder impl codecType A).2.1.decoder = none) := by
  have hinit : ∀ i : VTRgbPacketProcessorImpl,
      (initTextureCache i A).1.decoder = i.decoder ∧
        (initTextureCache i A).1.format = i.format := by
    intro i
    unfold initTextureCache
    split
    · exact ⟨rfl, rfl⟩
    · split
      · exact ⟨rfl, rfl⟩
      · split <;> exact ⟨rfl, rfl⟩
  unfold setupDecoder
  simp only [liveSession]
  split_ifs with h1 h2 h3 h4 h5 h6 h7 h8
  · exact absurd h1.2 h
  · simp [cleanup]
  · simp [cleanup]
  · simp [cleanup]
  · simp [cleanup]
  · simp [cleanup]
  · simp [cleanup]
  · simp only [Bool.not_eq_false] at h8
    cases hd : A.decoder with
    | none => simp [cleanup, hd] at h8 ⊢
    | some d => simp [hd] at h8
  · rw [(hinit _).1, (hinit _).2]
    simp only [Bool.not_eq_false] at h3 h8
    simp [h3, h8]

/-- A `process` call that starts with the codec ProRes422 does not enter the
fallback block. -/
theorem fallbackTaken_secondary (s : VTRgbPacketProcessor L) (A : ProcessAnswers)
    (h : s.impl_.currentCodec = CMVideoCodecType.AppleProRes422) :
    fallbackTaken s A = false := by
  unfold fallbackTaken
  cases s.listener_.isSome <;> cases firstDecode s.impl_ A <;> simp [h]

/-- Once the codec is ProRes422, no sequence of `process` calls changes the
implementation object: no session is created or released any more. -/
theorem runColor_secondary_impl (Lst : FrameListener L)
    (calls : List (RgbPacket × ProcessAnswers)) :
    ∀ s : VTRgbPacketProcessor L, s.impl_.currentCodec = CMVideoCodecType.AppleProRes422 →
      (runColor Lst s calls).1.impl_ = s.impl_ := by
  induction calls with
  | nil => intro s _; rfl
  | cons c rest ih =>
    intro s h
    obtain ⟨p, A⟩ := c
    have h1 := (process_direct Lst s p A (fallbackTaken_secondary s A h)).1
    simp only [runColor]
    rw [ih _ (by rw [h1]; exact h), h1]

/-- C11 as stated fails: a fresh pipeline holds a live session; a call whose
JPEG decode fails and whose ProRes422 session cannot be created returns with
the decoder null, so the pipeline holds no live session.  In the next call,
although the system would now create the session and decode the packet, the
only decode is attempted on the null decoder, `setupDecoder` is not called, the
listener is not invoked and the decoder is still null. -/
theorem C11_counterexample :
    liveSession (VTRgbPacketProcessor.new (some ()) okSetup).impl_ = true ∧
    liveSession ((VTRgbPacketProcessor.new (some ()) okSetup).process (constListener true)
      (demoRgbPacket 1 10) (demoAnswers failingDecode failingDecode noSessionSetup)).1.impl_ =
        false ∧
    ((VTRgbPacketProcessor.new (some ()) okSetup).process (constListener true)
      (demoRgbPacket 1 10)
      (demoAnswers failingDecode failingDecode noSessionSetup)).1.impl_.decoder = none ∧
    observed ((((VTRgbPacketProcessor.new (some ()) okSetup).process (constListener true)
        (demoRgbPacket 1 10) (demoAnswers failingDecode failingDecode noSessionSetup)).1).process
        (constListener true) (demoRgbPacket 2 20)
        (demoAnswers failingDecode goodDecode okSetup)).2 =
      [VTEvent.VTDecompressionSessionDecodeFrame none 21 (-12909)] ∧
    liveSession ((((VTRgbPacketProcessor.new (some ()) okSetup).process (constListener true)
        (demoRgbPacket 1 10) (demoAnswers failingDecode failingDecode noSessionSetup)).1).process
        (constListener true) (demoRgbPacket 2 20)
        (demoAnswers failingDecode goodDecode okSetup)).1.impl_ = false := by
  refine ⟨by decide, by decide, by decide, rfl, by decide⟩

/-- C11, amended: for every pipeline state holding a live decode session and
every packet, a `process` call that does not enter the fallback block (whatever
fails in it) leaves the implementation object as it was, so the session is
still live; a call that enters the fallback block holds a live session
afterwards exactly when `setupDecoder(ProRes422)` returned true.  When that
setup fails, the call returns with the decoder null and the codec ProRes422,
and the decoder is still null after every later sequence of `process`
calls. -/
theorem C11_session_survives_unless_fallback_setup_fails (Lst : FrameListener L)
    (s : VTRgbPacketProcessor L) (packet : RgbPacket) (A : ProcessAnswers)
    (hlive : liveSession s.impl_ = true) :
    (fallbackTaken s A = false →
      (s.process Lst packet A).1.impl_ = s.impl_ ∧
      liveSession (s.process Lst packet A).1.impl_ = true) ∧
    (fallbackTaken s A = true →
      liveSession (s.process Lst packet A).1.impl_ =
        (setupDecoder s.impl_ CMVideoCodecType.AppleProRes422 A.setup).1 ∧
      ((setupDecoder s.impl_ CMVideoCodecType.AppleProRes422 A.setup).1 = false →
        (s.process Lst packet A).1.impl_.decoder = none ∧
        (s.process Lst packet A).1.impl_.currentCodec = CMVideoCodecType.AppleProRes422 ∧
        ∀ calls : List (RgbPacket × ProcessAnswers),
          (runColor Lst (s.process Lst packet A).1 calls).1.impl_.decoder = none ∧
          liveSession (runColor Lst (s.process Lst packet A).1 calls).1.impl_ = false)) := by
  constructor
  · intro hft
    have h1 := (process_direct Lst s packet A hft).1
    exact ⟨h1, by rw [h1]; exact hlive⟩
  · intro hft
    obtain ⟨h1, -, -, h4, -⟩ := process_fallback_counts Lst s packet A hft
    have hne : s.impl_.currentCodec ≠ CMVideoCodecType.AppleProRes422 := by
      rw [h4]; decide
    obtain ⟨g1, g2⟩ := setupDecoder_live s.impl_ CMVideoCodecType.AppleProRes422 A.setup hne
    have hcodec : (s.process Lst packet A).1.impl_.currentCodec =
        CMVideoCodecType.AppleProRes422 := by
      rw [h1]; exact setupDecoder_currentCodec _ _ _
    refine ⟨by rw [h1]; exact g1, fun hfalse => ?_⟩
    have hdec : (s.process Lst packet A).1.impl_.decoder = none := by
      rw [h1]; exact g2 hfalse
    refine ⟨hdec, hcodec, fun calls => ?_⟩
    rw [runColor_secondary_impl Lst calls _ hcodec]
    exact ⟨hdec, by simp [liveSession, hdec]⟩

/-- C11, evaluated: the JPEG decode fails and the ProRes422 session is
created. -/
theorem C11_session_survives_unless_fallback_setup_fails_witness :
    liveSession (VTRgbPacketProcessor.new (some ()) okSetup).impl_ = true ∧
      fallbackTaken (VTRgbPacketProcessor.new (some ()) okSetup : VTRgbPacketProcessor Unit)
        (demoAnswers failingDecode goodDecode okSetup) = true ∧
      liveSession ((VTRgbPacketProcessor.new (some ()) okSetup).process (constListener true)
          (demoRgbPacket 1 10) (demoAnswers failingDecode goodDecode okSetup)).1.impl_ =
        (setupDecoder (VTRgbPacketProcessor.new (some ()) okSetup :
            VTRgbPacketProcessor Unit).impl_
          CMVideoCodecType.AppleProRes422 (demoAnswers failingDecode goodDecode okSetup).setup).1 :=
  ⟨by decide, by decide,
    ((C11_session_survives_unless_fallback_setup_fails (constListener true)
      (VTRgbPacketProcessor.new (some ()) okSetup) (demoRgbPacket 1 10)
      (demoAnswers failingDecode goodDecode okSetup) (by decide)).2 (by decide)).1⟩

/-- A `process` call that returns before the decode stage (no listener, or a
buffer is not created) attempts no decode, does not call `setupDecoder` and
invokes no listener. -/
theorem process_not_reached (Lst : FrameListener L) (s : VTRgbPacketProcessor L)
    (packet : RgbPacket) (A : ProcessAnswers)
    (h : s.listener_ = none ∨ firstDecode s.impl_ A = none) :
    decodeCount (s.process Lst packet A).2 = 0 ∧ setupCount (s.process Lst packet A).2 = 0 ∧
      listenerCount (s.process Lst packet A).2 = 0 := by
  rcases h with h | h
  · rw [process_without_listener Lst s packet A h]
    exact ⟨rfl, rfl, rfl⟩
  · rw [decodeCount_observed, setupCount_observed, listenerCount_observed,
      (process_early Lst s packet A h).2]
    exact ⟨rfl, rfl, rfl⟩

/-- C16 as stated fails: with the codec ProRes422 at entry, a `process` call
that returns before the decode stage attempts no decode instead of exactly
one.  This happens when the block buffer cannot be created, when the sample
buffer cannot be created, and when no listener is attached. -/
theorem C16_counterexample :
    secondaryPipeline.impl_.currentCodec = CMVideoCodecType.AppleProRes422 ∧
    secondaryPipeline.listener_ = some () ∧
    decodeCount (secondaryPipeline.process (constListener true) (demoRgbPacket 2 20)
      noBlockBufferAnswers).2 = 0 ∧
    decodeCount (secondaryPipeline.process (constListener true) (demoRgbPacket 2 20)
      noSampleBufferAnswers).2 = 0 ∧
    decodeCount ((VTRgbPacketProcessor.process (constListener true)
      { listener_ := none, impl_ := secondaryPipeline.impl_ } (demoRgbPacket 2 20)
      (demoAnswers goodDecode goodDecode okSetup)).2) = 0 := by
  decide

/-- C16, amended: in every colour `process` call the configured codec changes
only from JPEG to ProRes422 and only when the first decode of that call was
reached and failed; `setupDecoder`, the only place that writes the codec, is
called at most once per call, and at most two decodes are attempted.  If the
codec at entry is ProRes422, `setupDecoder` is not called and the
implementation object is left as it was (so the codec stays ProRes422);
exactly one decode is attempted when the call reaches the decode stage (a
listener is attached, the block buffer and the sample buffer are created), and
a failure of that decode invokes no listener; no decode is attempted and no
listener is invoked when the call returns before that stage.  No sequence of
`process` calls moves the codec from ProRes422 back to JPEG. -/
theorem C16_codec_moves_one_way (Lst : FrameListener L) (s : VTRgbPacketProcessor L)
    (packet : RgbPacket) (A : ProcessAnswers) :
    ((s.process Lst packet A).1.impl_.currentCodec ≠ s.impl_.currentCodec →
      s.impl_.currentCodec = CMVideoCodecType.JPEG ∧
      (s.process Lst packet A).1.impl_.currentCodec = CMVideoCodecType.AppleProRes422 ∧
      ∃ v, firstDecode s.impl_ A = some v ∧ decodeFailed v.status v.pixelBuffer = true) ∧
    setupCount (s.process Lst packet A).2 ≤ 1 ∧
    decodeCount (s.process Lst packet A).2 ≤ 2 ∧
    (s.impl_.currentCodec = CMVideoCodecType.AppleProRes422 →
      (s.process Lst packet A).1.impl_ = s.impl_ ∧
      setupCount (s.process Lst packet A).2 = 0 ∧
      (∀ l v, s.listener_ = some l → firstDecode s.impl_ A = some v →
        decodeCount (s.process Lst packet A).2 = 1 ∧
        (decodeFailed v.status v.pixelBuffer = true →
          listenerCount (s.process Lst packet A).2 = 0)) ∧
      (s.listener_ = none ∨ firstDecode s.impl_ A = none →
        decodeCount (s.process Lst packet A).2 = 0 ∧
        listenerCount (s.process Lst packet A).2 = 0)) ∧
    (∀ calls : List (RgbPacket × ProcessAnswers),
      s.impl_.currentCodec = CMVideoCodecType.AppleProRes422 →
        (runColor Lst s calls).1.impl_.currentCodec = CMVideoCodecType.AppleProRes422) := by
  have hnr := process_not_reached Lst s packet A
  cases hft : fallbackTaken s A with
  | true =>
    obtain ⟨h1, h2, h3, h4, h5⟩ := process_fallback_counts Lst s packet A hft
    refine ⟨fun _ => ⟨h4, ?_, h5⟩, le_of_eq h2, h3, fun hc => ?_,
      fun calls => runColor_stays_secondary Lst calls s⟩
    · rw [h1]; exact setupDecoder_currentCodec _ _ _
    · rw [h4] at hc; exact absurd hc (by decide)
  | false =>
    obtain ⟨h1, h2, h3, h4⟩ := process_direct Lst s packet A hft
    refine ⟨fun hne => absurd (by rw [h1]) hne, by omega, by omega,
      fun _ => ⟨h1, h2, h4, fun h => ⟨(hnr h).1, (hnr h).2.2⟩⟩,
      fun calls => runColor_stays_secondary Lst calls s⟩

/-- The buffer events of a concatenation. -/
theorem bufferEvents_append (xs ys : List VTEvent) :
    bufferEvents (xs ++ ys) = bufferEvents xs ++ bufferEvents ys := by
  simp [bufferEvents]

/-- An event that is not a buffer event leaves the ledger as it is. -/
theorem bufferStep_other (e : VTEvent) (live : BufferLedger)
    (h : e.isBufferEvent = false) : bufferStep e live = some live := by
  cases e <;> simp_all [VTEvent.isBufferEvent, bufferStep]
  rename_i t obj
  cases t <;> simp_all [VTEvent.isBufferEvent]

/-- The ledger depends on the buffer events only. -/
theorem trackBuffers_bufferEvents (log : List VTEvent) :
    ∀ live, trackBuffers log live = trackBuffers (bufferEvents log) live := by
  induction log with
  | nil => intro live; rfl
  | cons e es ih =>
    intro live
    cases he : e.isBufferEvent with
    | true =>
      simp only [bufferEvents, List.filter_cons, he, if_true, trackBuffers]
      cases bufferStep e live with
      | none => rfl
      | some live1 => exact ih live1
    | false =>
      simp only [bufferEvents, List.filter_cons, he, Bool.false_eq_true, if_false, trackBuffers,
        bufferStep_other e live he]
      exact ih live

/-- `setupDecoder` creates and releases no block buffer and no sample
buffer. -/
theorem bufferEvents_setupDecoder (impl : VTRgbPacketProcessorImpl)
    (codecType : CMVideoCodecType) (A : SetupAnswers) :
    bufferEvents (setupDecoder impl codecType A).2.2 = [] := by
  have hc : bufferEvents (cleanup impl).2 = [] := by
    unfold cleanup
    cases impl.decoder <;> cases impl.format <;> rfl
  have hi : ∀ i : VTRgbPacketProcessorImpl, bufferEvents (initTextureCache i A).2 = [] := by
    intro i
    unfold initTextureCache
    cases i.textureCache <;> cases A.device <;> simp only <;> try rfl
    split <;> rfl
  unfold setupDecoder
  simp only
  split_ifs <;> simp only [bufferEvents_append, hc, hi] <;> rfl

/-- A decode creates and releases no block buffer and no sample buffer. -/
theorem bufferEvents_decode (decoder : Option Nat) (sb : Nat) (pb : Option Nat)
    (D : DecodeAnswer) : bufferEvents (decode decoder sb pb D).2.2 = [] := by
  unfold decode
  cases hc : D.callback with
  | none => rfl
  | some c =>
    obtain ⟨st, p⟩ := c
    simp only [decodeFrame]
    cases p <;> split_ifs <;> simp_all [bufferEvents, VTEvent.isBufferEvent]

/-- The end of `process` creates and releases no block buffer and no sample
buffer. -/
theorem bufferEvents_finish (Lst : FrameListener L) (l : L) (impl : VTRgbPacketProcessorImpl)
    (packet : RgbPacket) (v : DecodeLocals) (A : ProcessAnswers) :
    bufferEvents (finish Lst l impl packet v A).2 = [] := by
  have hnew : ∀ (pb tc : Option Nat),
      bufferEvents (VTFrame.new A.frameId 1920 1080 4 pb tc A.texture).2 = [] := by
    intro pb tc
    unfold VTFrame.new
    cases tc <;> cases pb <;> simp only <;> try rfl
    split_ifs <;> try rfl
    cases A.texture.metalTextureRef <;> simp only <;> try rfl
    cases A.texture.metalTexture <;> rfl
  have hdel : ∀ f : VTFrame, bufferEvents f.delete = [] := by
    intro f
    unfold VTFrame.delete
    cases f.pixelBuffer <;> cases f.textureCache <;> cases f.usingMetal <;> rfl
  unfold finish
  cases hp : v.pixelBuffer with
  | none => rfl
  | some pb =>
    by_cases hs : v.status = noErr
    · simp only [hs, if_true, bufferEvents_append, hnew]
      cases hres : (Lst.onNewFrame l FrameType.Color (colorFrame impl packet pb A).toFrame).1 with
      | true => rfl
      | false =>
        have hd := hdel (colorFrame impl packet pb A)
        simp only [bufferEvents, List.filter_cons, List.filter_nil, List.nil_append,
          VTEvent.isBufferEvent, Bool.false_eq_true, if_false, if_true] at hd ⊢
        exact hd
    · simp only [hs, if_false]
      rfl

/-- The buffer events of the decode attempts, and the sample buffer held
afterwards: when the fallback block is entered and `setupDecoder` succeeds, the
first sample buffer is released and a second one is created; otherwise nothing
happens to the buffers. -/
theorem bufferEvents_attempts (impl : VTRgbPacketProcessorImpl) (bb sb : Nat)
    (A : ProcessAnswers) :
    (bufferEvents (attempts impl bb sb A).2.2 = [] ∧
      (attempts impl bb sb A).2.1.sampleBuffer = some sb) ∨
    (bufferEvents (attempts impl bb sb A).2.2 =
        [VTEvent.CFRelease CFObjectType.CMSampleBufferRef sb,
          VTEvent.CMSampleBufferCreate bb
            (setupDecoder impl CMVideoCodecType.AppleProRes422 A.setup).2.1.format
            A.sampleStatus2 A.sampleBuffer2] ∧
      (attempts impl bb sb A).2.1.sampleBuffer = A.sampleBuffer2) := by
  unfold attempts
  simp only
  split_ifs with h
  · have hfirst : bufferEvents (firstAttempt impl sb A).2 = [] := bufferEvents_decode _ _ _ _
    simp only [bufferEvents_append, hfirst, List.nil_append]
    unfold fallback
    simp only
    cases hr : (setupDecoder impl CMVideoCodecType.AppleProRes422 A.setup).1 with
    | false =>
      left
      simp only [Bool.false_eq_true, if_false, bufferEvents_append, bufferEvents_setupDecoder]
      exact ⟨rfl, rfl⟩
    | true =>
      right
      simp only [if_true]
      cases hsb : A.sampleBuffer2 with
      | none =>
        simp only [bufferEvents_append, bufferEvents_setupDecoder]
        exact ⟨rfl, trivial⟩
      | some sb2 =>
        simp only
        split_ifs <;>
          simp only [bufferEvents_append, bufferEvents_setupDecoder, bufferEvents_decode] <;>
          exact ⟨rfl, trivial⟩
  · left
    exact ⟨bufferEvents_decode _ _ _ _, rfl⟩

/-- The ledger reports a buffer that is never released as live at the end,
and has no result for a buffer that is released twice. -/
theorem trackBuffers_detects (b : Nat) :
    trackBuffers [VTEvent.CMBlockBufferCreateWithMemoryBlock noErr (some b)] ⟨[], []⟩ =
      some ⟨[(CFObjectType.CMBlockBufferRef, b)], []⟩ ∧
    trackBuffers [VTEvent.CMBlockBufferCreateWithMemoryBlock noErr (some b),
      VTEvent.CFRelease CFObjectType.CMBlockBufferRef b,
      VTEvent.CFRelease CFObjectType.CMBlockBufferRef b] ⟨[], []⟩ = none := by
  simp [trackBuffers, bufferStep, BufferLedger.create, BufferLedger.release]

/-- The branch of the fallback block in which the sample buffer is not created
again, with a system that stores a reference although it reports the error:
the block buffer 20 and the first sample buffer 21 are each created and
released once, and the reference 22 of the failed creation is released once at
the end of `process`. -/
theorem trackBuffers_stray_reference :
    bufferEvents ((VTRgbPacketProcessor.new (some ()) okSetup).process (constListener true)
        (demoRgbPacket 1 10) strayReferenceAnswers).2 =
      [VTEvent.CMBlockBufferCreateWithMemoryBlock 0 (some 20),
        VTEvent.CMSampleBufferCreate 20 (some 10) 0 (some 21),
        VTEvent.CFRelease CFObjectType.CMSampleBufferRef 21,
        VTEvent.CMSampleBufferCreate 20 (some 10) (-12731) (some 22),
        VTEvent.CFRelease CFObjectType.CMSampleBufferRef 22,
        VTEvent.CFRelease CFObjectType.CMBlockBufferRef 20] ∧
    trackBuffers ((VTRgbPacketProcessor.new (some ()) okSetup).process (constListener true)
        (demoRgbPacket 1 10) strayReferenceAnswers).2 ⟨[], []⟩ = some ⟨[], []⟩ := by
  refine ⟨rfl, ?_⟩
  rw [trackBuffers_bufferEvents]
  decide

/-- C12: in every `process` call, for every answer of the system and on every
exit path (no listener, block-buffer creation failure, sample-buffer creation
failure, first decode successful, each branch of the fallback block, final
decode failure), every block buffer and every sample buffer created by a call
that returned `noErr` is released exactly once before `process` returns, and
nothing is released twice: starting with no buffer, the events of the call
end with no live buffer, and every `CFRelease` of a block buffer or sample
buffer releases a buffer that is live at that moment or a reference stored by
a creation call that reported an error. -/
theorem C12_buffers_released_exactly_once (Lst : FrameListener L)
    (s : VTRgbPacketProcessor L) (packet : RgbPacket) (A : ProcessAnswers) :
    ∃ stray, trackBuffers (s.process Lst packet A).2 ⟨[], []⟩ = some ⟨[], stray⟩ := by
  rw [trackBuffers_bufferEvents]
  unfold process
  cases hl : s.listener_ with
  | none => exact ⟨[], rfl⟩
  | some l =>
    simp only
    unfold decodePhase
    cases hbb : A.blockBuffer with
    | none => exact ⟨[], rfl⟩
    | some bb =>
      by_cases hbs : A.blockStatus = noErr
      · cases hsb : A.sampleBuffer with
        | none =>
          simp [hbs, bufferEvents, VTEvent.isBufferEvent, trackBuffers, bufferStep,
            BufferLedger.create, BufferLedger.release]
        | some sb =>
          by_cases hss : A.sampleStatus = noErr
          · simp only [hbs, hss, ne_eq, not_true_eq_false, if_false, bufferEvents_append,
              bufferEvents_finish, List.append_nil]
            rcases bufferEvents_attempts s.impl_ bb sb A with ⟨h1, h2⟩ | ⟨h1, h2⟩
            · rw [h1, h2]
              simp [bufferEvents, VTEvent.isBufferEvent, trackBuffers, bufferStep, releaseBuffers,
                BufferLedger.create, BufferLedger.release, hbs, hss]
            · rw [h1, h2]
              cases hsb2 : A.sampleBuffer2 with
              | none =>
                simp [bufferEvents, VTEvent.isBufferEvent, trackBuffers, bufferStep,
                  releaseBuffers, BufferLedger.create, BufferLedger.release, hbs, hss]
              | some sb2 =>
                by_cases hs2 : A.sampleStatus2 = noErr
                · simp [bufferEvents, VTEvent.isBufferEvent, trackBuffers, bufferStep,
                    releaseBuffers, BufferLedger.create, BufferLedger.release, hbs, hss, hs2]
                · simp [bufferEvents, VTEvent.isBufferEvent, trackBuffers, bufferStep,
                    releaseBuffers, BufferLedger.create, BufferLedger.release, hbs, hss, hs2]
          · simp [hbs, hss, bufferEvents, VTEvent.isBufferEvent, trackBuffers, bufferStep,
              BufferLedger.create, BufferLedger.release]
      · simp [hbs, bufferEvents, VTEvent.isBufferEvent, trackBuffers, bufferStep,
          BufferLedger.create, BufferLedger.release]

end ColorLemmas

end libfreenect2
